import Mathlib

/-!
# Trip-planner: the request handlers of `backend/server.js` and two pages of the client

A shallow embedding of the request handlers of `backend/server.js`
(`POST /api/chat-plan`, `POST /api/generate-trip`,
`POST /api/generate-packing-list`, `GET /api/search-hotels`,
`GET /api/hotel-details/:hotel_id`, and the user routes
`PUT /api/user/update-profile`, `POST /api/user/update-password`,
`GET /api/user/profile/:userId`, `POST /api/auth/login`,
`GET /api/debug/users`), of the chat state of `src/PlanTrip.js`
(`sendMessage`, `handleServerResponse`) and of `savePackage` of
`src/BudgetPlanner.js`, together with the runtime services they rely on:
`JSON.parse`, `JSON.stringify`, `String.prototype.match` for the one regular
expression the source uses, and the string and number functions of the hotel
routes.

Conventions.
* A JavaScript value that can reach the handlers is a `JsVal` (the JSON
  values); `undefined` is `none` in `Option JsVal`.
* A number that `JSON.parse` read is carried as the text of its literal.  Two
  values that are equal here are equal in JavaScript; the converse can fail
  for numbers (`1.0` and `1`), so equalities proved here are at least as
  strong.  Where the source computes with a number (`parseFloat`, `parseInt`,
  truthiness, `===`, `<`, conversion to text) the number is a `JsNumber`, an
  IEEE 754 double: `roundToDouble` rounds to nearest, ties to even, and
  `JsNumber.toText` writes the shortest decimal that reads back as the same
  double, as `Number::toString` does.
* A `throw` is `Except.error`; `try { a } catch { b }` is `tryCatch a b`.
* Text is a `String`, a sequence of code points; the parser works on its list
  of characters.  Lengths and cuts that JavaScript counts in UTF-16 code units
  are `jsLength` and `sliceUnits`; a surrogate left alone by a cut is written
  U+FFFD.
* `toLowerCase` is the default lower-case conversion of Unicode 14, the
  Final_Sigma rule included.
* A query parameter is a `QueryValue`: a text, or the array or object the
  query-string reader of Express builds for a repeated or bracketed key.
-/

namespace TripPlanner

set_option maxRecDepth 2000

/-! ## JavaScript values -/

/-- JSON values, the values `JSON.parse` can produce. -/
inductive JsVal where
  | null : JsVal
  | bool (b : Bool) : JsVal
  | num (literal : String) : JsVal
  | str (s : String) : JsVal
  | arr (items : List JsVal) : JsVal
  | obj (members : List (String × JsVal)) : JsVal
  deriving Repr, Inhabited

/-- Exceptions the handlers can meet. -/
inductive JsError where
  | syntaxError : JsError
  | typeError : JsError
  | transport : JsError
  | auth : JsError
  | rateLimit : JsError
  deriving Repr, DecidableEq

/-- Own-property lookup in an object's member list. -/
def lookup (key : String) : List (String × JsVal) → Option JsVal
  | [] => none
  | (k, v) :: rest => if k = key then some v else lookup key rest

/-- Property definition as `JSON.parse` performs it: an existing key keeps
its place and takes the new value, a new key goes last.  (JavaScript lists keys
that are array indices first; `lookup` does not depend on the order.) -/
def setProp (key : String) (v : JsVal) : List (String × JsVal) → List (String × JsVal)
  | [] => [(key, v)]
  | (k, w) :: rest => if k = key then (k, v) :: rest else (k, w) :: setProp key v rest

/-- The `typeof` operator on the values of the model. -/
def JsVal.typeof : JsVal → String
  | .null => "object"
  | .bool _ => "boolean"
  | .num _ => "number"
  | .str _ => "string"
  | .arr _ => "object"
  | .obj _ => "object"

/-- Member access `v.name` for a name that is neither an array index nor a
built-in property (`assistant_message`, `plan`, `candidates`, `content`,
`parts`, `text`): `null` throws a TypeError, an object yields its own
property, every other value yields `undefined`. -/
def JsVal.getProp (v : JsVal) (name : String) : Except JsError (Option JsVal) :=
  match v with
  | .null => .error .typeError
  | .obj members => .ok (lookup name members)
  | _ => .ok none

/-- Element access `v[0]`: `null` throws, an array yields its first element,
a string its first character, an object its property `"0"`. -/
def JsVal.getFirst (v : JsVal) : Except JsError (Option JsVal) :=
  match v with
  | .null => .error .typeError
  | .arr items => .ok items.head?
  | .str s => .ok (s.data.head?.map fun c => .str (String.mk [c]))
  | .obj members => .ok (lookup "0" members)
  | _ => .ok none

/-- The nullish coalescing operator `a ?? b`. -/
def nullish (a : Option JsVal) (b : JsVal) : JsVal :=
  match a with
  | none => b
  | some .null => b
  | some v => v

/-- Optional chaining `a?.access`: `undefined` when `a` is `undefined` or
`null`, the access otherwise. -/
def optChain (a : Option JsVal) (access : JsVal → Except JsError (Option JsVal)) :
    Except JsError (Option JsVal) :=
  match a with
  | none => .ok none
  | some .null => .ok none
  | some v => access v

/-! ## `JSON.parse` -/

namespace JSON

/-- JSON whitespace: space, tab, line feed, carriage return. -/
def isWs (c : Char) : Bool :=
  c = ' ' || c = '\t' || c = '\n' || c = '\r'

/-- Drop leading JSON whitespace. -/
def skipWs : List Char → List Char
  | [] => []
  | c :: cs => if isWs c then skipWs cs else c :: cs

/-- Decimal digit. -/
def isDigit (c : Char) : Bool :=
  '0'.toNat ≤ c.toNat && c.toNat ≤ '9'.toNat

/-- Value of a hexadecimal digit. -/
def hexVal (c : Char) : Option Nat :=
  if '0'.toNat ≤ c.toNat ∧ c.toNat ≤ '9'.toNat then some (c.toNat - '0'.toNat)
  else if 'a'.toNat ≤ c.toNat ∧ c.toNat ≤ 'f'.toNat then some (c.toNat - 'a'.toNat + 10)
  else if 'A'.toNat ≤ c.toNat ∧ c.toNat ≤ 'F'.toNat then some (c.toNat - 'A'.toNat + 10)
  else none

/-- The four hexadecimal digits of a `\u` escape, as a code unit. -/
def hex4 (a b c d : Char) : Option Nat :=
  match hexVal a, hexVal b, hexVal c, hexVal d with
  | some w, some x, some y, some z => some (((w * 16 + x) * 16 + y) * 16 + z)
  | _, _, _, _ => none

/-- Characters that can occur in a number literal. -/
def isNumChar (c : Char) : Bool :=
  isDigit c || c = '-' || c = '+' || c = '.' || c = 'e' || c = 'E'

/-- One or more digits and nothing else. -/
def allDigits (cs : List Char) : Bool :=
  !cs.isEmpty && cs.all isDigit

/-- The exponent part of a number, or nothing. -/
def validExp (cs : List Char) : Bool :=
  match cs with
  | [] => true
  | e :: rest =>
    (e = 'e' || e = 'E') &&
      (match rest with
       | s :: ds => if s = '+' ∨ s = '-' then allDigits ds else allDigits rest
       | [] => false)

/-- The fraction part of a number (optional), then the exponent part. -/
def validFrac (cs : List Char) : Bool :=
  match cs with
  | p :: d :: rest =>
    if p = '.' then isDigit d && validExp (rest.dropWhile isDigit) else validExp cs
  | _ => validExp cs

/-- The JSON number grammar: `-? (0 | [1-9][0-9]*) (. [0-9]+)? ([eE] [+-]? [0-9]+)?`. -/
def validNumber (cs : List Char) : Bool :=
  let body := match cs with
    | s :: rest => if s = '-' then rest else cs
    | [] => cs
  match body with
  | [] => false
  | d :: rest =>
    if d = '0' then validFrac rest
    else isDigit d && validFrac (rest.dropWhile isDigit)

/-- A pending high surrogate that found no low surrogate becomes U+FFFD (a
`Char` cannot hold a lone surrogate). -/
def flush (pending : Option Nat) (acc : List Char) : List Char :=
  match pending with
  | some _ => Char.ofNat 0xFFFD :: acc
  | none => acc

/-- The character of a two-character escape: `\"`, `\\`, `\/`, `\b`, `\f`,
`\n`, `\r`, `\t`. -/
def simpleEscape (e : Char) : Option Char :=
  if e = '"' then some '"'
  else if e = '\\' then some '\\'
  else if e = '/' then some '/'
  else if e = 'b' then some (Char.ofNat 8)
  else if e = 'f' then some (Char.ofNat 12)
  else if e = 'n' then some '\n'
  else if e = 'r' then some '\r'
  else if e = 't' then some '\t'
  else none

/-- The pending high surrogate after the code unit `u` of a `\u` escape. -/
def nextPending (u : Nat) : Option Nat :=
  if 0xD800 ≤ u ∧ u < 0xDC00 then some u else none

/-- The decoded text after the code unit `u` of a `\u` escape: a high
surrogate waits for its low surrogate; a low surrogate joins the pending high
surrogate into one character and is U+FFFD without one; any other unit is the
character of that code. -/
def pushUnit (pending : Option Nat) (u : Nat) (acc : List Char) : List Char :=
  if 0xD800 ≤ u ∧ u < 0xDC00 then flush pending acc
  else if 0xDC00 ≤ u ∧ u < 0xE000 then
    match pending with
    | some hi => Char.ofNat (0x10000 + (hi - 0xD800) * 0x400 + (u - 0xDC00)) :: acc
    | none => Char.ofNat 0xFFFD :: acc
  else Char.ofNat u :: flush pending acc

/-- The characters of a string literal after its opening quote: the decoded
text and what follows the closing quote.  Control characters must be escaped.
`pending` is the high surrogate of a `\u` escape just read. -/
def parseString : Option Nat → List Char → List Char → Option (String × List Char)
  | _, [], _ => none
  | pending, c :: cs, acc =>
    if c = '"' then some (String.mk (flush pending acc).reverse, cs)
    else if c = '\\' then
      match cs with
      | [] => none
      | e :: rest =>
        if e = 'u' then
          match rest with
          | h1 :: h2 :: h3 :: h4 :: rest4 =>
            match hex4 h1 h2 h3 h4 with
            | none => none
            | some u => parseString (nextPending u) rest4 (pushUnit pending u acc)
          | _ => none
        else
          match simpleEscape e with
          | some ch => parseString none rest (ch :: flush pending acc)
          | none => none
    else if c.toNat < 0x20 then none
    else parseString none cs (c :: flush pending acc)

/-- What the parser is in the middle of: a value, the elements of an array
(after `[` or `,`), the members of an object (after `{` or `,`). -/
inductive Task where
  | value : Task
  | elems (acc : List JsVal) : Task
  | members (acc : List (String × JsVal)) : Task

/-- Recursive-descent JSON parser.  The first argument bounds the number of
nested calls; `parse` supplies a bound that the input cannot exhaust.  The
result is the value and the input that follows it. -/
def run : Nat → Task → List Char → Option (JsVal × List Char)
  | 0, _, _ => none
  | _ + 1, _, [] => none
  | n + 1, .value, c :: cs =>
    if c = '{' then
      match skipWs cs with
      | [] => none
      | d :: ds => if d = '}' then some (.obj [], ds) else run n (.members []) (d :: ds)
    else if c = '[' then
      match skipWs cs with
      | [] => none
      | d :: ds => if d = ']' then some (.arr [], ds) else run n (.elems []) (d :: ds)
    else if c = '"' then
      match parseString none cs [] with
      | none => none
      | some (s, rest) => some (.str s, rest)
    else if c = '-' ∨ isDigit c then
      let lit := (c :: cs).takeWhile isNumChar
      if validNumber lit then some (.num (String.mk lit), (c :: cs).dropWhile isNumChar) else none
    else if c = 't' then
      match cs with
      | 'r' :: 'u' :: 'e' :: rest => some (.bool true, rest)
      | _ => none
    else if c = 'f' then
      match cs with
      | 'a' :: 'l' :: 's' :: 'e' :: rest => some (.bool false, rest)
      | _ => none
    else if c = 'n' then
      match cs with
      | 'u' :: 'l' :: 'l' :: rest => some (.null, rest)
      | _ => none
    else none
  | n + 1, .elems acc, c :: cs =>
    match run n .value (c :: cs) with
    | none => none
    | some (v, rest) =>
      match skipWs rest with
      | [] => none
      | d :: ds =>
        if d = ',' then run n (.elems (acc ++ [v])) (skipWs ds)
        else if d = ']' then some (.arr (acc ++ [v]), ds)
        else none
  | n + 1, .members acc, c :: cs =>
    if c = '"' then
      match parseString none cs [] with
      | none => none
      | some (key, rest) =>
        match skipWs rest with
        | [] => none
        | colon :: afterColon =>
          if colon = ':' then
            match run n .value (skipWs afterColon) with
            | none => none
            | some (v, rest2) =>
              match skipWs rest2 with
              | [] => none
              | d :: ds =>
                if d = ',' then run n (.members (setProp key v acc)) (skipWs ds)
                else if d = '}' then some (.obj (setProp key v acc), ds)
                else none
          else none
    else none

/-- The function `JSON.parse` on text: whitespace, one value, whitespace, end
of input; `none` is a thrown SyntaxError. -/
def parse (text : String) : Option JsVal :=
  let cs := skipWs text.data
  match run (2 * cs.length + 2) .value cs with
  | none => none
  | some (v, rest) => if skipWs rest = [] then some v else none

end JSON

/-! ## The regular expression of the salvage step -/

/-- An attempt of `/\{[\s\S]*\}$/` at the start of `cs`: the first character
must be `{`; `[\s\S]*` takes any characters; `\}$` asks for a `}` that is the
last character of the input.  The match, when there is one, runs to the end. -/
def matchHere (cs : List Char) : Option (List Char) :=
  match cs with
  | [] => none
  | c :: rest => if c = '{' ∧ rest.getLast? = some '}' then some (c :: rest) else none

/-- The call `text.match(/\{[\s\S]*\}$/)`: the attempts go from left to right
over the start positions and the first that succeeds is the match
(`jsonMatch[0]`); `none` is the `null` result. -/
def regexMatch : List Char → Option (List Char)
  | [] => none
  | c :: cs =>
    match matchHere (c :: cs) with
    | some m => some m
    | none => regexMatch cs

/-! ## HTTP responses -/

/-- What a handler sends: the status code and the JSON body. -/
structure Response where
  status : Nat
  body : JsVal

/-- The call `res.json(body)`: status 200 unless set before. -/
def resJson (body : JsVal) : Response :=
  { status := 200, body := body }

/-- The call `res.status(code).json(body)`. -/
def resStatusJson (code : Nat) (body : JsVal) : Response :=
  { status := code, body := body }

/-- The object literal `{ assistant_message, plan }`. -/
def chatPlanBody (assistant_message plan : JsVal) : JsVal :=
  .obj [("assistant_message", assistant_message), ("plan", plan)]

/-- The call `JSON.parse(text)` inside a `try`: a SyntaxError is thrown when
the text is not JSON. -/
def jsonParse (text : String) : Except JsError JsVal :=
  match JSON.parse text with
  | some v => .ok v
  | none => .error .syntaxError

/-! ## `POST /api/chat-plan` -/

/-- Message sent when the upstream reply has no text (server.js line 175). -/
def noResponseMessage : String :=
  "Sorry — I didn\x27t get a response from the AI."

/-- Message sent when the upstream call fails (server.js line 214). -/
def errorMessage : String :=
  "Sorry, I encountered an error."

/-- The body of the first `try` (server.js lines 182-190): strict parse of the
whole text. -/
def strictAttempt (responseText : String) : Except JsError Response := do
  let parsed ← jsonParse responseText
  if parsed.typeof = "string" then
    return resJson (chatPlanBody parsed .null)
  let assistant_message :=
    nullish (← parsed.getProp "assistant_message")
      (if parsed.typeof = "string" then parsed else .null)
  let plan := nullish (← parsed.getProp "plan") .null
  return resJson (chatPlanBody assistant_message plan)

/-- The body of the inner `try` (server.js lines 194-201): parse the match of
the regular expression; `none` when there is no match, so that control goes
on to the fallback. -/
def salvageAttempt (responseText : String) : Except JsError (Option Response) :=
  match regexMatch responseText.data with
  | some cleaned => do
    let parsed ← jsonParse (String.mk cleaned)
    let assistant_message := nullish (← parsed.getProp "assistant_message") .null
    let plan := nullish (← parsed.getProp "plan") .null
    return some (resJson (chatPlanBody assistant_message plan))
  | none => return none

/-- The fallback (server.js lines 207-210): the whole text as the message. -/
def rawTextFallback (responseText : String) : Response :=
  resJson (chatPlanBody (.str responseText) .null)

/-- Response normalisation of the chat-plan endpoint for an upstream response
text (server.js lines 172-211).  An `error` result would be an exception that
escapes to the outer `catch`. -/
def chatPlanNormalise (responseText : String) : Except JsError Response :=
  if responseText = "" then
    .ok (resJson (chatPlanBody (.str noResponseMessage) .null))
  else
    tryCatch (strictAttempt responseText) fun _parseErr =>
      match tryCatch (salvageAttempt responseText) (fun _innerErr => .ok none) with
      | .ok (some response) => .ok response
      | .ok none => .ok (rawTextFallback responseText)
      | .error e => .error e

/-- Member access `a.name` where `a` may be `undefined`: reading a property
of `undefined` or `null` throws a TypeError. -/
def access (a : Option JsVal) (get : JsVal → Except JsError (Option JsVal)) :
    Except JsError (Option JsVal) :=
  match a with
  | none => .error .typeError
  | some v => get v

/-- The expression `response.data.candidates?.[0]?.content?.parts?.[0]?.text`
(server.js line 170); `ok none` is `undefined`. -/
def extractText (data : JsVal) : Except JsError (Option JsVal) := do
  let candidates ← data.getProp "candidates"
  let candidate ← optChain candidates JsVal.getFirst
  let content ← optChain candidate fun v => v.getProp "content"
  let parts ← optChain content fun v => v.getProp "parts"
  let part ← optChain parts JsVal.getFirst
  optChain part fun v => v.getProp "text"

/-- The body sent from the outer `catch` of chat-plan (server.js line 214). -/
def chatPlanFailure : Response :=
  resStatusJson 500 (chatPlanBody (.str errorMessage) .null)

/-- The handler of `POST /api/chat-plan` from the result of the upstream call
on (server.js lines 159-215).  The upstream call either rejects (`error`) or
yields `response.data`.  A text that is `undefined` or `null` is falsy; a text
that is a string goes through `chatPlanNormalise`; the provider sends no other
kind of text, and the result for one is left open (`none`). -/
def chatPlanHandler (upstream : Except JsError JsVal) : Option Response :=
  match upstream with
  | .error _ => some chatPlanFailure
  | .ok data =>
    match extractText data with
    | .error _ => some chatPlanFailure
    | .ok none => some (resJson (chatPlanBody (.str noResponseMessage) .null))
    | .ok (some .null) => some (resJson (chatPlanBody (.str noResponseMessage) .null))
    | .ok (some (.str responseText)) =>
      match chatPlanNormalise responseText with
      | .ok response => some response
      | .error _ => some chatPlanFailure
    | .ok (some _) => none

/-! ## `POST /api/generate-trip` and `POST /api/generate-packing-list` -/

/-- The expression `response.data.candidates[0].content.parts[0].text`
(server.js lines 111 and 312): no optional chaining, so a missing level
throws. -/
def strictText (data : JsVal) : Except JsError (Option JsVal) := do
  let candidates ← data.getProp "candidates"
  let candidate ← access candidates JsVal.getFirst
  let content ← access candidate fun v => v.getProp "content"
  let parts ← access content fun v => v.getProp "parts"
  let part ← access parts JsVal.getFirst
  access part fun v => v.getProp "text"

/-- The object literal `{ error: message }`. -/
def errorBody (message : String) : JsVal :=
  .obj [("error", .str message)]

/-- The common shape of the two strict handlers: the text is parsed and the
parsed value is sent; every exception ends in the `catch`, which sends status
500 with the fixed error body.  `JSON.parse(undefined)` throws.  A text that
is present and not a string is left open (`none`), as for chat-plan. -/
def strictEndpoint (failure : String) (upstream : Except JsError JsVal) : Option Response :=
  match upstream with
  | .error _ => some (resStatusJson 500 (errorBody failure))
  | .ok data =>
    match strictText data with
    | .error _ => some (resStatusJson 500 (errorBody failure))
    | .ok none => some (resStatusJson 500 (errorBody failure))
    | .ok (some (.str responseText)) =>
      match jsonParse responseText with
      | .ok parsed => some (resJson parsed)
      | .error _ => some (resStatusJson 500 (errorBody failure))
    | .ok (some _) => none

/-- The handler of `POST /api/generate-trip` (server.js lines 111-117). -/
def generateTripHandler (upstream : Except JsError JsVal) : Option Response :=
  strictEndpoint "Failed to generate trip" upstream

/-- The handler of `POST /api/generate-packing-list` (server.js lines 312-317). -/
def generatePackingListHandler (upstream : Except JsError JsVal) : Option Response :=
  strictEndpoint "Failed to generate packing list" upstream

/-- The `assistant_message` field of a chat-plan result. -/
def assistantMessageOf (result : Except JsError Response) : Option JsVal :=
  match result with
  | .ok response =>
    match response.body with
    | .obj members => lookup "assistant_message" members
    | _ => none
  | .error _ => none

/-- The `plan` field of a chat-plan result. -/
def planOf (result : Except JsError Response) : Option JsVal :=
  match result with
  | .ok response =>
    match response.body with
    | .obj members => lookup "plan" members
    | _ => none
  | .error _ => none

/-- A Gemini reply whose only candidate has the one text part `text`. -/
def replyWithText (text : String) : JsVal :=
  .obj [("candidates", .arr [.obj [("content", .obj [("parts", .arr [.obj [("text", .str text)]]),
    ("role", .str "model")]), ("finishReason", .str "STOP")]])]

/-! ## Sample upstream texts -/

/-- The text `{"plan":null}`. -/
def planOnlyText : String :=
  "\x7b\"plan\":null\x7d"

/-- The text `{"plan":{"days":"three","stops":[1]},"note":true}`: a plan that
is not of the itinerary shape, and a member the response has no place for. -/
def oddPlanText : String :=
  "\x7b\"plan\":\x7b\"days\":\"three\",\"stops\":[1]\x7d,\"note\":true\x7d"

/-- The text `No plan yet {maybe later}`: not JSON, and the match of the
regular expression, `{maybe later}`, is not JSON either. -/
def proseText : String :=
  "No plan yet \x7bmaybe later\x7d"

/-- The text `Sure! {"assistant_message":"hi","plan":null}`: prose, then a
JSON object. -/
def chattyText : String :=
  "Sure! \x7b\"assistant_message\":\"hi\",\"plan\":null\x7d"

/-- A Gemini reply that was stopped before any content: the candidate has no
`content`, and the payload has other members. -/
def blockedReply : JsVal :=
  .obj [("candidates", .arr [.obj [("finishReason", .str "SAFETY"), ("index", .num "0")]]),
    ("usageMetadata", .obj [("totalTokenCount", .num "12")])]

/-- The text `Trip to {Goa}: {"assistant_message":"hi","plan":null}`: the
prose before the JSON object has a brace of its own. -/
def bracedProse : String :=
  "Trip to \x7bGoa\x7d: "

/-- The text `{"assistant_message":"hi","plan":null}`. -/
def greetingBlock : String :=
  "\x7b\"assistant_message\":\"hi\",\"plan\":null\x7d"

/-! ## What a parse consumes -/

namespace JSON

/-- What a successful call of the parser has consumed: the value ends with
`last`, right before the input that is left.  An object starts with `{`; no
other value ends with `}`. -/
def Closes (task : Task) (cs : List Char) (v : JsVal) (rest : List Char) : Prop :=
  ∃ last, (last :: rest) <:+ cs ∧
    match task with
    | .value => (cs.head? = some '{' ∧ ∃ m, v = .obj m) ∨ (last ≠ '}' ∧ ∀ m, v ≠ .obj m)
    | .elems _ => last = ']' ∧ ∀ m, v ≠ .obj m
    | .members _ => last = '}' ∧ ∃ m, v = .obj m

/-- Fuel that a call cannot exhaust. -/
def need (task : Task) (cs : List Char) : Nat :=
  2 * cs.length + (match task with
    | .value => 0
    | .elems _ => 1
    | .members _ => 1)

end JSON

/-! ## Runtime services of the hotel routes -/

/-- The characters `trim`, `parseFloat` and `parseInt` skip: the white space
and line terminators of ECMAScript. -/
def isStrWhiteSpace (c : Char) : Bool :=
  let n := c.toNat
  n = 0x09 || n = 0x0A || n = 0x0B || n = 0x0C || n = 0x0D || n = 0x20 || n = 0xA0 ||
    n = 0x1680 || (0x2000 ≤ n && n ≤ 0x200A) || n = 0x2028 || n = 0x2029 || n = 0x202F ||
    n = 0x205F || n = 0x3000 || n = 0xFEFF

/-- The simple lower-case mappings of the Unicode Character Database: each
entry `(first, last, step, target)` maps the code points `first`,
`first + step`, ... up to `last` to `target`, `target + step`, ... -/
def lowerCaseRanges : List (Nat × Nat × Nat × Nat) := [
  (0x41, 0x5A, 1, 0x61), (0xC0, 0xD6, 1, 0xE0), (0xD8, 0xDE, 1, 0xF8), (0x100, 0x12E, 2, 0x101),
  (0x132, 0x136, 2, 0x133), (0x139, 0x147, 2, 0x13A), (0x14A, 0x176, 2, 0x14B), (0x178, 0x178, 1, 0xFF),
  (0x179, 0x17D, 2, 0x17A), (0x181, 0x181, 1, 0x253), (0x182, 0x184, 2, 0x183), (0x186, 0x186, 1, 0x254),
  (0x187, 0x187, 1, 0x188), (0x189, 0x18A, 1, 0x256), (0x18B, 0x18B, 1, 0x18C), (0x18E, 0x18E, 1, 0x1DD),
  (0x18F, 0x18F, 1, 0x259), (0x190, 0x190, 1, 0x25B), (0x191, 0x191, 1, 0x192), (0x193, 0x193, 1, 0x260),
  (0x194, 0x194, 1, 0x263), (0x196, 0x196, 1, 0x269), (0x197, 0x197, 1, 0x268), (0x198, 0x198, 1, 0x199),
  (0x19C, 0x19C, 1, 0x26F), (0x19D, 0x19D, 1, 0x272), (0x19F, 0x19F, 1, 0x275), (0x1A0, 0x1A4, 2, 0x1A1),
  (0x1A6, 0x1A6, 1, 0x280), (0x1A7, 0x1A7, 1, 0x1A8), (0x1A9, 0x1A9, 1, 0x283), (0x1AC, 0x1AC, 1, 0x1AD),
  (0x1AE, 0x1AE, 1, 0x288), (0x1AF, 0x1AF, 1, 0x1B0), (0x1B1, 0x1B2, 1, 0x28A), (0x1B3, 0x1B5, 2, 0x1B4),
  (0x1B7, 0x1B7, 1, 0x292), (0x1B8, 0x1B8, 1, 0x1B9), (0x1BC, 0x1BC, 1, 0x1BD), (0x1C4, 0x1C4, 1, 0x1C6),
  (0x1C5, 0x1C5, 1, 0x1C6), (0x1C7, 0x1C7, 1, 0x1C9), (0x1C8, 0x1C8, 1, 0x1C9), (0x1CA, 0x1CA, 1, 0x1CC),
  (0x1CB, 0x1DB, 2, 0x1CC), (0x1DE, 0x1EE, 2, 0x1DF), (0x1F1, 0x1F1, 1, 0x1F3), (0x1F2, 0x1F4, 2, 0x1F3),
  (0x1F6, 0x1F6, 1, 0x195), (0x1F7, 0x1F7, 1, 0x1BF), (0x1F8, 0x21E, 2, 0x1F9), (0x220, 0x220, 1, 0x19E),
  (0x222, 0x232, 2, 0x223), (0x23A, 0x23A, 1, 0x2C65), (0x23B, 0x23B, 1, 0x23C), (0x23D, 0x23D, 1, 0x19A),
  (0x23E, 0x23E, 1, 0x2C66), (0x241, 0x241, 1, 0x242), (0x243, 0x243, 1, 0x180), (0x244, 0x244, 1, 0x289),
  (0x245, 0x245, 1, 0x28C), (0x246, 0x24E, 2, 0x247), (0x370, 0x372, 2, 0x371), (0x376, 0x376, 1, 0x377),
  (0x37F, 0x37F, 1, 0x3F3), (0x386, 0x386, 1, 0x3AC), (0x388, 0x38A, 1, 0x3AD), (0x38C, 0x38C, 1, 0x3CC),
  (0x38E, 0x38F, 1, 0x3CD), (0x391, 0x3A1, 1, 0x3B1), (0x3A3, 0x3AB, 1, 0x3C3), (0x3CF, 0x3CF, 1, 0x3D7),
  (0x3D8, 0x3EE, 2, 0x3D9), (0x3F4, 0x3F4, 1, 0x3B8), (0x3F7, 0x3F7, 1, 0x3F8), (0x3F9, 0x3F9, 1, 0x3F2),
  (0x3FA, 0x3FA, 1, 0x3FB), (0x3FD, 0x3FF, 1, 0x37B), (0x400, 0x40F, 1, 0x450), (0x410, 0x42F, 1, 0x430),
  (0x460, 0x480, 2, 0x461), (0x48A, 0x4BE, 2, 0x48B), (0x4C0, 0x4C0, 1, 0x4CF), (0x4C1, 0x4CD, 2, 0x4C2),
  (0x4D0, 0x52E, 2, 0x4D1), (0x531, 0x556, 1, 0x561), (0x10A0, 0x10C5, 1, 0x2D00), (0x10C7, 0x10C7, 1, 0x2D27),
  (0x10CD, 0x10CD, 1, 0x2D2D), (0x13A0, 0x13EF, 1, 0xAB70), (0x13F0, 0x13F5, 1, 0x13F8), (0x1C90, 0x1CBA, 1, 0x10D0),
  (0x1CBD, 0x1CBF, 1, 0x10FD), (0x1E00, 0x1E94, 2, 0x1E01), (0x1E9E, 0x1E9E, 1, 0xDF), (0x1EA0, 0x1EFE, 2, 0x1EA1),
  (0x1F08, 0x1F0F, 1, 0x1F00), (0x1F18, 0x1F1D, 1, 0x1F10), (0x1F28, 0x1F2F, 1, 0x1F20), (0x1F38, 0x1F3F, 1, 0x1F30),
  (0x1F48, 0x1F4D, 1, 0x1F40), (0x1F59, 0x1F5F, 2, 0x1F51), (0x1F68, 0x1F6F, 1, 0x1F60), (0x1F88, 0x1F8F, 1, 0x1F80),
  (0x1F98, 0x1F9F, 1, 0x1F90), (0x1FA8, 0x1FAF, 1, 0x1FA0), (0x1FB8, 0x1FB9, 1, 0x1FB0), (0x1FBA, 0x1FBB, 1, 0x1F70),
  (0x1FBC, 0x1FBC, 1, 0x1FB3), (0x1FC8, 0x1FCB, 1, 0x1F72), (0x1FCC, 0x1FCC, 1, 0x1FC3), (0x1FD8, 0x1FD9, 1, 0x1FD0),
  (0x1FDA, 0x1FDB, 1, 0x1F76), (0x1FE8, 0x1FE9, 1, 0x1FE0), (0x1FEA, 0x1FEB, 1, 0x1F7A), (0x1FEC, 0x1FEC, 1, 0x1FE5),
  (0x1FF8, 0x1FF9, 1, 0x1F78), (0x1FFA, 0x1FFB, 1, 0x1F7C), (0x1FFC, 0x1FFC, 1, 0x1FF3), (0x2126, 0x2126, 1, 0x3C9),
  (0x212A, 0x212A, 1, 0x6B), (0x212B, 0x212B, 1, 0xE5), (0x2132, 0x2132, 1, 0x214E), (0x2160, 0x216F, 1, 0x2170),
  (0x2183, 0x2183, 1, 0x2184), (0x24B6, 0x24CF, 1, 0x24D0), (0x2C00, 0x2C2F, 1, 0x2C30), (0x2C60, 0x2C60, 1, 0x2C61),
  (0x2C62, 0x2C62, 1, 0x26B), (0x2C63, 0x2C63, 1, 0x1D7D), (0x2C64, 0x2C64, 1, 0x27D), (0x2C67, 0x2C6B, 2, 0x2C68),
  (0x2C6D, 0x2C6D, 1, 0x251), (0x2C6E, 0x2C6E, 1, 0x271), (0x2C6F, 0x2C6F, 1, 0x250), (0x2C70, 0x2C70, 1, 0x252),
  (0x2C72, 0x2C72, 1, 0x2C73), (0x2C75, 0x2C75, 1, 0x2C76), (0x2C7E, 0x2C7F, 1, 0x23F), (0x2C80, 0x2CE2, 2, 0x2C81),
  (0x2CEB, 0x2CED, 2, 0x2CEC), (0x2CF2, 0x2CF2, 1, 0x2CF3), (0xA640, 0xA66C, 2, 0xA641), (0xA680, 0xA69A, 2, 0xA681),
  (0xA722, 0xA72E, 2, 0xA723), (0xA732, 0xA76E, 2, 0xA733), (0xA779, 0xA77B, 2, 0xA77A), (0xA77D, 0xA77D, 1, 0x1D79),
  (0xA77E, 0xA786, 2, 0xA77F), (0xA78B, 0xA78B, 1, 0xA78C), (0xA78D, 0xA78D, 1, 0x265), (0xA790, 0xA792, 2, 0xA791),
  (0xA796, 0xA7A8, 2, 0xA797), (0xA7AA, 0xA7AA, 1, 0x266), (0xA7AB, 0xA7AB, 1, 0x25C), (0xA7AC, 0xA7AC, 1, 0x261),
  (0xA7AD, 0xA7AD, 1, 0x26C), (0xA7AE, 0xA7AE, 1, 0x26A), (0xA7B0, 0xA7B0, 1, 0x29E), (0xA7B1, 0xA7B1, 1, 0x287),
  (0xA7B2, 0xA7B2, 1, 0x29D), (0xA7B3, 0xA7B3, 1, 0xAB53), (0xA7B4, 0xA7C2, 2, 0xA7B5), (0xA7C4, 0xA7C4, 1, 0xA794),
  (0xA7C5, 0xA7C5, 1, 0x282), (0xA7C6, 0xA7C6, 1, 0x1D8E), (0xA7C7, 0xA7C9, 2, 0xA7C8), (0xA7D0, 0xA7D0, 1, 0xA7D1),
  (0xA7D6, 0xA7D8, 2, 0xA7D7), (0xA7F5, 0xA7F5, 1, 0xA7F6), (0xFF21, 0xFF3A, 1, 0xFF41), (0x10400, 0x10427, 1, 0x10428),
  (0x104B0, 0x104D3, 1, 0x104D8), (0x10570, 0x1057A, 1, 0x10597), (0x1057C, 0x1058A, 1, 0x105A3), (0x1058C, 0x10592, 1, 0x105B3),
  (0x10594, 0x10595, 1, 0x105BB), (0x10C80, 0x10CB2, 1, 0x10CC0), (0x118A0, 0x118BF, 1, 0x118C0), (0x16E40, 0x16E5F, 1, 0x16E60),
  (0x1E900, 0x1E921, 1, 0x1E922)]

/-- The code points with the property `Cased`, as ranges `(first, last)`. -/
def casedRanges : List (Nat × Nat) := [
  (0x41, 0x5A), (0x61, 0x7A), (0xAA, 0xAA), (0xB5, 0xB5), (0xBA, 0xBA), (0xC0, 0xD6),
  (0xD8, 0xF6), (0xF8, 0x1BA), (0x1BC, 0x1BF), (0x1C4, 0x293), (0x295, 0x2B8), (0x2C0, 0x2C1),
  (0x2E0, 0x2E4), (0x345, 0x345), (0x370, 0x373), (0x376, 0x377), (0x37A, 0x37D), (0x37F, 0x37F),
  (0x386, 0x386), (0x388, 0x38A), (0x38C, 0x38C), (0x38E, 0x3A1), (0x3A3, 0x3F5), (0x3F7, 0x481),
  (0x48A, 0x52F), (0x531, 0x556), (0x560, 0x588), (0x10A0, 0x10C5), (0x10C7, 0x10C7), (0x10CD, 0x10CD),
  (0x10D0, 0x10FA), (0x10FD, 0x10FF), (0x13A0, 0x13F5), (0x13F8, 0x13FD), (0x1C80, 0x1C88), (0x1C90, 0x1CBA),
  (0x1CBD, 0x1CBF), (0x1D00, 0x1DBF), (0x1E00, 0x1F15), (0x1F18, 0x1F1D), (0x1F20, 0x1F45), (0x1F48, 0x1F4D),
  (0x1F50, 0x1F57), (0x1F59, 0x1F59), (0x1F5B, 0x1F5B), (0x1F5D, 0x1F5D), (0x1F5F, 0x1F7D), (0x1F80, 0x1FB4),
  (0x1FB6, 0x1FBC), (0x1FBE, 0x1FBE), (0x1FC2, 0x1FC4), (0x1FC6, 0x1FCC), (0x1FD0, 0x1FD3), (0x1FD6, 0x1FDB),
  (0x1FE0, 0x1FEC), (0x1FF2, 0x1FF4), (0x1FF6, 0x1FFC), (0x2071, 0x2071), (0x207F, 0x207F), (0x2090, 0x209C),
  (0x2102, 0x2102), (0x2107, 0x2107), (0x210A, 0x2113), (0x2115, 0x2115), (0x2119, 0x211D), (0x2124, 0x2124),
  (0x2126, 0x2126), (0x2128, 0x2128), (0x212A, 0x212D), (0x212F, 0x2134), (0x2139, 0x2139), (0x213C, 0x213F),
  (0x2145, 0x2149), (0x214E, 0x214E), (0x2160, 0x217F), (0x2183, 0x2184), (0x24B6, 0x24E9), (0x2C00, 0x2CE4),
  (0x2CEB, 0x2CEE), (0x2CF2, 0x2CF3), (0x2D00, 0x2D25), (0x2D27, 0x2D27), (0x2D2D, 0x2D2D), (0xA640, 0xA66D),
  (0xA680, 0xA69D), (0xA722, 0xA787), (0xA78B, 0xA78E), (0xA790, 0xA7CA), (0xA7D0, 0xA7D1), (0xA7D3, 0xA7D3),
  (0xA7D5, 0xA7D9), (0xA7F5, 0xA7F6), (0xA7F8, 0xA7FA), (0xAB30, 0xAB5A), (0xAB5C, 0xAB68), (0xAB70, 0xABBF),
  (0xFB00, 0xFB06), (0xFB13, 0xFB17), (0xFF21, 0xFF3A), (0xFF41, 0xFF5A), (0x10400, 0x1044F), (0x104B0, 0x104D3),
  (0x104D8, 0x104FB), (0x10570, 0x1057A), (0x1057C, 0x1058A), (0x1058C, 0x10592), (0x10594, 0x10595), (0x10597, 0x105A1),
  (0x105A3, 0x105B1), (0x105B3, 0x105B9), (0x105BB, 0x105BC), (0x10780, 0x10780), (0x10783, 0x10785), (0x10787, 0x107B0),
  (0x107B2, 0x107BA), (0x10C80, 0x10CB2), (0x10CC0, 0x10CF2), (0x118A0, 0x118DF), (0x16E40, 0x16E7F), (0x1D400, 0x1D454),
  (0x1D456, 0x1D49C), (0x1D49E, 0x1D49F), (0x1D4A2, 0x1D4A2), (0x1D4A5, 0x1D4A6), (0x1D4A9, 0x1D4AC), (0x1D4AE, 0x1D4B9),
  (0x1D4BB, 0x1D4BB), (0x1D4BD, 0x1D4C3), (0x1D4C5, 0x1D505), (0x1D507, 0x1D50A), (0x1D50D, 0x1D514), (0x1D516, 0x1D51C),
  (0x1D51E, 0x1D539), (0x1D53B, 0x1D53E), (0x1D540, 0x1D544), (0x1D546, 0x1D546), (0x1D54A, 0x1D550), (0x1D552, 0x1D6A5),
  (0x1D6A8, 0x1D6C0), (0x1D6C2, 0x1D6DA), (0x1D6DC, 0x1D6FA), (0x1D6FC, 0x1D714), (0x1D716, 0x1D734), (0x1D736, 0x1D74E),
  (0x1D750, 0x1D76E), (0x1D770, 0x1D788), (0x1D78A, 0x1D7A8), (0x1D7AA, 0x1D7C2), (0x1D7C4, 0x1D7CB), (0x1DF00, 0x1DF09),
  (0x1DF0B, 0x1DF1E), (0x1E900, 0x1E943), (0x1F130, 0x1F149), (0x1F150, 0x1F169), (0x1F170, 0x1F189)]

/-- The code points with the property `Case_Ignorable`, as ranges
`(first, last)`. -/
def caseIgnorableRanges : List (Nat × Nat) := [
  (0x27, 0x27), (0x2E, 0x2E), (0x3A, 0x3A), (0x5E, 0x5E), (0x60, 0x60), (0xA8, 0xA8),
  (0xAD, 0xAD), (0xAF, 0xAF), (0xB4, 0xB4), (0xB7, 0xB8), (0x2B0, 0x36F), (0x374, 0x375),
  (0x37A, 0x37A), (0x384, 0x385), (0x387, 0x387), (0x483, 0x489), (0x559, 0x559), (0x55F, 0x55F),
  (0x591, 0x5BD), (0x5BF, 0x5BF), (0x5C1, 0x5C2), (0x5C4, 0x5C5), (0x5C7, 0x5C7), (0x5F4, 0x5F4),
  (0x600, 0x605), (0x610, 0x61A), (0x61C, 0x61C), (0x640, 0x640), (0x64B, 0x65F), (0x670, 0x670),
  (0x6D6, 0x6DD), (0x6DF, 0x6E8), (0x6EA, 0x6ED), (0x70F, 0x70F), (0x711, 0x711), (0x730, 0x74A),
  (0x7A6, 0x7B0), (0x7EB, 0x7F5), (0x7FA, 0x7FA), (0x7FD, 0x7FD), (0x816, 0x82D), (0x859, 0x85B),
  (0x888, 0x888), (0x890, 0x891), (0x898, 0x89F), (0x8C9, 0x902), (0x93A, 0x93A), (0x93C, 0x93C),
  (0x941, 0x948), (0x94D, 0x94D), (0x951, 0x957), (0x962, 0x963), (0x971, 0x971), (0x981, 0x981),
  (0x9BC, 0x9BC), (0x9C1, 0x9C4), (0x9CD, 0x9CD), (0x9E2, 0x9E3), (0x9FE, 0x9FE), (0xA01, 0xA02),
  (0xA3C, 0xA3C), (0xA41, 0xA42), (0xA47, 0xA48), (0xA4B, 0xA4D), (0xA51, 0xA51), (0xA70, 0xA71),
  (0xA75, 0xA75), (0xA81, 0xA82), (0xABC, 0xABC), (0xAC1, 0xAC5), (0xAC7, 0xAC8), (0xACD, 0xACD),
  (0xAE2, 0xAE3), (0xAFA, 0xAFF), (0xB01, 0xB01), (0xB3C, 0xB3C), (0xB3F, 0xB3F), (0xB41, 0xB44),
  (0xB4D, 0xB4D), (0xB55, 0xB56), (0xB62, 0xB63), (0xB82, 0xB82), (0xBC0, 0xBC0), (0xBCD, 0xBCD),
  (0xC00, 0xC00), (0xC04, 0xC04), (0xC3C, 0xC3C), (0xC3E, 0xC40), (0xC46, 0xC48), (0xC4A, 0xC4D),
  (0xC55, 0xC56), (0xC62, 0xC63), (0xC81, 0xC81), (0xCBC, 0xCBC), (0xCBF, 0xCBF), (0xCC6, 0xCC6),
  (0xCCC, 0xCCD), (0xCE2, 0xCE3), (0xD00, 0xD01), (0xD3B, 0xD3C), (0xD41, 0xD44), (0xD4D, 0xD4D),
  (0xD62, 0xD63), (0xD81, 0xD81), (0xDCA, 0xDCA), (0xDD2, 0xDD4), (0xDD6, 0xDD6), (0xE31, 0xE31),
  (0xE34, 0xE3A), (0xE46, 0xE4E), (0xEB1, 0xEB1), (0xEB4, 0xEBC), (0xEC6, 0xEC6), (0xEC8, 0xECD),
  (0xF18, 0xF19), (0xF35, 0xF35), (0xF37, 0xF37), (0xF39, 0xF39), (0xF71, 0xF7E), (0xF80, 0xF84),
  (0xF86, 0xF87), (0xF8D, 0xF97), (0xF99, 0xFBC), (0xFC6, 0xFC6), (0x102D, 0x1030), (0x1032, 0x1037),
  (0x1039, 0x103A), (0x103D, 0x103E), (0x1058, 0x1059), (0x105E, 0x1060), (0x1071, 0x1074), (0x1082, 0x1082),
  (0x1085, 0x1086), (0x108D, 0x108D), (0x109D, 0x109D), (0x10FC, 0x10FC), (0x135D, 0x135F), (0x1712, 0x1714),
  (0x1732, 0x1733), (0x1752, 0x1753), (0x1772, 0x1773), (0x17B4, 0x17B5), (0x17B7, 0x17BD), (0x17C6, 0x17C6),
  (0x17C9, 0x17D3), (0x17D7, 0x17D7), (0x17DD, 0x17DD), (0x180B, 0x180F), (0x1843, 0x1843), (0x1885, 0x1886),
  (0x18A9, 0x18A9), (0x1920, 0x1922), (0x1927, 0x1928), (0x1932, 0x1932), (0x1939, 0x193B), (0x1A17, 0x1A18),
  (0x1A1B, 0x1A1B), (0x1A56, 0x1A56), (0x1A58, 0x1A5E), (0x1A60, 0x1A60), (0x1A62, 0x1A62), (0x1A65, 0x1A6C),
  (0x1A73, 0x1A7C), (0x1A7F, 0x1A7F), (0x1AA7, 0x1AA7), (0x1AB0, 0x1ACE), (0x1B00, 0x1B03), (0x1B34, 0x1B34),
  (0x1B36, 0x1B3A), (0x1B3C, 0x1B3C), (0x1B42, 0x1B42), (0x1B6B, 0x1B73), (0x1B80, 0x1B81), (0x1BA2, 0x1BA5),
  (0x1BA8, 0x1BA9), (0x1BAB, 0x1BAD), (0x1BE6, 0x1BE6), (0x1BE8, 0x1BE9), (0x1BED, 0x1BED), (0x1BEF, 0x1BF1),
  (0x1C2C, 0x1C33), (0x1C36, 0x1C37), (0x1C78, 0x1C7D), (0x1CD0, 0x1CD2), (0x1CD4, 0x1CE0), (0x1CE2, 0x1CE8),
  (0x1CED, 0x1CED), (0x1CF4, 0x1CF4), (0x1CF8, 0x1CF9), (0x1D2C, 0x1D6A), (0x1D78, 0x1D78), (0x1D9B, 0x1DFF),
  (0x1FBD, 0x1FBD), (0x1FBF, 0x1FC1), (0x1FCD, 0x1FCF), (0x1FDD, 0x1FDF), (0x1FED, 0x1FEF), (0x1FFD, 0x1FFE),
  (0x200B, 0x200F), (0x2018, 0x2019), (0x2024, 0x2024), (0x2027, 0x2027), (0x202A, 0x202E), (0x2060, 0x2064),
  (0x2066, 0x206F), (0x2071, 0x2071), (0x207F, 0x207F), (0x2090, 0x209C), (0x20D0, 0x20F0), (0x2C7C, 0x2C7D),
  (0x2CEF, 0x2CF1), (0x2D6F, 0x2D6F), (0x2D7F, 0x2D7F), (0x2DE0, 0x2DFF), (0x2E2F, 0x2E2F), (0x3005, 0x3005),
  (0x302A, 0x302D), (0x3031, 0x3035), (0x303B, 0x303B), (0x3099, 0x309E), (0x30FC, 0x30FE), (0xA015, 0xA015),
  (0xA4F8, 0xA4FD), (0xA60C, 0xA60C), (0xA66F, 0xA672), (0xA674, 0xA67D), (0xA67F, 0xA67F), (0xA69C, 0xA69F),
  (0xA6F0, 0xA6F1), (0xA700, 0xA721), (0xA770, 0xA770), (0xA788, 0xA78A), (0xA7F2, 0xA7F4), (0xA7F8, 0xA7F9),
  (0xA802, 0xA802), (0xA806, 0xA806), (0xA80B, 0xA80B), (0xA825, 0xA826), (0xA82C, 0xA82C), (0xA8C4, 0xA8C5),
  (0xA8E0, 0xA8F1), (0xA8FF, 0xA8FF), (0xA926, 0xA92D), (0xA947, 0xA951), (0xA980, 0xA982), (0xA9B3, 0xA9B3),
  (0xA9B6, 0xA9B9), (0xA9BC, 0xA9BD), (0xA9CF, 0xA9CF), (0xA9E5, 0xA9E6), (0xAA29, 0xAA2E), (0xAA31, 0xAA32),
  (0xAA35, 0xAA36), (0xAA43, 0xAA43), (0xAA4C, 0xAA4C), (0xAA70, 0xAA70), (0xAA7C, 0xAA7C), (0xAAB0, 0xAAB0),
  (0xAAB2, 0xAAB4), (0xAAB7, 0xAAB8), (0xAABE, 0xAABF), (0xAAC1, 0xAAC1), (0xAADD, 0xAADD), (0xAAEC, 0xAAED),
  (0xAAF3, 0xAAF4), (0xAAF6, 0xAAF6), (0xAB5B, 0xAB5F), (0xAB69, 0xAB6B), (0xABE5, 0xABE5), (0xABE8, 0xABE8),
  (0xABED, 0xABED), (0xFB1E, 0xFB1E), (0xFBB2, 0xFBC2), (0xFE00, 0xFE0F), (0xFE13, 0xFE13), (0xFE20, 0xFE2F),
  (0xFE52, 0xFE52), (0xFE55, 0xFE55), (0xFEFF, 0xFEFF), (0xFF07, 0xFF07), (0xFF0E, 0xFF0E), (0xFF1A, 0xFF1A),
  (0xFF3E, 0xFF3E), (0xFF40, 0xFF40), (0xFF70, 0xFF70), (0xFF9E, 0xFF9F), (0xFFE3, 0xFFE3), (0xFFF9, 0xFFFB),
  (0x101FD, 0x101FD), (0x102E0, 0x102E0), (0x10376, 0x1037A), (0x10780, 0x10785), (0x10787, 0x107B0), (0x107B2, 0x107BA),
  (0x10A01, 0x10A03), (0x10A05, 0x10A06), (0x10A0C, 0x10A0F), (0x10A38, 0x10A3A), (0x10A3F, 0x10A3F), (0x10AE5, 0x10AE6),
  (0x10D24, 0x10D27), (0x10EAB, 0x10EAC), (0x10F46, 0x10F50), (0x10F82, 0x10F85), (0x11001, 0x11001), (0x11038, 0x11046),
  (0x11070, 0x11070), (0x11073, 0x11074), (0x1107F, 0x11081), (0x110B3, 0x110B6), (0x110B9, 0x110BA), (0x110BD, 0x110BD),
  (0x110C2, 0x110C2), (0x110CD, 0x110CD), (0x11100, 0x11102), (0x11127, 0x1112B), (0x1112D, 0x11134), (0x11173, 0x11173),
  (0x11180, 0x11181), (0x111B6, 0x111BE), (0x111C9, 0x111CC), (0x111CF, 0x111CF), (0x1122F, 0x11231), (0x11234, 0x11234),
  (0x11236, 0x11237), (0x1123E, 0x1123E), (0x112DF, 0x112DF), (0x112E3, 0x112EA), (0x11300, 0x11301), (0x1133B, 0x1133C),
  (0x11340, 0x11340), (0x11366, 0x1136C), (0x11370, 0x11374), (0x11438, 0x1143F), (0x11442, 0x11444), (0x11446, 0x11446),
  (0x1145E, 0x1145E), (0x114B3, 0x114B8), (0x114BA, 0x114BA), (0x114BF, 0x114C0), (0x114C2, 0x114C3), (0x115B2, 0x115B5),
  (0x115BC, 0x115BD), (0x115BF, 0x115C0), (0x115DC, 0x115DD), (0x11633, 0x1163A), (0x1163D, 0x1163D), (0x1163F, 0x11640),
  (0x116AB, 0x116AB), (0x116AD, 0x116AD), (0x116B0, 0x116B5), (0x116B7, 0x116B7), (0x1171D, 0x1171F), (0x11722, 0x11725),
  (0x11727, 0x1172B), (0x1182F, 0x11837), (0x11839, 0x1183A), (0x1193B, 0x1193C), (0x1193E, 0x1193E), (0x11943, 0x11943),
  (0x119D4, 0x119D7), (0x119DA, 0x119DB), (0x119E0, 0x119E0), (0x11A01, 0x11A0A), (0x11A33, 0x11A38), (0x11A3B, 0x11A3E),
  (0x11A47, 0x11A47), (0x11A51, 0x11A56), (0x11A59, 0x11A5B), (0x11A8A, 0x11A96), (0x11A98, 0x11A99), (0x11C30, 0x11C36),
  (0x11C38, 0x11C3D), (0x11C3F, 0x11C3F), (0x11C92, 0x11CA7), (0x11CAA, 0x11CB0), (0x11CB2, 0x11CB3), (0x11CB5, 0x11CB6),
  (0x11D31, 0x11D36), (0x11D3A, 0x11D3A), (0x11D3C, 0x11D3D), (0x11D3F, 0x11D45), (0x11D47, 0x11D47), (0x11D90, 0x11D91),
  (0x11D95, 0x11D95), (0x11D97, 0x11D97), (0x11EF3, 0x11EF4), (0x13430, 0x13438), (0x16AF0, 0x16AF4), (0x16B30, 0x16B36),
  (0x16B40, 0x16B43), (0x16F4F, 0x16F4F), (0x16F8F, 0x16F9F), (0x16FE0, 0x16FE1), (0x16FE3, 0x16FE4), (0x1AFF0, 0x1AFF3),
  (0x1AFF5, 0x1AFFB), (0x1AFFD, 0x1AFFE), (0x1BC9D, 0x1BC9E), (0x1BCA0, 0x1BCA3), (0x1CF00, 0x1CF2D), (0x1CF30, 0x1CF46),
  (0x1D167, 0x1D169), (0x1D173, 0x1D182), (0x1D185, 0x1D18B), (0x1D1AA, 0x1D1AD), (0x1D242, 0x1D244), (0x1DA00, 0x1DA36),
  (0x1DA3B, 0x1DA6C), (0x1DA75, 0x1DA75), (0x1DA84, 0x1DA84), (0x1DA9B, 0x1DA9F), (0x1DAA1, 0x1DAAF), (0x1E000, 0x1E006),
  (0x1E008, 0x1E018), (0x1E01B, 0x1E021), (0x1E023, 0x1E024), (0x1E026, 0x1E02A), (0x1E130, 0x1E13D), (0x1E2AE, 0x1E2AE),
  (0x1E2EC, 0x1E2EF), (0x1E8D0, 0x1E8D6), (0x1E944, 0x1E94B), (0x1F3FB, 0x1F3FF), (0xE0001, 0xE0001), (0xE0020, 0xE007F),
  (0xE0100, 0xE01EF)]

/-- Membership of a character in a table of ranges. -/
def inRanges (table : List (Nat × Nat)) (c : Char) : Bool :=
  table.any fun r => r.1 ≤ c.toNat && c.toNat ≤ r.2

/-- The property `Cased`: the letters that have a case. -/
def isCased (c : Char) : Bool :=
  inRanges casedRanges c

/-- The property `Case_Ignorable`: marks and punctuation inside a word that
the context rules skip. -/
def isCaseIgnorable (c : Char) : Bool :=
  inRanges caseIgnorableRanges c

/-- The simple lower-case mapping of a code point; a code point without one is
left as it is. -/
def lowerCode (n : Nat) : Nat :=
  match lowerCaseRanges.find? fun r => r.1 ≤ n && n ≤ r.2.1 && (n - r.1) % r.2.2.1 = 0 with
  | some r => r.2.2.2 + (n - r.1)
  | none => n

/-- The full lower-case mapping of one character out of context: the simple
mapping, but U+0130 (capital I with dot above) gives `i` and U+0307. -/
def lowerChar (c : Char) : List Char :=
  if c.toNat = 0x130 then [Char.ofNat 0x69, Char.ofNat 0x307] else [Char.ofNat (lowerCode c.toNat)]

/-- The context `Final_Sigma` of the Unicode standard, as the runtime tests
it: going back from the sigma over case-ignorable characters there is a cased
letter, and going forward over case-ignorable characters there is none.
`before` is the text before the sigma, nearest character first. -/
def isFinalSigma (before after : List Char) : Bool :=
  (match before.dropWhile isCaseIgnorable with
    | c :: _ => isCased c
    | [] => false) &&
  !(match after.dropWhile isCaseIgnorable with
    | c :: _ => isCased c
    | [] => false)

/-- Lower case of the characters after `before` (nearest character first):
each character is mapped by `lowerChar`, but a capital sigma (U+03A3) at the
end of a word becomes the final sigma (U+03C2). -/
def lowerFrom (before : List Char) : List Char → List Char
  | [] => []
  | c :: rest =>
    (if c.toNat = 0x3A3 ∧ isFinalSigma before rest = true then [Char.ofNat 0x3C2]
     else lowerChar c) ++ lowerFrom (c :: before) rest

/-- The method `toLowerCase`: the default case conversion of Unicode (full
mappings and the one context rule that does not depend on the language). -/
def toLowerCase (s : String) : String :=
  String.mk (lowerFrom [] s.data)

/-- Substring test on characters: `sub` occurs in `s` at some position. -/
def includesChars : List Char → List Char → Bool
  | [], sub => sub.isEmpty
  | c :: cs, sub => sub.isPrefixOf (c :: cs) || includesChars cs sub

/-- The method `s.includes(sub)`. -/
def includes (s sub : String) : Bool :=
  includesChars s.data sub.data

/-- The method `text.split(sep)` for a one-character separator. -/
def split (sep : Char) : List Char → List (List Char)
  | [] => [[]]
  | c :: cs =>
    if c = sep then [] :: split sep cs
    else
      match split sep cs with
      | seg :: rest => (c :: seg) :: rest
      | [] => [[c]]

/-- A JavaScript number: NaN, an infinity, or a finite double, which is
`mantissa * 2 ^ exponent` with the sign `negative`.  The mantissa of a double
other than zero is odd, so that equal doubles are equal here; zero has
mantissa 0 and exponent 0. -/
inductive JsNumber where
  | nan : JsNumber
  | infinity (negative : Bool) : JsNumber
  | finite (negative : Bool) (mantissa : Nat) (exponent : Int) : JsNumber
  deriving Repr, DecidableEq

/-- The fraction `num / den` divided by `2 ^ q`, as a fraction. -/
def scaleByPowerOfTwo (num den : Nat) (q : Int) : Nat × Nat :=
  if 0 ≤ q then (num, den * 2 ^ q.toNat) else (num * 2 ^ (-q).toNat, den)

/-- The number of binary digits of `n`, at most `fuel` of them. -/
def bitLength : Nat → Nat → Nat
  | 0, _ => 0
  | fuel + 1, n => if n = 0 then 0 else bitLength fuel (n / 2) + 1

/-- The integer `e` with `2 ^ e ≤ num / den < 2 ^ (e + 1)`, for positive `num`
and `den`. -/
def floorLog2 (num den : Nat) : Int :=
  let e : Int := (bitLength num num : Int) - (bitLength den den : Int)
  let scaled := scaleByPowerOfTwo num den e
  if scaled.2 ≤ scaled.1 then e else e - 1

/-- The integer nearest to `n / d`, the even one of two that are equally
near. -/
def roundHalfEven (n d : Nat) : Nat :=
  let m := n / d
  let r := n % d
  if d < 2 * r ∨ (2 * r = d ∧ m % 2 = 1) then m + 1 else m

/-- Remove the factors 2 of a mantissa, at most `fuel` of them. -/
def stripTwos : Nat → Nat → Int → Nat × Int
  | 0, m, e => (m, e)
  | fuel + 1, m, e => if m % 2 = 0 ∧ m ≠ 0 then stripTwos fuel (m / 2) (e + 1) else (m, e)

/-- The double nearest to `num / den` (IEEE 754 binary64, round to nearest,
ties to even): 53 bits of mantissa, exponents from -1022 to 1023, gradual
underflow to zero and overflow to infinity. -/
def roundToDouble (negative : Bool) (num den : Nat) : JsNumber :=
  if num = 0 then .finite negative 0 0
  else
    let e := floorLog2 num den
    if 1024 ≤ e then .infinity negative
    else
      let q := max e (-1022) - 52
      let scaled := scaleByPowerOfTwo num den q
      let m := roundHalfEven scaled.1 scaled.2
      if m = 0 then .finite negative 0 0
      else if q = 971 ∧ 2 ^ 53 ≤ m then .infinity negative
      else
        let stripped := stripTwos 64 m q
        .finite negative stripped.1 stripped.2

/-- The value `digits * 10 ^ exponent` of a decimal literal, as a double.  A
literal beyond the range of the doubles is settled by the position of its
first digit, without computing the power of ten. -/
def decimalToDouble (negative : Bool) (digits : Nat) (exponent : Int) : JsNumber :=
  if digits = 0 then .finite negative 0 0
  else
    let length : Int := (toString digits).length
    if 310 < length + exponent then .infinity negative
    else if length + exponent < -330 then .finite negative 0 0
    else if 0 ≤ exponent then roundToDouble negative (digits * 10 ^ exponent.toNat) 1
    else roundToDouble negative digits (10 ^ (-exponent).toNat)

/-- The number a sequence of decimal digits denotes. -/
def digitsValue (digits : List Char) : Nat :=
  digits.foldl (fun n c => n * 10 + (c.toNat - '0'.toNat)) 0

/-- The integer `n` with `10 ^ (n - 1) ≤ num / den < 10 ^ n`, for positive
`num` and `den`. -/
def decimalExponent (num den : Nat) : Int :=
  if den ≤ num then ((toString (num / den)).length : Int)
  else
    let zeros : Int := ((toString (den / num)).length : Int)
    if den ≤ num * 10 ^ (zeros.toNat - 1) then 2 - zeros else 1 - zeros

/-- The double `mantissa * 2 ^ exponent` as a fraction. -/
def doubleFraction (mantissa : Nat) (exponent : Int) : Nat × Nat :=
  if 0 ≤ exponent then (mantissa * 2 ^ exponent.toNat, 1) else (mantissa, 2 ^ (-exponent).toNat)

/-- The double that the decimal `s * 10 ^ p` denotes is the given one. -/
def denotes (s : Nat) (p : Int) (mantissa : Nat) (exponent : Int) : Bool :=
  decimalToDouble false s p = .finite false mantissa exponent

/-- The shortest decimal `s * 10 ^ (n - k)` with `k` digits that denotes the
positive double `mantissa * 2 ^ exponent`, searched from `k` digits on:
the digits of `s` and `n`.  Of two candidates with the same number of digits
the nearer one is taken, the even one when they are equally near. -/
def shortestDecimal (mantissa : Nat) (exponent : Int) (n : Int) : Nat → Nat → Nat × Int
  | 0, _ => (mantissa, exponent)
  | fuel + 1, k =>
    let x := doubleFraction mantissa exponent
    let p : Int := n - k
    let y := if 0 ≤ p then (x.1, x.2 * 10 ^ p.toNat) else (x.1 * 10 ^ (-p).toNat, x.2)
    let low := y.1 / y.2
    let rem := y.1 % y.2
    let high := if rem = 0 then low else low + 1
    let lowFits := denotes low p mantissa exponent
    let highFits := denotes high p mantissa exponent
    if lowFits ∧ highFits then
      (if 2 * rem < y.2 ∨ (2 * rem = y.2 ∧ low % 2 = 0) then (low, p) else (high, p))
    else if lowFits then (low, p)
    else if highFits then (high, p)
    else shortestDecimal mantissa exponent n fuel (k + 1)

/-- Drop the zeros at the end of a digit sequence. -/
def dropTrailingZeros (digits : List Char) : List Char :=
  (digits.reverse.dropWhile fun c => c = '0').reverse

/-- The text of a positive finite double: `Number::toString` of ECMAScript
for radix 10, from the digits `s` of the shortest decimal and the position `n`
of its decimal point. -/
def positiveToString (mantissa : Nat) (exponent : Int) : String :=
  let x := doubleFraction mantissa exponent
  let found := shortestDecimal mantissa exponent (decimalExponent x.1 x.2) 17 1
  let all := (toString found.1).data
  let n : Int := found.2 + all.length
  let digits := dropTrailingZeros all
  let k : Int := digits.length
  if k ≤ n ∧ n ≤ 21 then String.mk (digits ++ List.replicate (n - k).toNat '0')
  else if 0 < n ∧ n ≤ 21 then String.mk (digits.take n.toNat ++ '.' :: digits.drop n.toNat)
  else if -6 < n ∧ n ≤ 0 then String.mk ('0' :: '.' :: List.replicate (-n).toNat '0' ++ digits)
  else
    let e := n - 1
    let sign := if 0 ≤ e then '+' else '-'
    let tail := 'e' :: sign :: (toString e.natAbs).data
    match digits with
    | [d] => String.mk (d :: tail)
    | d :: more => String.mk (d :: '.' :: more ++ tail)
    | [] => String.mk tail

/-- The text `String(x)` of a number. -/
def JsNumber.toText : JsNumber → String
  | .nan => "NaN"
  | .infinity negative => if negative then "-Infinity" else "Infinity"
  | .finite negative mantissa exponent =>
    if mantissa = 0 then "0"
    else if negative then "-" ++ positiveToString mantissa exponent
    else positiveToString mantissa exponent

/-- The exponent part at the start of `cs` (`e`, an optional sign, digits),
when it is complete: its value and what follows it.  An exponent without
digits is not read. -/
def readExponent (cs : List Char) : Int × List Char :=
  match cs with
  | e :: rest =>
    if e = 'e' ∨ e = 'E' then
      match rest with
      | s :: more =>
        if s = '+' ∨ s = '-' then
          (if (more.takeWhile JSON.isDigit).isEmpty then (0, cs)
           else
            ((if s = '-' then -(digitsValue (more.takeWhile JSON.isDigit) : Int)
              else (digitsValue (more.takeWhile JSON.isDigit) : Int)),
              more.dropWhile JSON.isDigit))
        else
          (if (rest.takeWhile JSON.isDigit).isEmpty then (0, cs)
           else ((digitsValue (rest.takeWhile JSON.isDigit) : Int), rest.dropWhile JSON.isDigit))
      | [] => (0, cs)
    else (0, cs)
  | [] => (0, cs)

/-- The longest unsigned decimal literal at the start of `cs` (digits, an
optional fraction, an optional exponent, with a digit before or after the
point): its digits without the point, the power of ten they are multiplied
by, and what follows the literal. -/
def readDecimal (cs : List Char) : Option (List Char × Int × List Char) :=
  let whole := cs.takeWhile JSON.isDigit
  let afterWhole := cs.dropWhile JSON.isDigit
  match afterWhole with
  | p :: more =>
    if p = '.' then
      let fraction := more.takeWhile JSON.isDigit
      if whole.isEmpty ∧ fraction.isEmpty then none
      else
        let exponent := readExponent (more.dropWhile JSON.isDigit)
        some (whole ++ fraction, exponent.1 - (fraction.length : Int), exponent.2)
    else if whole.isEmpty then none
    else
      let exponent := readExponent afterWhole
      some (whole, exponent.1, exponent.2)
  | [] => if whole.isEmpty then none else some (whole, 0, [])

/-- The function `parseFloat(text)`: leading white space is skipped, then the
longest decimal literal at the start is read and rounded to a double; what
follows it is ignored. -/
def parseFloat (text : String) : JsNumber :=
  let cs := text.data.dropWhile isStrWhiteSpace
  let negative := cs.head? = some '-'
  let body := match cs with
    | s :: rest => if s = '+' ∨ s = '-' then rest else cs
    | [] => cs
  if "Infinity".data.isPrefixOf body then .infinity negative
  else
    match readDecimal body with
    | some literal => decimalToDouble negative (digitsValue literal.1) literal.2.1
    | none => .nan

/-- The function `parseInt(text)` without a radix: leading white space, a
sign, `0x` or `0X` for base 16, then the longest run of digits of the base,
rounded to a double; NaN when there is no digit. -/
def parseInt (text : String) : JsNumber :=
  let cs := text.data.dropWhile isStrWhiteSpace
  let negative := cs.head? = some '-'
  let body := match cs with
    | s :: rest => if s = '+' ∨ s = '-' then rest else cs
    | [] => cs
  let radix : Nat := match body with
    | z :: x :: _ => if z = '0' ∧ (x = 'x' ∨ x = 'X') then 16 else 10
    | _ => 10
  let digits := (if radix = 16 then body.drop 2 else body).takeWhile fun c =>
    match JSON.hexVal c with
    | some v => v < radix
    | none => false
  if digits.isEmpty then .nan
  else roundToDouble negative (digits.foldl (fun n c => n * radix + (JSON.hexVal c).getD 0) 0) 1

/-- ToBoolean on a number: NaN and the two zeros are falsy. -/
def JsNumber.truthy : JsNumber → Bool
  | .nan => false
  | .infinity _ => true
  | .finite _ mantissa _ => mantissa ≠ 0

/-- A number as `JSON.stringify` writes it: `null` for NaN and the
infinities, the text of the number otherwise. -/
def JsNumber.toJson : JsNumber → JsVal
  | .finite negative mantissa exponent =>
    .num (JsNumber.finite negative mantissa exponent).toText
  | _ => .null

/-- The number a JSON number literal denotes. -/
def literalNumber (literal : String) : JsNumber :=
  parseFloat literal

/-- ToBoolean on the values of the model. -/
def JsVal.truthy : JsVal → Bool
  | .null => false
  | .bool b => b
  | .num literal => (literalNumber literal).truthy
  | .str s => s ≠ ""
  | .arr _ => true
  | .obj _ => true

/-- ToBoolean on a value that may be `undefined`. -/
def truthy (a : Option JsVal) : Bool :=
  match a with
  | some v => v.truthy
  | none => false

/-- The operator `a || b`. -/
def logicalOr (a : Option JsVal) (b : JsVal) : JsVal :=
  match a with
  | some v => if v.truthy then v else b
  | none => b

/-- ToString of a text that may be `undefined`. -/
def textOrUndefined (a : Option String) : String :=
  match a with
  | some s => s
  | none => "undefined"

/-- An object literal as `res.json` sends it: a member whose value is
`undefined` is left out. -/
def objectLiteral (fields : List (String × Option JsVal)) : JsVal :=
  .obj (fields.filterMap fun kv => kv.2.map fun v => (kv.1, v))

/-- The member `name` of a response object; `none` when there is none. -/
def JsVal.field (v : JsVal) (name : String) : Option JsVal :=
  match v with
  | .obj members => lookup name members
  | _ => none

/-! ## The hotel table and its routes -/

/-- A row of `hotelsData`.  The loader makes one object per CSV line, each
value a string; a column the file does not have is `undefined` (`none`).
Only the columns the routes read are kept. -/
structure Hotel where
  property_id : Option String
  property_name : Option String
  image_urls : Option String
  site_review_rating : Option String
  site_review_count : Option String
  highlight_value : Option String
  property_address : Option String
  city : Option String
  state : Option String
  pageurl : Option String
  area : Option String
  hotel_overview : Option String
  hotel_star_rating : Option String
  traveller_rating : Option String
  deriving Repr, DecidableEq

/-- A value of `req.query`: text, or, for a repeated or bracketed key
(`?area=a&area=b`, `?area[x]=1`), an array or an object of such values. -/
inductive QueryValue where
  | text (s : String) : QueryValue
  | list (items : List QueryValue) : QueryValue
  | dict (members : List (String × QueryValue)) : QueryValue

/-- A parameter that is absent or text, as a value of `req.query`. -/
def textQuery (parameter : Option String) : Option QueryValue :=
  parameter.map QueryValue.text

/-- ToBoolean on a query parameter: an absent parameter and the empty text
are falsy; an array or an object is truthy. -/
def supplied (parameter : Option QueryValue) : Bool :=
  match parameter with
  | some (.text s) => s ≠ ""
  | some _ => true
  | none => false

/-- The call `query.toLowerCase()`: text has the method; on an array or an
object the call throws a TypeError. -/
def lowerQuery (query : QueryValue) : Except JsError String :=
  match query with
  | .text s => .ok (toLowerCase s)
  | _ => .error .typeError

/-- The callback `h.field && h.field.toLowerCase().includes(query.toLowerCase())`
as `filter` reads it: a missing or empty field ends it before the query is
touched. -/
def fieldMatches (field : Option String) (query : QueryValue) : Except JsError Bool :=
  match field with
  | some f =>
    if f = "" then .ok false
    else
      match lowerQuery query with
      | .ok q => .ok (includes (toLowerCase f) q)
      | .error e => .error e
  | none => .ok false

/-- The call `rows.filter(h => ...)` with the callback above: the rows are
visited in order, and the first callback that throws ends the call. -/
def filterRows (field : Hotel → Option String) (query : QueryValue) :
    List Hotel → Except JsError (List Hotel)
  | [] => .ok []
  | h :: rest =>
    match fieldMatches (field h) query with
    | .error e => .error e
    | .ok keep =>
      match filterRows field query rest with
      | .error e => .error e
      | .ok more => .ok (if keep then h :: more else more)

/-- One block `if (parameter) { filtered = filtered.filter(...) }`. -/
def filterIfSupplied (field : Hotel → Option String) (parameter : Option QueryValue)
    (rows : List Hotel) : Except JsError (List Hotel) :=
  match parameter with
  | some query => if supplied parameter then filterRows field query rows else .ok rows
  | none => .ok rows

/-- The list `filtered` after the two `if` blocks (server.js lines 228-240),
or the exception one of them throws. -/
def filtered (hotelsData : List Hotel) (city area : Option QueryValue) :
    Except JsError (List Hotel) :=
  match filterIfSupplied (fun h => h.city) city hotelsData with
  | .error e => .error e
  | .ok byCity => filterIfSupplied (fun h => h.area) area byCity

/-- The expression `hotel.image_urls?.split(",")[0] || null`. -/
def photoUrl (hotel : Hotel) : JsVal :=
  logicalOr
    (hotel.image_urls.bind fun urls =>
      (split ',' urls.data).head?.map fun segment => JsVal.str (String.mk segment))
    .null

/-- The expression `parseFloat(hotel.site_review_rating) || null` as it is
sent: NaN and zero are falsy, and `res.json` writes an infinity as `null`. -/
def rating (hotel : Hotel) : JsVal :=
  let parsed := parseFloat (textOrUndefined hotel.site_review_rating)
  if parsed.truthy then parsed.toJson else .null

/-- The expression `parseInt(hotel.site_review_count) || 0` as it is sent. -/
def reviewCount (hotel : Hotel) : JsVal :=
  let parsed := parseInt (textOrUndefined hotel.site_review_count)
  if parsed.truthy then parsed.toJson else .num "0"

/-- The expression `hotel.highlight_value || "N/A"`. -/
def price (hotel : Hotel) : JsVal :=
  logicalOr (hotel.highlight_value.map JsVal.str) (.str "N/A")

/-- The callback of `map` (server.js lines 242-253): the public shape of a
row. -/
def project (hotel : Hotel) : JsVal :=
  objectLiteral
    [("id", hotel.property_id.map JsVal.str),
     ("name", hotel.property_name.map JsVal.str),
     ("photoUrl", some (photoUrl hotel)),
     ("rating", some (rating hotel)),
     ("reviewCount", some (reviewCount hotel)),
     ("price", some (price hotel)),
     ("address", hotel.property_address.map JsVal.str),
     ("city", hotel.city.map JsVal.str),
     ("state", hotel.state.map JsVal.str),
     ("url", hotel.pageurl.map JsVal.str)]

/-- The handler of `GET /api/search-hotels` (server.js lines 220-260): the
400 guard, the two filters, the first 20 rows projected; an exception in the
`try` is answered by the `catch` with status 500. -/
def searchHotels (hotelsData : List Hotel) (city area : Option QueryValue) : Response :=
  if !supplied city && !supplied area then
    resStatusJson 400 (errorBody "City or area is required")
  else
    match filtered hotelsData city area with
    | .ok rows => resJson (.obj [("data", .arr ((rows.take 20).map project))])
    | .error _ => resStatusJson 500 (errorBody "Failed to search hotels")

/-- The detail object of a row (server.js lines 269-280). -/
def detail (hotel : Hotel) : JsVal :=
  objectLiteral
    [("id", hotel.property_id.map JsVal.str),
     ("name", hotel.property_name.map JsVal.str),
     ("overview", hotel.hotel_overview.map JsVal.str),
     ("rating", hotel.hotel_star_rating.map JsVal.str),
     ("traveller_rating", hotel.traveller_rating.map JsVal.str),
     ("address", hotel.property_address.map JsVal.str),
     ("city", hotel.city.map JsVal.str),
     ("state", hotel.state.map JsVal.str),
     ("reviews", hotel.site_review_count.map JsVal.str),
     ("url", hotel.pageurl.map JsVal.str)]

/-- The handler of `GET /api/hotel-details/:hotel_id` (server.js lines
263-285). -/
def hotelDetails (hotelsData : List Hotel) (hotel_id : String) : Response :=
  match hotelsData.find? fun h => h.property_id = some hotel_id with
  | none => resStatusJson 404 (errorBody "Hotel not found")
  | some hotel => resJson (detail hotel)

/-- A row with only the given columns filled. -/
def sampleHotel (id name city area : String) (ratingText countText : Option String) : Hotel :=
  { property_id := some id, property_name := some name, image_urls := none,
    site_review_rating := ratingText, site_review_count := countText,
    highlight_value := none, property_address := none, city := some city, state := none,
    pageurl := none, area := some area, hotel_overview := none, hotel_star_rating := none,
    traveller_rating := none }

/-- A row with the given text in `site_review_rating`. -/
def ratedHotel (ratingText : Option String) : Hotel :=
  sampleHotel "r1" "Lake Rest" "Udaipur" "Pichola" ratingText none

/-- A row with the given text in `site_review_count`. -/
def countedHotel (countText : Option String) : Hotel :=
  sampleHotel "c1" "Fort Inn" "Jaipur" "Amer" none countText

/-- A small table: two hotels in Mumbai, one in Pune. -/
def sampleTable : List Hotel :=
  [sampleHotel "h1" "Sea View" "Mumbai" "Colaba" (some "4.5") (some "120"),
   sampleHotel "h2" "Hill Stay" "Pune" "Kothrud" (some "0") (some "0"),
   sampleHotel "h3" "City Inn" "Navi MUMBAI" "Vashi" none none]

/-! ## `JSON.stringify` -/

namespace JSON

/-- A hexadecimal digit in lower case. -/
def hexDigit (n : Nat) : Char :=
  if n < 10 then Char.ofNat (48 + n) else Char.ofNat (87 + n)

/-- One character of a string as `JSON.stringify` writes it. -/
def escapeChar (c : Char) : List Char :=
  if c = '"' then ['\\', '"']
  else if c = '\\' then ['\\', '\\']
  else if c = Char.ofNat 8 then ['\\', 'b']
  else if c = Char.ofNat 12 then ['\\', 'f']
  else if c = '\n' then ['\\', 'n']
  else if c = '\r' then ['\\', 'r']
  else if c = '\t' then ['\\', 't']
  else if c.toNat < 0x20 then ['\\', 'u', '0', '0', hexDigit (c.toNat / 16), hexDigit (c.toNat % 16)]
  else [c]

/-- The characters of a string, escaped. -/
def escapeChars : List Char → List Char
  | [] => []
  | c :: cs => escapeChar c ++ escapeChars cs

/-- A string literal: quotes around the escaped characters. -/
def quote (s : String) : List Char :=
  '"' :: escapeChars s.data ++ ['"']

mutual

/-- The text of a value, without white space; a number is written as its
literal. -/
def stringifyVal : JsVal → List Char
  | .null => ['n', 'u', 'l', 'l']
  | .bool true => ['t', 'r', 'u', 'e']
  | .bool false => ['f', 'a', 'l', 's', 'e']
  | .num literal => literal.data
  | .str s => quote s
  | .arr items => '[' :: stringifyItems items ++ [']']
  | .obj members => '{' :: stringifyMembers members ++ ['}']

/-- The elements of an array, separated by commas. -/
def stringifyItems : List JsVal → List Char
  | [] => []
  | v :: rest =>
    match rest with
    | [] => stringifyVal v
    | _ :: _ => stringifyVal v ++ ',' :: stringifyItems rest

/-- The members of an object, separated by commas. -/
def stringifyMembers : List (String × JsVal) → List Char
  | [] => []
  | (key, v) :: rest =>
    match rest with
    | [] => quote key ++ ':' :: stringifyVal v
    | _ :: _ => quote key ++ ':' :: stringifyVal v ++ ',' :: stringifyMembers rest

end

/-- The function `JSON.stringify` on a value of the model. -/
def stringify (v : JsVal) : String :=
  String.mk (stringifyVal v)

end JSON

/-! ## The values `JSON.parse` produces -/

namespace JSON

mutual

/-- The shape of the values `JSON.parse` produces: a number is a literal of
the JSON grammar, and the keys of an object are distinct. -/
def wellFormed : JsVal → Bool
  | .null => true
  | .bool _ => true
  | .num literal => validNumber literal.data && literal.data.all isNumChar
  | .str _ => true
  | .arr items => wellFormedItems items
  | .obj members => wellFormedMembers members

/-- Every element of an array is of that shape. -/
def wellFormedItems : List JsVal → Bool
  | [] => true
  | v :: rest => wellFormed v && wellFormedItems rest

/-- Every member of an object is of that shape, under distinct keys. -/
def wellFormedMembers : List (String × JsVal) → Bool
  | [] => true
  | (key, v) :: rest =>
    wellFormed v && rest.all (fun kv => kv.1 ≠ key) && wellFormedMembers rest

end

end JSON

/-! ## The chat of the PlanTrip page (`src/PlanTrip.js`) -/

/-- A chat turn `{ role, content }`. -/
structure Message where
  role : String
  content : JsVal

/-- The state of the component: `messages`, `input`, `loading`, `itinerary`
(`null` at first). -/
structure ChatState where
  messages : List Message
  input : String
  loading : Bool
  itinerary : JsVal

/-- The greeting the chat starts with (PlanTrip.js line 12). -/
def greeting : String :=
  "Hey! I’m your VoyageMate planner. Tell me about the trip you\x27d like to plan! ✈️🌍"

/-- The initial state (PlanTrip.js lines 8-17). -/
def initialState : ChatState :=
  { messages := [{ role := "assistant", content := .str greeting }], input := "",
    loading := false, itinerary := .null }

/-- The method `text.trim()`. -/
def trim (text : String) : String :=
  String.mk ((text.data.dropWhile isStrWhiteSpace).reverse.dropWhile isStrWhiteSpace).reverse

/-- The property `text.length`: the number of UTF-16 code units. -/
def jsLength (text : String) : Nat :=
  text.data.foldr (fun c n => (if c.toNat < 0x10000 then 1 else 2) + n) 0

/-- The first `n` UTF-16 code units of a text, as `slice(0, n)` cuts it.  A
character above U+FFFF takes two units; when the cut falls between them, the
first half is left alone: a lone surrogate, which is U+FFFD here, as a `Char`
cannot hold it. -/
def sliceUnits : Nat → List Char → List Char
  | _, [] => []
  | n, c :: cs =>
    if c.toNat < 0x10000 then (if 1 ≤ n then c :: sliceUnits (n - 1) cs else [])
    else if 2 ≤ n then c :: sliceUnits (n - 2) cs
    else if n = 1 then [Char.ofNat 0xFFFD]
    else []

/-- The values of `assistant_message` and `plan` when `handleServerResponse`
reaches line 46, for the payload `data` (`none` is `undefined`).  Member
access on a payload that is truthy and not a string does not throw. -/
def classify (data : Option JsVal) : JsVal × JsVal :=
  if !truthy data then (.str "Sorry — no response from server.", .null)
  else
    match data with
    | none => (.str "Sorry — no response from server.", .null)
    | some d =>
      if d.typeof = "string" then (d, .null)
      else if truthy (d.field "assistant_message") || (d.field "plan").isSome then
        (nullish (d.field "assistant_message") .null, nullish (d.field "plan") .null)
      else if truthy (d.field "destination") && truthy (d.field "itinerary") then
        (.str "Here\x27s the plan I generated for you.", d)
      else (.str (String.mk (sliceUnits 1000 (JSON.stringifyVal d))), .null)

/-- The function `handleServerResponse` (PlanTrip.js lines 22-52). -/
def handleServerResponse (st : ChatState) (data : Option JsVal) : ChatState :=
  let assistant_message := (classify data).1
  let plan := (classify data).2
  let afterMessage :=
    if assistant_message.truthy then
      { st with messages := st.messages ++ [{ role := "assistant", content := assistant_message }] }
    else st
  if plan.truthy then { afterMessage with itinerary := plan } else afterMessage

/-- The function `sendMessage` up to the request (PlanTrip.js lines 55-60);
`messages` is the state the handler was rendered with. -/
def sendMessage (st : ChatState) (text : String) : ChatState :=
  if trim text = "" then st
  else
    { st with
      messages := st.messages ++ [{ role := "user", content := .str (trim text) }]
      input := ""
      loading := true }

/-- The states the chat can be in: the initial one, and what `sendMessage`
and `handleServerResponse` make of a state. -/
inductive Reachable : ChatState → Prop where
  | initial : Reachable initialState
  | send (st : ChatState) (text : String) : Reachable st → Reachable (sendMessage st text)
  | handle (st : ChatState) (data : Option JsVal) :
      Reachable st → Reachable (handleServerResponse st data)

/-- Following the words of the spec: the substring that starts at the last
occurrence of `{` and runs to the end of the text; `none` without a `{`. -/
def lastBraceToEnd : List Char → Option (List Char)
  | [] => none
  | c :: cs =>
    match lastBraceToEnd cs with
    | some found => some found
    | none => if c = '{' then some (c :: cs) else none

/-- The text `Sure! {"assistant_message":"hi","plan":{"days":3}}`: prose, then
an object with an object inside. -/
def nestedPlanText : String :=
  "Sure! \x7b\"assistant_message\":\"hi\",\"plan\":\x7b\"days\":3\x7d\x7d"

/-- Following the words of the claim: a row counts for a parameter that is
not supplied; for a supplied one its field must be present and, in lower case,
contain the parameter in lower case. -/
def containsQuery (field parameter : Option String) : Bool :=
  match parameter with
  | none => true
  | some query =>
    if query = "" then true
    else
      match field with
      | some f => includes (toLowerCase f) (toLowerCase query)
      | none => false

/-! ## Comparison and conversion of JSON values -/

/-- The operator `===` on two numbers: NaN equals nothing, the two zeros are
equal. -/
def JsNumber.equals (a b : JsNumber) : Bool :=
  match a, b with
  | .finite _ m _, .finite _ n _ => if m = 0 ∧ n = 0 then true else decide (a = b)
  | .infinity s, .infinity t => s = t
  | _, _ => false

/-- The operator `a === b` between a value of the request and a value stored
before: values that are not objects are compared by value (numbers as
doubles); an array or an object of a request is a new object, which equals no
other. -/
def strictEquals (a b : JsVal) : Bool :=
  match a, b with
  | .null, .null => true
  | .bool x, .bool y => x = y
  | .num x, .num y => (literalNumber x).equals (literalNumber y)
  | .str x, .str y => x = y
  | _, _ => false

/-- The operator `===` where either side may be `undefined`. -/
def strictEq (a b : Option JsVal) : Bool :=
  match a, b with
  | none, none => true
  | some x, some y => strictEquals x y
  | _, _ => false

/-- The value of `StringToNumber` for a text without white space around it:
the empty text is 0; `0x`, `0o`, `0b` start an integer of base 16, 8, 2; else
the whole text must be `Infinity` or a decimal literal, with an optional
sign. -/
def numberOfTrimmed (cs : List Char) : JsNumber :=
  let based (radix : Nat) (digits : List Char) : JsNumber :=
    if digits.isEmpty ∨ ¬ digits.all (fun c =>
        match JSON.hexVal c with
        | some v => v < radix
        | none => false) then .nan
    else roundToDouble false (digits.foldl (fun n c => n * radix + (JSON.hexVal c).getD 0) 0) 1
  match cs with
  | [] => .finite false 0 0
  | z :: x :: digits =>
    if z = '0' ∧ (x = 'x' ∨ x = 'X') then based 16 digits
    else if z = '0' ∧ (x = 'o' ∨ x = 'O') then based 8 digits
    else if z = '0' ∧ (x = 'b' ∨ x = 'B') then based 2 digits
    else
      let negative := z = '-'
      let body := if z = '+' ∨ z = '-' then x :: digits else cs
      if body = "Infinity".data then .infinity negative
      else
        match readDecimal body with
        | some (literal, exponent, []) => decimalToDouble negative (digitsValue literal) exponent
        | _ => .nan
  | [c] => if JSON.isDigit c then decimalToDouble false (digitsValue [c]) 0 else .nan

/-- The conversion `StringToNumber` of ECMAScript. -/
def stringToNumber (text : String) : JsNumber :=
  numberOfTrimmed (trim text).data

/-- The value `null`. -/
def JsVal.isNull : JsVal → Bool
  | .null => true
  | _ => false

mutual

/-- The conversion `ToString` of a JSON value.  An array is joined with
commas; an object is `[object Object]`, unless it has a member `toString`,
which hides the method: then the conversion throws a TypeError. -/
def JsVal.toText : JsVal → Except JsError String
  | .null => .ok "null"
  | .bool b => .ok (if b then "true" else "false")
  | .num literal => .ok (literalNumber literal).toText
  | .str s => .ok s
  | .arr items =>
    match elementTexts items with
    | .ok texts => .ok (",".intercalate texts)
    | .error e => .error e
  | .obj members =>
    if (lookup "toString" members).isSome then .error .typeError else .ok "[object Object]"

/-- The texts that the method `join` of an array puts between the commas:
the empty text for `null`, the `ToString` of every other element. -/
def elementTexts : List JsVal → Except JsError (List String)
  | [] => .ok []
  | v :: rest =>
    match JsVal.toText v with
    | .error e => .error e
    | .ok text =>
      match elementTexts rest with
      | .error e => .error e
      | .ok more => .ok ((if v.isNull then "" else text) :: more)

end

/-- The conversion `ToNumber` of a JSON value: an array or an object goes
through its `ToString`. -/
def JsVal.toNumber (v : JsVal) : Except JsError JsNumber :=
  match v with
  | .null => .ok (.finite false 0 0)
  | .bool b => .ok (if b then .finite false 1 0 else .finite false 0 0)
  | .num literal => .ok (literalNumber literal)
  | .str s => .ok (stringToNumber s)
  | other =>
    match other.toText with
    | .ok text => .ok (stringToNumber text)
    | .error e => .error e

/-- A finite double as a signed integer times `2 ^ exponent`, for an exponent
not above its own. -/
def scaledMantissa (negative : Bool) (mantissa : Nat) (exponent base : Int) : Int :=
  let scaled : Int := mantissa * 2 ^ (exponent - base).toNat
  if negative then -scaled else scaled

/-- The operator `a < b` on numbers; it is false when one of them is NaN. -/
def JsNumber.lessThan (a b : JsNumber) : Bool :=
  match a, b with
  | .nan, _ => false
  | _, .nan => false
  | .infinity s, .infinity t => s && !t
  | .infinity s, .finite _ _ _ => s
  | .finite _ _ _, .infinity t => !t
  | .finite s m e, .finite t n f =>
    scaledMantissa s m e (min e f) < scaledMantissa t n f (min e f)

/-- The text `${value}` of a template literal. -/
def templateText (value : Option JsVal) : Except JsError String :=
  match value with
  | none => .ok "undefined"
  | some v => v.toText

/-- The comparison `value.length < limit` for a truthy JSON value: a text has
its number of UTF-16 code units, an array its number of elements, an object
its member `length` (converted to a number), a number or a boolean no
`length` at all, and `undefined < limit` is false. -/
def lengthLessThan (limit : Nat) (value : JsVal) : Except JsError Bool :=
  match value with
  | .null => .error .typeError
  | .str s => .ok (jsLength s < limit)
  | .arr items => .ok (items.length < limit)
  | .obj members =>
    match lookup "length" members with
    | none => .ok false
    | some x =>
      match x.toNumber with
      | .ok n => .ok (n.lessThan (roundToDouble false limit 1))
      | .error e => .error e
  | _ => .ok false

/-! ## The user list and its routes (server.js lines 323-485) -/

/-- An element of `users`: an object, kept as the list of its members in
their order.  Reading a member is `lookup`, assigning one is `setProp`. -/
abbrev User := List (String × JsVal)

/-- The statement `delete object.name`. -/
def deleteKey (name : String) (members : List (String × JsVal)) : List (String × JsVal) :=
  members.filter fun kv => kv.1 ≠ name

/-- The copy `{ ...user }` after `delete copy.password`, as an object. -/
def withoutPassword (u : User) : JsVal :=
  .obj (deleteKey "password" u)

/-- The spread of `users[index]`; the spread of `undefined` has no members. -/
def spreadAt (users : List User) (index : Nat) : List (String × JsVal) :=
  match users.get? index with
  | some u => u
  | none => []

/-- The callback `u => u.id === userId || u.uid === userId`. -/
def matchesUser (userId : Option JsVal) (u : User) : Bool :=
  strictEq (lookup "id" u) userId || strictEq (lookup "uid" u) userId

/-- The method `findIndex`; `none` is the result -1. -/
def findIndex (p : User → Bool) : List User → Option Nat
  | [] => none
  | u :: rest => if p u then some 0 else (findIndex p rest).map fun i => i + 1

/-- An assignment to a member of `users[index]`. -/
def updateAt (index : Nat) (f : User → User) : List User → List User
  | [] => []
  | u :: rest =>
    match index with
    | 0 => f u :: rest
    | i + 1 => u :: updateAt i f rest

/-- The assignment `users[index].name = value`; a value that is `undefined`
is not assigned by the handlers, which test it first. -/
def assignAt (index : Nat) (name : String) (value : Option JsVal) (users : List User) :
    List User :=
  match value with
  | some v => updateAt index (setProp name v) users
  | none => users

/-- The object literal `{ message: text }`. -/
def messageBody (text : String) : JsVal :=
  .obj [("message", .str text)]

/-- The handler of `PUT /api/user/update-profile` (server.js lines 338-385):
the response and the user list it leaves.  The fields of the body are any JSON
values, or absent. -/
def updateProfile (users : List User) (name email userId : Option JsVal) :
    Response × List User :=
  if !truthy userId then (resStatusJson 400 (errorBody "User ID is required"), users)
  else
    match findIndex (matchesUser userId) users with
    | none => (resStatusJson 404 (errorBody "User not found"), users)
    | some userIndex =>
      let named := if truthy name then assignAt userIndex "displayName" name users else users
      if truthy email then
        if named.any fun u =>
            strictEq (lookup "email" u) email &&
              (!strictEq (lookup "id" u) userId && !strictEq (lookup "uid" u) userId) then
          (resStatusJson 400 (errorBody "Email already exists"), named)
        else
          let mailed := assignAt userIndex "email" email named
          (resJson (.obj [("message", .str "Profile updated successfully"),
            ("user", .obj (deleteKey "password" (spreadAt mailed userIndex)))]), mailed)
      else
        (resJson (.obj [("message", .str "Profile updated successfully"),
          ("user", .obj (deleteKey "password" (spreadAt named userIndex)))]), named)

/-- The handler of `POST /api/user/update-password` (server.js lines 388-431):
the response and the user list it leaves.  An exception in the `try` (the
comparison of the length can throw) is answered by the `catch` with status
500. -/
def updatePassword (users : List User) (currentPassword newPassword userId : Option JsVal) :
    Response × List User :=
  if !truthy userId || !truthy currentPassword || !truthy newPassword then
    (resStatusJson 400
      (errorBody "User ID, current password, and new password are required"), users)
  else
    match findIndex (matchesUser userId) users with
    | none => (resStatusJson 404 (errorBody "User not found"), users)
    | some userIndex =>
      if !strictEq (lookup "password" (spreadAt users userIndex)) currentPassword then
        (resStatusJson 400 (errorBody "Current password is incorrect"), users)
      else
        match newPassword with
        | none => (resStatusJson 500 (errorBody "Failed to update password"), users)
        | some fresh =>
          match lengthLessThan 6 fresh with
          | .error _ => (resStatusJson 500 (errorBody "Failed to update password"), users)
          | .ok true =>
            (resStatusJson 400
              (errorBody "New password must be at least 6 characters long"), users)
          | .ok false =>
            (resJson (messageBody "Password updated successfully"),
              assignAt userIndex "password" newPassword users)

/-- The handler of `GET /api/user/profile/:userId` (server.js lines 434-453);
the parameter of the route is text. -/
def getProfile (users : List User) (userId : String) : Response :=
  match users.find? (matchesUser (some (.str userId))) with
  | none => resStatusJson 404 (errorBody "User not found")
  | some user => resJson (withoutPassword user)

/-- The handler of `POST /api/auth/login` (server.js lines 456-479); the
template literal of the token can throw, which the `catch` answers with status
500. -/
def login (users : List User) (email password : Option JsVal) : Response :=
  match users.find? fun u =>
      strictEq (lookup "email" u) email && strictEq (lookup "password" u) password with
  | none => resStatusJson 401 (errorBody "Invalid credentials")
  | some user =>
    match templateText (lookup "id" user) with
    | .ok idText =>
      resJson (.obj [("message", .str "Login successful"), ("user", withoutPassword user),
        ("token", .str ("mock-token-" ++ idText))])
    | .error _ => resStatusJson 500 (errorBody "Login failed")

/-- The handler of `GET /api/debug/users` (server.js lines 482-485): each user
spread, with `password` set to the fixed text. -/
def debugUsers (users : List User) : Response :=
  resJson (.arr (users.map fun u => .obj (setProp "password" (.str "***hidden***") u)))

/-- The user the list starts with (server.js lines 324-332). -/
def firstUser : User :=
  [("id", .str "user1"), ("uid", .str "firebase-uid-1"),
    ("displayName", .str "Archit Pokharankar"), ("email", .str "pokharankararchit@gmail.com"),
    ("password", .str "hashedPassword123"), ("photoURL", .str "https://i.pravatar.cc/80?img=1"),
    ("accessToken", .str "mock-token-123")]

/-- A second user, for lists with more than one. -/
def secondUser : User :=
  [("id", .str "user2"), ("uid", .str "firebase-uid-2"), ("displayName", .str "Second User"),
    ("email", .str "second@example.com"), ("password", .str "secret222")]

/-- The user lists the server can hold: the list it starts with (server.js
lines 323-333), and what the two routes that assign to it leave.  No route
adds or removes a user. -/
inductive UsersReachable : List User → Prop where
  | initial : UsersReachable [firstUser]
  | profile (users : List User) (name email userId : Option JsVal) :
      UsersReachable users → UsersReachable (updateProfile users name email userId).2
  | password (users : List User) (currentPassword newPassword userId : Option JsVal) :
      UsersReachable users →
      UsersReachable (updatePassword users currentPassword newPassword userId).2

/-! ## Saving a package (`src/BudgetPlanner.js` lines 298-315) -/

/-- A package of the suggestion list: the two members `savePackage` compares,
the two it sets, and the others (budget, itinerary, image). -/
structure Package where
  PackageName : String
  Destination : String
  chosenAt : Option String
  savedId : Option String
  others : List (String × JsVal)

/-- The list `newList` of `savePackage(p)`, which is set as `filteredPackages`
and written as `savedPackages`; `now` is `new Date().toISOString()` and
`fresh` is what `uidSafe()` returns. -/
def savePackage (filteredPackages : List Package) (p : Package) (now fresh : String) :
    List Package :=
  let current := filteredPackages
  let toSave : Package :=
    { p with
      chosenAt := some now
      savedId := some (match p.savedId with
        | some saved => if saved ≠ "" then saved else "pkg_" ++ fresh
        | none => "pkg_" ++ fresh) }
  match current.find? fun fp =>
      fp.PackageName = p.PackageName && fp.Destination = p.Destination with
  | some _ => current
  | none => current ++ [toSave]

/-- A package as the CSV loader makes it: no `chosenAt`, no `savedId`. -/
def samplePackage (name destination : String) : Package :=
  { PackageName := name, Destination := destination, chosenAt := none, savedId := none,
    others := [("RequiredBudget", .num "12000")] }

/-! ## Basic facts -/

theorem tryCatch_ok {α : Type} (a : α) (h : JsError → Except JsError α) :
    tryCatch (Except.ok a) h = Except.ok a := rfl

theorem tryCatch_error {α : Type} (e : JsError) (h : JsError → Except JsError α) :
    tryCatch (Except.error e) h = h e := rfl

theorem nullish_null_eq_getD (a : Option JsVal) : nullish a .null = a.getD .null := by
  cases a with
  | none => rfl
  | some v => cases v <;> rfl

theorem strictAttempt_of_none {t : String} (h : JSON.parse t = none) :
    strictAttempt t = .error .syntaxError := by
  simp [strictAttempt, jsonParse, h, bind, Except.bind]

theorem strictAttempt_of_str {t s : String} (h : JSON.parse t = some (.str s)) :
    strictAttempt t = .ok (resJson (chatPlanBody (.str s) .null)) := by
  simp [strictAttempt, jsonParse, h, bind, Except.bind, JsVal.typeof, pure, Except.pure]

theorem strictAttempt_of_null {t : String} (h : JSON.parse t = some .null) :
    strictAttempt t = .error .typeError := by
  simp [strictAttempt, jsonParse, h, bind, Except.bind, JsVal.typeof, pure, Except.pure,
    JsVal.getProp]

theorem strictAttempt_of_obj {t : String} {members : List (String × JsVal)}
    (h : JSON.parse t = some (.obj members)) :
    strictAttempt t = .ok (resJson (chatPlanBody
      ((lookup "assistant_message" members).getD .null)
      ((lookup "plan" members).getD .null))) := by
  simp [strictAttempt, jsonParse, h, bind, Except.bind, JsVal.typeof, pure, Except.pure,
    JsVal.getProp, nullish_null_eq_getD]

theorem strictAttempt_of_other {t : String} {v : JsVal} (h : JSON.parse t = some v)
    (hv : (∃ b, v = .bool b) ∨ (∃ n, v = .num n) ∨ (∃ xs, v = .arr xs)) :
    strictAttempt t = .ok (resJson (chatPlanBody .null .null)) := by
  rcases hv with ⟨b, rfl⟩ | ⟨n, rfl⟩ | ⟨xs, rfl⟩ <;>
  simp [strictAttempt, jsonParse, h, bind, Except.bind, JsVal.typeof, pure, Except.pure,
    JsVal.getProp, nullish]

theorem parse_empty : JSON.parse "" = none := rfl

theorem ne_empty_of_parse {t : String} {v : JsVal} (h : JSON.parse t = some v) : t ≠ "" := by
  rintro rfl
  simp [parse_empty] at h

theorem salvage_of_no_match {t : String} (h : regexMatch t.data = none) :
    tryCatch (salvageAttempt t) (fun _ => .ok none) = .ok none := by
  simp [salvageAttempt, h, pure, Except.pure, tryCatch_ok]

theorem salvage_of_parse_none {t : String} {c : List Char} (h : regexMatch t.data = some c)
    (hp : JSON.parse (String.mk c) = none) :
    tryCatch (salvageAttempt t) (fun _ => .ok none) = .ok none := by
  simp [salvageAttempt, h, jsonParse, hp, bind, Except.bind, tryCatch_error]

theorem salvage_of_parse_null {t : String} {c : List Char} (h : regexMatch t.data = some c)
    (hp : JSON.parse (String.mk c) = some .null) :
    tryCatch (salvageAttempt t) (fun _ => .ok none) = .ok none := by
  simp [salvageAttempt, h, jsonParse, hp, bind, Except.bind, tryCatch_error, JsVal.getProp]

theorem salvage_of_parse_obj {t : String} {c : List Char} {members : List (String × JsVal)}
    (h : regexMatch t.data = some c) (hp : JSON.parse (String.mk c) = some (.obj members)) :
    tryCatch (salvageAttempt t) (fun _ => .ok none) =
      .ok (some (resJson (chatPlanBody ((lookup "assistant_message" members).getD .null)
        ((lookup "plan" members).getD .null)))) := by
  simp [salvageAttempt, h, jsonParse, hp, bind, Except.bind, tryCatch_ok, JsVal.getProp,
    pure, Except.pure, nullish_null_eq_getD]

theorem salvage_of_parse_other {t : String} {c : List Char} {v : JsVal}
    (h : regexMatch t.data = some c) (hp : JSON.parse (String.mk c) = some v)
    (hv : (∃ b, v = .bool b) ∨ (∃ n, v = .num n) ∨ (∃ s, v = .str s) ∨ (∃ xs, v = .arr xs)) :
    tryCatch (salvageAttempt t) (fun _ => .ok none) =
      .ok (some (resJson (chatPlanBody .null .null))) := by
  rcases hv with ⟨b, rfl⟩ | ⟨n, rfl⟩ | ⟨s, rfl⟩ | ⟨xs, rfl⟩ <;>
  simp [salvageAttempt, h, jsonParse, hp, bind, Except.bind, tryCatch_ok, JsVal.getProp,
    pure, Except.pure, nullish]

/-- Every way through the salvage step ends without an exception. -/
theorem salvage_total (t : String) :
    tryCatch (salvageAttempt t) (fun _ => .ok none) = .ok none ∨
    ∃ am plan, tryCatch (salvageAttempt t) (fun _ => .ok none) =
      .ok (some (resJson (chatPlanBody am plan))) := by
  cases h : regexMatch t.data with
  | none => exact Or.inl (salvage_of_no_match h)
  | some c =>
    cases hp : JSON.parse (String.mk c) with
    | none => exact Or.inl (salvage_of_parse_none h hp)
    | some v =>
      cases v with
      | null => exact Or.inl (salvage_of_parse_null h hp)
      | obj members => exact Or.inr ⟨_, _, salvage_of_parse_obj h hp⟩
      | bool b => exact Or.inr ⟨_, _, salvage_of_parse_other h hp (Or.inl ⟨b, rfl⟩)⟩
      | num n => exact Or.inr ⟨_, _, salvage_of_parse_other h hp (Or.inr (Or.inl ⟨n, rfl⟩))⟩
      | str s =>
        exact Or.inr ⟨_, _, salvage_of_parse_other h hp (Or.inr (Or.inr (Or.inl ⟨s, rfl⟩)))⟩
      | arr xs =>
        exact Or.inr ⟨_, _, salvage_of_parse_other h hp (Or.inr (Or.inr (Or.inr ⟨xs, rfl⟩)))⟩

/-- After a failed strict attempt the result is the salvaged response or the
raw-text fallback. -/
theorem normalise_of_strict_error {t : String} {e : JsError} (ht : t ≠ "")
    (h : strictAttempt t = .error e) :
    chatPlanNormalise t =
      match tryCatch (salvageAttempt t) (fun _ => .ok none) with
      | .ok (some response) => .ok response
      | .ok none => .ok (rawTextFallback t)
      | .error e => .error e := by
  simp [chatPlanNormalise, ht, h, tryCatch_error]

theorem normalise_of_strict_ok {t : String} {r : Response} (ht : t ≠ "")
    (h : strictAttempt t = .ok r) : chatPlanNormalise t = .ok r := by
  simp [chatPlanNormalise, ht, h, tryCatch_ok]

/-! ## What the parser consumes -/

namespace JSON

theorem skipWs_suffix (cs : List Char) : skipWs cs <:+ cs := by
  induction cs with
  | nil => exact List.suffix_refl _
  | cons c cs ih =>
    unfold skipWs
    split
    · exact ih.trans (List.suffix_cons c cs)
    · exact List.suffix_refl _

theorem skipWs_of_not_ws {c : Char} (cs : List Char) (h : isWs c = false) :
    skipWs (c :: cs) = c :: cs := by
  simp [skipWs, h]

theorem skipWs_head {cs rest : List Char} {c : Char} (h : skipWs cs = c :: rest) :
    isWs c = false := by
  induction cs with
  | nil => simp [skipWs] at h
  | cons d ds ih =>
    unfold skipWs at h
    split at h
    · exact ih h
    · rename_i hd
      cases h
      simpa using hd

theorem skipWs_append_of_ws (ws cs : List Char) (h : ∀ c ∈ ws, isWs c = true) :
    skipWs (ws ++ cs) = skipWs cs := by
  induction ws with
  | nil => rfl
  | cons w ws ih =>
    have hw : isWs w = true := h w (List.mem_cons_self _ _)
    simp only [List.cons_append, skipWs, hw, if_true]
    exact ih fun c hc => h c (List.mem_cons_of_mem _ hc)

theorem all_ws_of_skipWs_nil {cs : List Char} (h : skipWs cs = []) : ∀ c ∈ cs, isWs c = true := by
  induction cs with
  | nil => simp
  | cons d ds ih =>
    unfold skipWs at h
    split at h
    · rename_i hd
      intro c hc
      rcases List.mem_cons.1 hc with rfl | hc
      · exact hd
      · exact ih h c hc
    · cases h

theorem suffix_two (a b : Char) (l : List Char) : l <:+ a :: b :: l := ⟨[a, b], rfl⟩

theorem suffix_six (a b c d e f : Char) (l : List Char) : l <:+ a :: b :: c :: d :: e :: f :: l :=
  ⟨[a, b, c, d, e, f], rfl⟩

/-- A string literal that parses ends with its closing quote, right before
the input that is left. -/
theorem parseString_closes (pending : Option Nat) (cs acc : List Char) (s : String)
    (rest : List Char) (h : parseString pending cs acc = some (s, rest)) :
    ('"' :: rest) <:+ cs := by
  induction pending, cs, acc using parseString.induct with
  | case1 => simp [parseString] at h
  | case2 pending cs acc =>
    unfold parseString at h
    simp at h
    rw [h.2]
  | case3 =>
    unfold parseString at h
    simp at h
  | case4 pending acc h1 h2 h3 h4 rest4 hx =>
    unfold parseString at h
    simp [hx] at h
  | case5 pending acc h1 h2 h3 h4 rest4 u hx _ ih =>
    unfold parseString at h
    simp [hx] at h
    exact (ih h).trans (suffix_six _ _ _ _ _ _ _)
  | case6 pending acc cs hcs =>
    unfold parseString at h
    simp at h
  | case7 pending acc c cs hc ch he _ ih =>
    unfold parseString at h
    simp [hc, he] at h
    exact (ih h).trans (suffix_two _ _ _)
  | case8 pending acc c cs hc he =>
    unfold parseString at h
    simp [hc, he] at h
  | case9 pending c cs acc h1 h2 h3 =>
    unfold parseString at h
    simp [h1, h2, h3] at h
  | case10 pending c cs acc h1 h2 h3 ih =>
    unfold parseString at h
    simp [h1, h2, h3] at h
    exact (ih h).trans (List.suffix_cons _ _)

theorem isNumChar_ne_brace {c : Char} (h : isNumChar c = true) : c ≠ '}' := by
  rintro rfl
  revert h
  decide

theorem takeWhile_last (p : Char → Bool) : ∀ (cs : List Char) (c : Char), p c = true →
    ∃ last, (last :: (c :: cs).dropWhile p) <:+ (c :: cs) ∧ p last = true := by
  intro cs
  induction cs with
  | nil =>
    intro c hc
    exact ⟨c, by simp [List.dropWhile, hc], hc⟩
  | cons d ds ih =>
    intro c hc
    by_cases hd : p d = true
    · obtain ⟨last, hl, hp⟩ := ih d hd
      refine ⟨last, ?_, hp⟩
      have : (c :: d :: ds).dropWhile p = (d :: ds).dropWhile p := by
        simp [List.dropWhile, hc]
      rw [this]
      exact hl.trans (List.suffix_cons _ _)
    · refine ⟨c, ?_, hc⟩
      have : (c :: d :: ds).dropWhile p = d :: ds := by
        simp [List.dropWhile, hc, hd]
      rw [this]

theorem isNumChar_of_start {c : Char} (h : c = '-' ∨ isDigit c = true) : isNumChar c = true := by
  rcases h with rfl | h
  · decide
  · simp [isNumChar, h]

theorem run_closes (n : Nat) : ∀ (task : Task) (cs : List Char) (v : JsVal) (rest : List Char),
    run n task cs = some (v, rest) → Closes task cs v rest := by
  induction n with
  | zero => intro task cs v rest h; simp [run] at h
  | succ n ih =>
    intro task cs v rest h
    cases cs with
    | nil => simp [run] at h
    | cons c cs =>
      cases task with
      | value =>
        simp only [run] at h
        split at h
        · rename_i hc
          subst hc
          split at h
          · cases h
          · rename_i d ds hsk
            have hsuf : (d :: ds) <:+ '{' :: cs :=
              hsk ▸ (skipWs_suffix cs).trans (List.suffix_cons _ _)
            split at h
            · rename_i hd
              subst hd
              cases h
              exact ⟨'}', hsuf, Or.inl ⟨rfl, [], rfl⟩⟩
            · obtain ⟨last, hl, -, m, hm⟩ := ih _ _ _ _ h
              exact ⟨last, hl.trans hsuf, Or.inl ⟨rfl, m, hm⟩⟩
        split at h
        · split at h
          · cases h
          · rename_i d ds hsk
            have hsuf : (d :: ds) <:+ c :: cs :=
              hsk ▸ (skipWs_suffix cs).trans (List.suffix_cons _ _)
            split at h
            · rename_i hd
              subst hd
              cases h
              exact ⟨']', hsuf, Or.inr ⟨by decide, fun m hm => by cases hm⟩⟩
            · obtain ⟨last, hl, hlast, hm⟩ := ih _ _ _ _ h
              subst hlast
              exact ⟨']', hl.trans hsuf, Or.inr ⟨by decide, hm⟩⟩
        split at h
        · split at h
          · cases h
          · rename_i s r hs
            cases h
            exact ⟨'"', (parseString_closes _ _ _ _ _ hs).trans (List.suffix_cons _ _),
              Or.inr ⟨by decide, fun m hm => by cases hm⟩⟩
        split at h
        · rename_i hstart
          split at h
          · cases h
            obtain ⟨last, hl, hp⟩ := takeWhile_last isNumChar cs c (isNumChar_of_start hstart)
            exact ⟨last, hl, Or.inr ⟨isNumChar_ne_brace hp, fun m hm => by cases hm⟩⟩
          · cases h
        split at h
        · split at h
          · cases h
            exact ⟨'e', ⟨[c, 'r', 'u'], rfl⟩, Or.inr ⟨by decide, fun m hm => by cases hm⟩⟩
          · cases h
        split at h
        · split at h
          · cases h
            exact ⟨'e', ⟨[c, 'a', 'l', 's'], rfl⟩, Or.inr ⟨by decide, fun m hm => by cases hm⟩⟩
          · cases h
        split at h
        · split at h
          · cases h
            exact ⟨'l', ⟨[c, 'u', 'l'], rfl⟩, Or.inr ⟨by decide, fun m hm => by cases hm⟩⟩
          · cases h
        · cases h
      | elems acc =>
        simp only [run] at h
        split at h
        · cases h
        · rename_i v1 r1 hv
          obtain ⟨last1, hl1, -⟩ := ih _ _ _ _ hv
          have hr1 : r1 <:+ c :: cs := (List.suffix_cons _ _).trans hl1
          split at h
          · cases h
          · rename_i d ds hsk
            have hsuf : (d :: ds) <:+ c :: cs := hsk ▸ (skipWs_suffix r1).trans hr1
            split at h
            · obtain ⟨last, hl, hk⟩ := ih _ _ _ _ h
              exact ⟨last, (hl.trans (skipWs_suffix ds)).trans
                ((List.suffix_cons _ _).trans hsuf), hk⟩
            · split at h
              · rename_i hd
                subst hd
                cases h
                exact ⟨']', hsuf, rfl, fun m hm => by cases hm⟩
              · cases h
      | members acc =>
        simp only [run] at h
        split at h
        · split at h
          · cases h
          · rename_i key r0 hkey
            have hr0 : r0 <:+ c :: cs :=
              (List.suffix_cons _ _).trans
                ((parseString_closes _ _ _ _ _ hkey).trans (List.suffix_cons _ _))
            split at h
            · cases h
            · rename_i colon afterColon hsk0
              have hcolon : afterColon <:+ c :: cs :=
                (List.suffix_cons _ _).trans (hsk0 ▸ (skipWs_suffix r0).trans hr0)
              split at h
              · split at h
                · cases h
                · rename_i v1 r1 hv
                  obtain ⟨last1, hl1, -⟩ := ih _ _ _ _ hv
                  have hr1 : r1 <:+ c :: cs :=
                    ((List.suffix_cons _ _).trans hl1).trans
                      ((skipWs_suffix afterColon).trans hcolon)
                  split at h
                  · cases h
                  · rename_i d ds hsk
                    have hsuf : (d :: ds) <:+ c :: cs := hsk ▸ (skipWs_suffix r1).trans hr1
                    split at h
                    · obtain ⟨last, hl, hk⟩ := ih _ _ _ _ h
                      exact ⟨last, (hl.trans (skipWs_suffix ds)).trans
                        ((List.suffix_cons _ _).trans hsuf), hk⟩
                    · split at h
                      · rename_i hd
                        subst hd
                        cases h
                        exact ⟨'}', hsuf, rfl, _, rfl⟩
                      · cases h
              · cases h
        · cases h

theorem run_nil (n : Nat) (task : Task) : run n task [] = none := by
  cases n <;> simp [run]

theorem rest_shorter {task : Task} {cs rest : List Char} {v : JsVal} {n : Nat}
    (h : run n task cs = some (v, rest)) : rest.length + 1 ≤ cs.length := by
  obtain ⟨last, hl, -⟩ := run_closes _ _ _ _ _ h
  have := hl.length_le
  simpa using this

theorem skipWs_length (cs : List Char) : (skipWs cs).length ≤ cs.length :=
  (skipWs_suffix cs).length_le

theorem run_fuel (k : Nat) : ∀ (task : Task) (cs : List Char) (n m : Nat),
    need task cs ≤ k → need task cs ≤ n → need task cs ≤ m → run n task cs = run m task cs := by
  induction k with
  | zero =>
    intro task cs n m hk _ _
    cases cs with
    | nil => rw [run_nil, run_nil]
    | cons c cs => simp [need] at hk
  | succ k ih =>
    intro task cs n m hk hn hm
    cases cs with
    | nil => rw [run_nil, run_nil]
    | cons c cs =>
      obtain ⟨n, rfl⟩ : ∃ n', n = n' + 1 := ⟨n - 1, by simp [need] at hn; omega⟩
      obtain ⟨m, rfl⟩ : ∃ m', m = m' + 1 := ⟨m - 1, by simp [need] at hm; omega⟩
      cases task with
      | value =>
        simp only [need, List.length_cons] at hk hn hm
        have sub : ∀ (task : Task) (ds : List Char), ds.length ≤ cs.length →
            run n task ds = run m task ds := by
          intro task ds hds
          have : need task ds ≤ 2 * cs.length + 1 := by
            cases task <;> simp only [need] <;> omega
          exact ih task ds n m (by omega) (by omega) (by omega)
        simp only [run]
        split
        · split
          · rfl
          · rename_i d ds hsk
            rw [sub _ (d :: ds) (hsk ▸ skipWs_length cs)]
        split
        · split
          · rfl
          · rename_i d ds hsk
            rw [sub _ (d :: ds) (hsk ▸ skipWs_length cs)]
        rfl
      | elems acc =>
        simp only [need, List.length_cons] at hk hn hm
        have hv : run n .value (c :: cs) = run m .value (c :: cs) :=
          ih _ _ n m (by simp only [need, List.length_cons]; omega)
            (by simp only [need, List.length_cons]; omega)
            (by simp only [need, List.length_cons]; omega)
        simp only [run]
        rw [hv]
        split
        · rfl
        · rename_i v1 r1 hrun
          have hr1 := rest_shorter hrun
          simp only [List.length_cons] at hr1
          split
          · rfl
          · rename_i d ds hsk
            have hds : ds.length + 1 ≤ r1.length := by
              have := skipWs_length r1
              rw [hsk] at this
              simpa using this
            have hsds := skipWs_length ds
            split
            · exact ih _ _ n m (by simp only [need]; omega) (by simp only [need]; omega)
                (by simp only [need]; omega)
            · rfl
      | members acc =>
        simp only [need, List.length_cons] at hk hn hm
        simp only [run]
        split
        · split
          · rfl
          · rename_i key r0 hkey
            have hr0 : r0.length + 1 ≤ cs.length := by
              have := (parseString_closes _ _ _ _ _ hkey).length_le
              simpa using this
            split
            · rfl
            · rename_i colon afterColon hsk0
              have hac : afterColon.length + 1 ≤ r0.length := by
                have := skipWs_length r0
                rw [hsk0] at this
                simpa using this
              have hsac := skipWs_length afterColon
              split
              · have hv : run n .value (skipWs afterColon) = run m .value (skipWs afterColon) :=
                  ih _ _ n m (by simp only [need]; omega) (by simp only [need]; omega)
                    (by simp only [need]; omega)
                rw [hv]
                split
                · rfl
                · rename_i v1 r1 hrun
                  have hr1 := rest_shorter hrun
                  split
                  · rfl
                  · rename_i d ds hsk
                    have hds : ds.length + 1 ≤ r1.length := by
                      have := skipWs_length r1
                      rw [hsk] at this
                      simpa using this
                    have hsds := skipWs_length ds
                    split
                    · exact ih _ _ n m (by simp only [need]; omega)
                        (by simp only [need]; omega) (by simp only [need]; omega)
                    · rfl
              · rfl
        · rfl

/-- More fuel than `parse` supplies never changes the result of the parser:
`parse` does not fail for want of fuel. -/
theorem run_fuel_enough (cs : List Char) (n : Nat) (h : 2 * cs.length + 2 ≤ n) :
    run n .value cs = run (2 * cs.length + 2) .value cs :=
  run_fuel _ .value cs _ _ (Nat.le_refl _) (by simp only [need]; omega)
    (by simp only [need]; omega)


theorem skipWs_split (cs : List Char) :
    ∃ ws, cs = ws ++ skipWs cs ∧ ∀ c ∈ ws, isWs c = true := by
  induction cs with
  | nil => exact ⟨[], rfl, by simp⟩
  | cons d ds ih =>
    by_cases hd : isWs d = true
    · obtain ⟨ws, hws, hall⟩ := ih
      refine ⟨d :: ws, ?_, ?_⟩
      · simp only [skipWs, hd, if_true, List.cons_append]
        rw [← hws]
      · intro c hc
        rcases List.mem_cons.1 hc with rfl | hc
        · exact hd
        · exact hall c hc
    · exact ⟨[], by simp [skipWs, hd], by simp⟩

theorem parse_eq_some {t : String} {v : JsVal} (h : parse t = some v) :
    ∃ rest, run (2 * (skipWs t.data).length + 2) .value (skipWs t.data) = some (v, rest) ∧
      skipWs rest = [] := by
  unfold parse at h
  simp only at h
  split at h
  · cases h
  · rename_i w rest hrun
    split at h
    · rename_i hrest
      cases h
      exact ⟨rest, hrun, hrest⟩
    · cases h

theorem parse_congr {t u : String} (h : skipWs t.data = skipWs u.data) : parse t = parse u := by
  unfold parse
  simp only [h]

/-- The first `{` of a text splits it in one way only. -/
theorem brace_split_unique : ∀ (xs ys a b : List Char), '{' ∉ xs → '{' ∉ ys →
    xs ++ '{' :: a = ys ++ '{' :: b → a = b := by
  intro xs
  induction xs with
  | nil =>
    intro ys a b _ hys h
    cases ys with
    | nil => simpa using h
    | cons y ys =>
      simp only [List.nil_append, List.cons_append, List.cons.injEq] at h
      exact absurd (h.1 ▸ List.mem_cons_self _ _) hys
  | cons x xs ih =>
    intro ys a b hxs hys h
    cases ys with
    | nil =>
      simp only [List.nil_append, List.cons_append, List.cons.injEq] at h
      exact absurd (h.1 ▸ List.mem_cons_self _ _) hxs
    | cons y ys =>
      simp only [List.cons_append, List.cons.injEq] at h
      exact ih ys a b (fun hm => hxs (List.mem_cons_of_mem _ hm))
        (fun hm => hys (List.mem_cons_of_mem _ hm)) h.2

theorem not_mem_of_all_ws {ws : List Char} (h : ∀ c ∈ ws, isWs c = true) : '{' ∉ ws := by
  intro hm
  have := h _ hm
  revert this
  decide

/-- A text that ends with `}` and parses is an object text: after leading
whitespace it starts with `{`. -/
theorem parse_closing_brace {t : String} {v : JsVal} (h : parse t = some v)
    (hend : t.data.getLast? = some '}') :
    ∃ body, skipWs t.data = '{' :: body := by
  obtain ⟨rest, hrun, hrest⟩ := parse_eq_some h
  obtain ⟨last, hl, hk⟩ := run_closes _ _ _ _ _ hrun
  rcases hk with ⟨hhead, -⟩ | ⟨hlast, -⟩
  · cases hsk : skipWs t.data with
    | nil => rw [hsk] at hhead; cases hhead
    | cons c body =>
      rw [hsk] at hhead
      simp only [List.head?_cons, Option.some.injEq] at hhead
      exact ⟨body, by rw [hhead]⟩
  · exfalso
    have hsuf : (last :: rest) <:+ t.data := hl.trans (skipWs_suffix _)
    obtain ⟨front, hfront⟩ := hsuf
    rw [← hfront, List.getLast?_append_of_ne_nil _ (List.cons_ne_nil _ _)] at hend
    cases rest with
    | nil =>
      simp only [List.getLast?_singleton, Option.some.injEq] at hend
      exact hlast hend
    | cons r rs =>
      rw [List.getLast?_cons_cons] at hend
      have hmem : '}' ∈ r :: rs := List.mem_of_getLast?_eq_some hend
      have := all_ws_of_skipWs_nil hrest _ hmem
      revert this
      decide

end JSON

theorem regexMatch_skip : ∀ (xs cs : List Char), '{' ∉ xs →
    regexMatch (xs ++ cs) = regexMatch cs := by
  intro xs
  induction xs with
  | nil => intro cs _; rfl
  | cons x xs ih =>
    intro cs hx
    have hne : x ≠ '{' := fun h => hx (h ▸ List.mem_cons_self _ _)
    simp only [List.cons_append, regexMatch, matchHere, hne, false_and, if_false]
    exact ih cs fun hm => hx (List.mem_cons_of_mem _ hm)

theorem regexMatch_brace (body : List Char) (h : body.getLast? = some '}') :
    regexMatch ('{' :: body) = some ('{' :: body) := by
  simp [regexMatch, matchHere, h]

/-! ## The claims -/

/-- C1. For every upstream response text the normalisation ends, without an
exception, in a response whose body is an object with exactly the two fields
`assistant_message` and `plan` (sent with status 200). -/
theorem chatPlanNormalise_shape (t : String) :
    ∃ am plan, chatPlanNormalise t = .ok (resJson (chatPlanBody am plan)) := by
  by_cases ht : t = ""
  · exact ⟨.str noResponseMessage, .null, by simp [chatPlanNormalise, ht]⟩
  · cases hs : strictAttempt t with
    | ok r =>
      rw [normalise_of_strict_ok ht hs]
      cases hp : JSON.parse t with
      | none => rw [strictAttempt_of_none hp] at hs; cases hs
      | some v =>
        cases v with
        | null => rw [strictAttempt_of_null hp] at hs; cases hs
        | str s => rw [strictAttempt_of_str hp] at hs; cases hs; exact ⟨_, _, rfl⟩
        | obj members => rw [strictAttempt_of_obj hp] at hs; cases hs; exact ⟨_, _, rfl⟩
        | bool b =>
          rw [strictAttempt_of_other hp (Or.inl ⟨b, rfl⟩)] at hs; cases hs; exact ⟨_, _, rfl⟩
        | num n =>
          rw [strictAttempt_of_other hp (Or.inr (Or.inl ⟨n, rfl⟩))] at hs
          cases hs; exact ⟨_, _, rfl⟩
        | arr xs =>
          rw [strictAttempt_of_other hp (Or.inr (Or.inr ⟨xs, rfl⟩))] at hs
          cases hs; exact ⟨_, _, rfl⟩
    | error e =>
      rw [normalise_of_strict_error ht hs]
      rcases salvage_total t with h | ⟨am, plan, h⟩
      · rw [h]; exact ⟨_, _, rfl⟩
      · rw [h]; exact ⟨_, _, rfl⟩

/-- C2 as stated fails: for the text `{"plan":null}` the strict parse gives
an object without `assistant_message`, and the field sent is `null`, not a
string. -/
theorem assistant_message_null_example :
    chatPlanNormalise planOnlyText = .ok (resJson (chatPlanBody .null .null)) ∧
    ¬ ∃ s, assistantMessageOf (chatPlanNormalise planOnlyText) = some (.str s) := by
  have h : chatPlanNormalise planOnlyText = .ok (resJson (chatPlanBody .null .null)) := rfl
  refine ⟨h, ?_⟩
  rintro ⟨s, hs⟩
  rw [h] at hs
  simp [assistantMessageOf, resJson, chatPlanBody, lookup] at hs

theorem assistantMessageOf_body (am plan : JsVal) :
    assistantMessageOf (.ok (resJson (chatPlanBody am plan))) = some am := by
  simp [assistantMessageOf, resJson, chatPlanBody, lookup]

/-- C2, amended. The `assistant_message` sent is settled by what the text
parses to.  An empty text gives the fixed apology.  A text that is a JSON
string gives that string.  A text that is any other JSON value but `null`
gives that value's `assistant_message` member unchanged, of whatever type, and
`null` when there is no such member (always so for a number, a boolean or an
array).  A text that is not JSON, or is JSON `null`, gives the
`assistant_message` member of what the match of the regular expression parses
to (`null` without the member), and the raw text, a string, when there is no
match or the match is not JSON or is `null`. -/
theorem assistant_message_characterised (t : String) :
    (t = "" → assistantMessageOf (chatPlanNormalise t) = some (.str noResponseMessage)) ∧
    (t ≠ "" →
      (∀ s, JSON.parse t = some (.str s) →
        assistantMessageOf (chatPlanNormalise t) = some (.str s)) ∧
      (∀ v member, JSON.parse t = some v → (∀ s, v ≠ .str s) →
        v.getProp "assistant_message" = .ok member →
        assistantMessageOf (chatPlanNormalise t) = some (member.getD .null)) ∧
      (JSON.parse t = none ∨ JSON.parse t = some .null →
        (∀ c v member, regexMatch t.data = some c → JSON.parse (String.mk c) = some v →
          v.getProp "assistant_message" = .ok member →
          assistantMessageOf (chatPlanNormalise t) = some (member.getD .null)) ∧
        (regexMatch t.data = none ∨
            (∃ c, regexMatch t.data = some c ∧
              (JSON.parse (String.mk c) = none ∨ JSON.parse (String.mk c) = some .null)) →
          assistantMessageOf (chatPlanNormalise t) = some (.str t)))) := by
  constructor
  · rintro rfl
    rfl
  · intro ht
    refine ⟨?_, ?_, ?_⟩
    · intro s hp
      rw [normalise_of_strict_ok ht (strictAttempt_of_str hp), assistantMessageOf_body]
    · intro v member hp hv hm
      cases v with
      | null => simp [JsVal.getProp] at hm
      | str s => exact absurd rfl (hv s)
      | obj members =>
        simp only [JsVal.getProp, Except.ok.injEq] at hm
        rw [normalise_of_strict_ok ht (strictAttempt_of_obj hp), assistantMessageOf_body, hm]
      | bool b =>
        simp only [JsVal.getProp, Except.ok.injEq] at hm
        rw [normalise_of_strict_ok ht (strictAttempt_of_other hp (Or.inl ⟨b, rfl⟩)),
          assistantMessageOf_body, ← hm]
        rfl
      | num n =>
        simp only [JsVal.getProp, Except.ok.injEq] at hm
        rw [normalise_of_strict_ok ht (strictAttempt_of_other hp (Or.inr (Or.inl ⟨n, rfl⟩))),
          assistantMessageOf_body, ← hm]
        rfl
      | arr xs =>
        simp only [JsVal.getProp, Except.ok.injEq] at hm
        rw [normalise_of_strict_ok ht (strictAttempt_of_other hp (Or.inr (Or.inr ⟨xs, rfl⟩))),
          assistantMessageOf_body, ← hm]
        rfl
    · intro hp
      have hstrict : ∃ e, strictAttempt t = .error e := by
        rcases hp with hp | hp
        · exact ⟨_, strictAttempt_of_none hp⟩
        · exact ⟨_, strictAttempt_of_null hp⟩
      obtain ⟨e, he⟩ := hstrict
      rw [normalise_of_strict_error ht he]
      constructor
      · intro c v member hc hv hm
        cases v with
        | null => simp [JsVal.getProp] at hm
        | obj members =>
          simp only [JsVal.getProp, Except.ok.injEq] at hm
          rw [salvage_of_parse_obj hc hv, assistantMessageOf_body, hm]
        | str s =>
          simp only [JsVal.getProp, Except.ok.injEq] at hm
          rw [salvage_of_parse_other hc hv (Or.inr (Or.inr (Or.inl ⟨s, rfl⟩))),
            assistantMessageOf_body, ← hm]
          rfl
        | bool b =>
          simp only [JsVal.getProp, Except.ok.injEq] at hm
          rw [salvage_of_parse_other hc hv (Or.inl ⟨b, rfl⟩), assistantMessageOf_body, ← hm]
          rfl
        | num n =>
          simp only [JsVal.getProp, Except.ok.injEq] at hm
          rw [salvage_of_parse_other hc hv (Or.inr (Or.inl ⟨n, rfl⟩)), assistantMessageOf_body,
            ← hm]
          rfl
        | arr xs =>
          simp only [JsVal.getProp, Except.ok.injEq] at hm
          rw [salvage_of_parse_other hc hv (Or.inr (Or.inr (Or.inr ⟨xs, rfl⟩))),
            assistantMessageOf_body, ← hm]
          rfl
      · intro hc
        have hnone : tryCatch (salvageAttempt t) (fun _ => .ok none) = .ok none := by
          rcases hc with hc | ⟨c, hc, hv | hv⟩
          · exact salvage_of_no_match hc
          · exact salvage_of_parse_none hc hv
          · exact salvage_of_parse_null hc hv
        rw [hnone]
        exact assistantMessageOf_body _ _

theorem assistant_message_characterised_witness :
    assistantMessageOf (chatPlanNormalise "\"hi\"") = some (.str "hi") ∧
      assistantMessageOf (chatPlanNormalise oddPlanText) = some .null ∧
      assistantMessageOf (chatPlanNormalise "\x7b\"assistant_message\": 5\x7d") =
        some (.num "5") ∧
      assistantMessageOf (chatPlanNormalise "[1]") = some .null ∧
      assistantMessageOf (chatPlanNormalise chattyText) = some (.str "hi") ∧
      assistantMessageOf (chatPlanNormalise proseText) = some (.str proseText) ∧
      assistantMessageOf (chatPlanNormalise "null") = some (.str "null") :=
  ⟨((assistant_message_characterised "\"hi\"").2 (by decide)).1 "hi" rfl,
    ((assistant_message_characterised oddPlanText).2 (by decide)).2.1 _ none rfl
      (fun s h => by cases h) rfl,
    ((assistant_message_characterised "\x7b\"assistant_message\": 5\x7d").2 (by decide)).2.1
      _ (some (.num "5")) rfl (fun s h => by cases h) rfl,
    ((assistant_message_characterised "[1]").2 (by decide)).2.1 _ none rfl
      (fun s h => by cases h) rfl,
    (((assistant_message_characterised chattyText).2 (by decide)).2.2 (Or.inl rfl)).1
      _ _ (some (.str "hi")) rfl rfl rfl,
    (((assistant_message_characterised proseText).2 (by decide)).2.2 (Or.inl rfl)).2
      (Or.inr ⟨_, rfl, Or.inl rfl⟩),
    (((assistant_message_characterised "null").2 (by decide)).2.2 (Or.inr rfl)).2
      (Or.inl rfl)⟩

/-- C3. When the whole text is JSON for an object, the response carries that
object's `assistant_message` and `plan` members unchanged (`null` for an absent
member), whatever the shape of the plan, and no other member. -/
theorem chatPlan_object_passthrough (t : String) (members : List (String × JsVal))
    (h : JSON.parse t = some (.obj members)) :
    chatPlanNormalise t = .ok (resJson (chatPlanBody
      ((lookup "assistant_message" members).getD .null)
      ((lookup "plan" members).getD .null))) :=
  normalise_of_strict_ok (ne_empty_of_parse h) (strictAttempt_of_obj h)

theorem chatPlan_object_passthrough_witness :
    JSON.parse oddPlanText =
        some (.obj [("plan", .obj [("days", .str "three"), ("stops", .arr [.num "1"])]),
          ("note", .bool true)]) ∧
      chatPlanNormalise oddPlanText =
        .ok (resJson (chatPlanBody .null
          (.obj [("days", .str "three"), ("stops", .arr [.num "1"])]))) :=
  ⟨rfl, chatPlan_object_passthrough oddPlanText
    [("plan", .obj [("days", .str "three"), ("stops", .arr [.num "1"])]), ("note", .bool true)]
    rfl⟩

/-- C4. When the whole text is a JSON string literal for `s` (the empty string
included), the response is `{assistant_message: s, plan: null}`. -/
theorem chatPlan_string_wrapped (t s : String) (h : JSON.parse t = some (.str s)) :
    chatPlanNormalise t = .ok (resJson (chatPlanBody (.str s) .null)) :=
  normalise_of_strict_ok (ne_empty_of_parse h) (strictAttempt_of_str h)

theorem chatPlan_string_wrapped_witness :
    JSON.parse "\"\"" = some (.str "") ∧
      chatPlanNormalise "\"\"" = .ok (resJson (chatPlanBody (.str "") .null)) :=
  ⟨rfl, chatPlan_string_wrapped "\"\"" "" rfl⟩

/-- C5 as stated fails. With a `{` in the prose before a well-formed JSON
object the match of the regular expression starts in the prose, does not
parse, and the response is the raw-text fallback, not the fields of the
object.  The same happens when the object is followed by a line break: the
regular expression wants `}` as the last character, so there is no match. -/
theorem trailing_block_lost_example :
    (JSON.parse greetingBlock =
        some (.obj [("assistant_message", .str "hi"), ("plan", .null)]) ∧
      chatPlanNormalise (bracedProse ++ greetingBlock) =
        .ok (resJson (chatPlanBody (.str (bracedProse ++ greetingBlock)) .null)) ∧
      chatPlanNormalise (bracedProse ++ greetingBlock) ≠
        .ok (resJson (chatPlanBody (.str "hi") .null))) ∧
    (JSON.parse (greetingBlock ++ "\n") =
        some (.obj [("assistant_message", .str "hi"), ("plan", .null)]) ∧
      chatPlanNormalise ("Sure! " ++ (greetingBlock ++ "\n")) =
        .ok (resJson (chatPlanBody (.str ("Sure! " ++ (greetingBlock ++ "\n"))) .null))) := by
  have h : chatPlanNormalise (bracedProse ++ greetingBlock) =
      .ok (resJson (chatPlanBody (.str (bracedProse ++ greetingBlock)) .null)) := rfl
  refine ⟨⟨rfl, h, ?_⟩, rfl, rfl⟩
  rw [h]
  intro hne
  have hs := congrArg assistantMessageOf hne
  simp only [assistantMessageOf, resJson, chatPlanBody, lookup, if_true, Option.some.injEq,
    JsVal.str.injEq] at hs
  revert hs
  decide

/-- C5, amended. For a text `pre ++ block` where `block` parses as a JSON
object and ends with `}`, and `pre` holds no `{`, the response carries exactly
the `assistant_message` and `plan` members of that object (`null` for an
absent member), not the raw text. -/
theorem chatPlan_trailing_block (pre block : String) (members : List (String × JsVal))
    (hpre : '{' ∉ pre.data) (hend : block.data.getLast? = some '}')
    (hblock : JSON.parse block = some (.obj members)) :
    chatPlanNormalise (pre ++ block) = .ok (resJson (chatPlanBody
      ((lookup "assistant_message" members).getD .null)
      ((lookup "plan" members).getD .null))) := by
  obtain ⟨body, hbody⟩ := JSON.parse_closing_brace hblock hend
  obtain ⟨ws, hws, hall⟩ := JSON.skipWs_split block.data
  rw [hbody] at hws
  have hdata : (pre ++ block).data = (pre.data ++ ws) ++ '{' :: body := by
    rw [String.data_append, hws, List.append_assoc]
  have hx : '{' ∉ pre.data ++ ws := by
    intro hm
    rcases List.mem_append.1 hm with hm | hm
    · exact hpre hm
    · exact JSON.not_mem_of_all_ws hall hm
  have hlast : body.getLast? = some '}' := by
    rw [hws, List.getLast?_append_of_ne_nil _ (List.cons_ne_nil _ _)] at hend
    cases body with
    | nil =>
      simp only [List.getLast?_singleton, Option.some.injEq] at hend
      revert hend
      decide
    | cons b bs => rwa [List.getLast?_cons_cons] at hend
  have hmatch : regexMatch (pre ++ block).data = some ('{' :: body) := by
    rw [hdata, regexMatch_skip _ _ hx, regexMatch_brace _ hlast]
  have hself : JSON.skipWs ('{' :: body) = '{' :: body :=
    JSON.skipWs_of_not_ws body (by decide)
  have hparse : JSON.parse (String.mk ('{' :: body)) = some (.obj members) := by
    rw [← hblock]
    exact JSON.parse_congr (by rw [hbody]; exact hself)
  have hne : pre ++ block ≠ "" := by
    intro h
    have hd := congrArg String.data h
    rw [hdata] at hd
    simp at hd
  cases hp : JSON.parse (pre ++ block) with
  | none =>
    rw [normalise_of_strict_error hne (strictAttempt_of_none hp),
      salvage_of_parse_obj hmatch hparse]
  | some v =>
    have hwend : (pre ++ block).data.getLast? = some '}' := by
      rw [String.data_append, List.getLast?_append_of_ne_nil _ (by rw [hws]; simp)]
      exact hend
    obtain ⟨body2, hbody2⟩ := JSON.parse_closing_brace hp hwend
    obtain ⟨ws2, hws2, hall2⟩ := JSON.skipWs_split (pre ++ block).data
    rw [hbody2, hdata] at hws2
    have hsame : body = body2 :=
      JSON.brace_split_unique _ _ _ _ hx (JSON.not_mem_of_all_ws hall2) hws2
    subst hsame
    have hwhole : JSON.parse (pre ++ block) = some (.obj members) := by
      rw [← hblock]
      exact JSON.parse_congr (by rw [hbody2, hbody])
    exact normalise_of_strict_ok hne (strictAttempt_of_obj hwhole)

theorem chatPlan_trailing_block_witness :
    chatPlanNormalise ("Sure! " ++ greetingBlock) =
      .ok (resJson (chatPlanBody (.str "hi") .null)) :=
  chatPlan_trailing_block "Sure! " greetingBlock
    [("assistant_message", .str "hi"), ("plan", .null)] (by decide) rfl rfl

/-- C6. A non-empty text that is not JSON, and for which the regular
expression has no match or a match that is not JSON, comes back whole as the
`assistant_message`, with `plan` null and without an exception. -/
theorem chatPlan_raw_text_fallback (t : String) (ht : t ≠ "") (hp : JSON.parse t = none)
    (hs : regexMatch t.data = none ∨
      ∃ c, regexMatch t.data = some c ∧ JSON.parse (String.mk c) = none) :
    chatPlanNormalise t = .ok (resJson (chatPlanBody (.str t) .null)) := by
  rw [normalise_of_strict_error ht (strictAttempt_of_none hp)]
  rcases hs with h | ⟨c, h, hc⟩
  · rw [salvage_of_no_match h]; rfl
  · rw [salvage_of_parse_none h hc]; rfl

theorem chatPlan_raw_text_fallback_witness :
    chatPlanNormalise proseText = .ok (resJson (chatPlanBody (.str proseText) .null)) :=
  chatPlan_raw_text_fallback proseText (by decide) rfl
    (Or.inr ⟨"\x7bmaybe later\x7d".data, rfl, rfl⟩)

/-- C7. When the optional chain for the text yields `undefined` (some level
of `candidates`, `[0]`, `content`, `parts`, `[0]`, `text` is missing or null),
or `null`, or the empty string, the response is the fixed message with `plan`
null, whatever else the payload holds. -/
theorem chatPlan_no_text (data : JsVal)
    (h : extractText data = .ok none ∨ extractText data = .ok (some .null) ∨
      extractText data = .ok (some (.str ""))) :
    chatPlanHandler (.ok data) =
      some (resJson (chatPlanBody (.str "Sorry — I didn\x27t get a response from the AI.")
        .null)) := by
  rcases h with h | h | h
  · simp [chatPlanHandler, h, noResponseMessage]
  · simp [chatPlanHandler, h, noResponseMessage]
  · simp [chatPlanHandler, h, chatPlanNormalise, noResponseMessage]

theorem chatPlan_no_text_witness :
    chatPlanHandler (.ok blockedReply) =
        some (resJson (chatPlanBody (.str "Sorry — I didn\x27t get a response from the AI.")
          .null)) ∧
      chatPlanHandler (.ok (.obj [("error", .str "quota")])) =
        some (resJson (chatPlanBody (.str "Sorry — I didn\x27t get a response from the AI.")
          .null)) ∧
      chatPlanHandler (.ok (replyWithText "")) =
        some (resJson (chatPlanBody (.str "Sorry — I didn\x27t get a response from the AI.")
          .null)) :=
  ⟨chatPlan_no_text blockedReply (Or.inl rfl),
    chatPlan_no_text (.obj [("error", .str "quota")]) (Or.inl rfl),
    chatPlan_no_text (replyWithText "") (Or.inr (Or.inr rfl))⟩

/-- C8 as stated fails: when the upstream call is rejected the response has
status 500, not 200. -/
theorem chatPlan_failure_status_example :
    chatPlanHandler (.error .rateLimit) =
        some (resStatusJson 500 (chatPlanBody (.str "Sorry, I encountered an error.") .null)) ∧
      ¬ ∃ r, chatPlanHandler (.error .rateLimit) = some r ∧ r.status = 200 := by
  refine ⟨rfl, ?_⟩
  rintro ⟨r, hr, hs⟩
  simp [chatPlanHandler, chatPlanFailure, resStatusJson] at hr
  subst hr
  simp at hs

/-- C8, amended. When the upstream call is rejected, for whatever reason, the
response has status 500 and the fixed body
`{assistant_message: "Sorry, I encountered an error.", plan: null}`. -/
theorem chatPlan_failure_response (e : JsError) :
    chatPlanHandler (.error e) =
      some (resStatusJson 500 (chatPlanBody (.str "Sorry, I encountered an error.") .null)) :=
  rfl

/-- C9. A plan that is not null in the response is the `plan` member of the
object that the whole text, or the match of the regular expression in it,
parses to. -/
theorem chatPlan_plan_from_model (t : String) (plan : JsVal)
    (h : planOf (chatPlanNormalise t) = some plan) (hplan : plan ≠ .null) :
    (∃ members, JSON.parse t = some (.obj members) ∧ lookup "plan" members = some plan) ∨
    ∃ c members, regexMatch t.data = some c ∧
      JSON.parse (String.mk c) = some (.obj members) ∧ lookup "plan" members = some plan := by
  have field : ∀ am p, planOf (.ok (resJson (chatPlanBody am p))) = some p := by
    intro am p
    simp [planOf, resJson, chatPlanBody, lookup]
  have member : ∀ members : List (String × JsVal),
      (lookup "plan" members).getD .null = plan → lookup "plan" members = some plan := by
    intro members hm
    cases hl : lookup "plan" members with
    | none => rw [hl] at hm; exact absurd hm.symm hplan
    | some p => rw [hl] at hm; simpa using hm
  by_cases ht : t = ""
  · subst ht
    have h0 : chatPlanNormalise "" =
        .ok (resJson (chatPlanBody (.str noResponseMessage) .null)) := rfl
    rw [h0, field] at h
    exact absurd (Option.some.inj h).symm hplan
  · have fallback : ∀ e, strictAttempt t = .error e →
        ∃ c members, regexMatch t.data = some c ∧
          JSON.parse (String.mk c) = some (.obj members) ∧
          lookup "plan" members = some plan := by
      intro e hs
      rw [normalise_of_strict_error ht hs] at h
      cases hm : regexMatch t.data with
      | none =>
        rw [salvage_of_no_match hm] at h
        exact absurd (Option.some.inj ((field _ _).symm.trans h)).symm hplan
      | some c =>
        cases hp : JSON.parse (String.mk c) with
        | none =>
          rw [salvage_of_parse_none hm hp] at h
          exact absurd (Option.some.inj ((field _ _).symm.trans h)).symm hplan
        | some v =>
          cases v with
          | null =>
            rw [salvage_of_parse_null hm hp] at h
            exact absurd (Option.some.inj ((field _ _).symm.trans h)).symm hplan
          | obj members =>
            rw [salvage_of_parse_obj hm hp] at h
            exact ⟨c, members, rfl, hp,
              member members (Option.some.inj ((field _ _).symm.trans h))⟩
          | bool b =>
            rw [salvage_of_parse_other hm hp (Or.inl ⟨b, rfl⟩)] at h
            exact absurd (Option.some.inj ((field _ _).symm.trans h)).symm hplan
          | num n =>
            rw [salvage_of_parse_other hm hp (Or.inr (Or.inl ⟨n, rfl⟩))] at h
            exact absurd (Option.some.inj ((field _ _).symm.trans h)).symm hplan
          | str s =>
            rw [salvage_of_parse_other hm hp (Or.inr (Or.inr (Or.inl ⟨s, rfl⟩)))] at h
            exact absurd (Option.some.inj ((field _ _).symm.trans h)).symm hplan
          | arr xs =>
            rw [salvage_of_parse_other hm hp (Or.inr (Or.inr (Or.inr ⟨xs, rfl⟩)))] at h
            exact absurd (Option.some.inj ((field _ _).symm.trans h)).symm hplan
    cases hp : JSON.parse t with
    | none => exact Or.inr (fallback _ (strictAttempt_of_none hp))
    | some v =>
      cases v with
      | null => exact Or.inr (fallback _ (strictAttempt_of_null hp))
      | str s =>
        rw [normalise_of_strict_ok ht (strictAttempt_of_str hp)] at h
        exact absurd (Option.some.inj ((field _ _).symm.trans h)).symm hplan
      | obj members =>
        rw [normalise_of_strict_ok ht (strictAttempt_of_obj hp)] at h
        exact Or.inl ⟨members, rfl,
          member members (Option.some.inj ((field _ _).symm.trans h))⟩
      | bool b =>
        rw [normalise_of_strict_ok ht (strictAttempt_of_other hp (Or.inl ⟨b, rfl⟩))] at h
        exact absurd (Option.some.inj ((field _ _).symm.trans h)).symm hplan
      | num n =>
        rw [normalise_of_strict_ok ht
          (strictAttempt_of_other hp (Or.inr (Or.inl ⟨n, rfl⟩)))] at h
        exact absurd (Option.some.inj ((field _ _).symm.trans h)).symm hplan
      | arr xs =>
        rw [normalise_of_strict_ok ht
          (strictAttempt_of_other hp (Or.inr (Or.inr ⟨xs, rfl⟩)))] at h
        exact absurd (Option.some.inj ((field _ _).symm.trans h)).symm hplan

theorem chatPlan_plan_from_model_witness :
    (∃ members, JSON.parse oddPlanText = some (.obj members) ∧
        lookup "plan" members =
          some (.obj [("days", .str "three"), ("stops", .arr [.num "1"])])) ∨
      ∃ c members, regexMatch oddPlanText.data = some c ∧
        JSON.parse (String.mk c) = some (.obj members) ∧
        lookup "plan" members =
          some (.obj [("days", .str "three"), ("stops", .arr [.num "1"])]) :=
  chatPlan_plan_from_model oddPlanText
    (.obj [("days", .str "three"), ("stops", .arr [.num "1"])]) rfl (fun h => nomatch h)

/-- C10. In the two strict handlers a text that is not JSON gives status 500
with the handler's fixed error body (no salvage, no raw-text fallback), and a
text that is JSON gives the parsed value itself, with status 200. -/
theorem strict_endpoints_parse_or_fail (data : JsVal) (t : String)
    (h : strictText data = .ok (some (.str t))) :
    generateTripHandler (.ok data) =
        (match JSON.parse t with
         | some parsed => some (resJson parsed)
         | none => some (resStatusJson 500 (errorBody "Failed to generate trip"))) ∧
      generatePackingListHandler (.ok data) =
        (match JSON.parse t with
         | some parsed => some (resJson parsed)
         | none => some (resStatusJson 500 (errorBody "Failed to generate packing list"))) := by
  constructor <;>
  · simp only [generateTripHandler, generatePackingListHandler, strictEndpoint, h, jsonParse]
    cases JSON.parse t <;> rfl

theorem strict_endpoints_parse_or_fail_witness :
    (generateTripHandler (.ok (replyWithText chattyText)) =
        some (resStatusJson 500 (errorBody "Failed to generate trip")) ∧
      generatePackingListHandler (.ok (replyWithText chattyText)) =
        some (resStatusJson 500 (errorBody "Failed to generate packing list"))) ∧
    (generateTripHandler (.ok (replyWithText planOnlyText)) =
        some (resJson (.obj [("plan", .null)])) ∧
      generatePackingListHandler (.ok (replyWithText planOnlyText)) =
        some (resJson (.obj [("plan", .null)]))) :=
  ⟨strict_endpoints_parse_or_fail (replyWithText chattyText) chattyText rfl,
    strict_endpoints_parse_or_fail (replyWithText planOnlyText) planOnlyText rfl⟩

/-! ## The hotel routes -/

theorem supplied_eq_false_iff (parameter : Option QueryValue) :
    supplied parameter = false ↔ parameter = none ∨ parameter = some (.text "") := by
  cases parameter with
  | none => simp [supplied]
  | some v => cases v <;> simp [supplied]

theorem supplied_textQuery (parameter : Option String) :
    supplied (textQuery parameter) = true ↔ ∃ s, parameter = some s ∧ s ≠ "" := by
  cases parameter with
  | none => simp [supplied, textQuery]
  | some s => simp [supplied, textQuery]

theorem text_or_structured (parameter : Option QueryValue) :
    (∃ p, parameter = textQuery p) ∨ ∃ v, parameter = some v ∧ ∀ s, v ≠ .text s := by
  cases parameter with
  | none => exact Or.inl ⟨none, rfl⟩
  | some v =>
    cases v with
    | text s => exact Or.inl ⟨some s, rfl⟩
    | list items => exact Or.inr ⟨_, rfl, fun s h => by cases h⟩
    | dict members => exact Or.inr ⟨_, rfl, fun s h => by cases h⟩

theorem supplied_of_structured {v : QueryValue} (hv : ∀ s, v ≠ .text s) :
    supplied (some v) = true := by
  cases v with
  | text s => exact absurd rfl (hv s)
  | list items => rfl
  | dict members => rfl

theorem lowerQuery_of_structured {v : QueryValue} (hv : ∀ s, v ≠ .text s) :
    lowerQuery v = .error .typeError := by
  cases v with
  | text s => exact absurd rfl (hv s)
  | list items => rfl
  | dict members => rfl

theorem includesChars_iff (s sub : List Char) : includesChars s sub = true ↔ sub <:+: s := by
  induction s with
  | nil => simp [includesChars, List.infix_nil]
  | cons c cs ih =>
    rw [includesChars, Bool.or_eq_true, List.isPrefixOf_iff_prefix, ih, List.infix_cons_iff]

theorem lowerChar_ne_nil (c : Char) : lowerChar c ≠ [] := by
  unfold lowerChar
  split <;> simp

theorem toLowerCase_eq_empty (q : String) : toLowerCase q = "" ↔ q = "" := by
  constructor
  · intro h
    have hd : lowerFrom [] q.data = [] := congrArg String.data h
    cases hq : q.data with
    | nil => exact String.ext hq
    | cons c cs =>
      rw [hq, lowerFrom] at hd
      have hnil := (List.append_eq_nil.1 hd).1
      split at hnil
      · simp at hnil
      · exact absurd hnil (lowerChar_ne_nil c)
  · rintro rfl
    rfl

theorem includes_empty_left {q : String} (hq : q ≠ "") : includes "" q = false := by
  have : q.data ≠ [] := fun h => hq (String.ext h)
  cases hd : q.data with
  | nil => exact absurd hd this
  | cons c cs => simp [includes, includesChars, hd]

theorem fieldMatches_text (field : Option String) {q : String} (hq : q ≠ "") :
    fieldMatches field (.text q) = .ok (containsQuery field (some q)) := by
  cases field with
  | none => simp [fieldMatches, containsQuery, hq]
  | some f =>
    by_cases hf : f = ""
    · subst hf
      have hl : toLowerCase q ≠ "" := fun h => hq ((toLowerCase_eq_empty q).1 h)
      have : toLowerCase "" = "" := rfl
      simp [fieldMatches, containsQuery, hq, this, includes_empty_left hl]
    · simp [fieldMatches, containsQuery, hq, hf, lowerQuery]

theorem filterRows_text (field : Hotel → Option String) {q : String} (hq : q ≠ "") :
    ∀ rows : List Hotel, filterRows field (.text q) rows =
      .ok (rows.filter fun r => containsQuery (field r) (some q)) := by
  intro rows
  induction rows with
  | nil => rfl
  | cons r rest ih =>
    rw [filterRows, fieldMatches_text _ hq, ih]
    cases hk : containsQuery (field r) (some q) <;> simp [List.filter, hk]

theorem filterIfSupplied_text (field : Hotel → Option String) (parameter : Option String)
    (rows : List Hotel) :
    filterIfSupplied field (textQuery parameter) rows =
      .ok (rows.filter fun r => containsQuery (field r) parameter) := by
  cases parameter with
  | none => simp [filterIfSupplied, textQuery, containsQuery]
  | some q =>
    by_cases hq : q = ""
    · subst hq
      simp [filterIfSupplied, textQuery, supplied, containsQuery]
    · simp [filterIfSupplied, textQuery, supplied, hq, filterRows_text field hq]

/-- For text parameters the two `filter` passes keep the rows that pass both
tests, and nothing throws. -/
theorem filtered_text (hotelsData : List Hotel) (city area : Option String) :
    filtered hotelsData (textQuery city) (textQuery area) =
      .ok (hotelsData.filter fun r => containsQuery r.city city && containsQuery r.area area) := by
  unfold filtered
  rw [filterIfSupplied_text]
  simp only [filterIfSupplied_text, List.filter_filter]
  congr 1
  apply List.filter_congr
  intro r _
  exact Bool.and_comm _ _

theorem filterRows_throws (field : Hotel → Option String) {v : QueryValue}
    (hv : ∀ s, v ≠ .text s) : ∀ rows : List Hotel,
    (∃ r ∈ rows, ∃ f, field r = some f ∧ f ≠ "") →
    filterRows field v rows = .error .typeError := by
  intro rows
  induction rows with
  | nil => rintro ⟨r, hr, -⟩; cases hr
  | cons x rest ih =>
    rintro ⟨r, hr, f, hf, hne⟩
    rw [filterRows]
    cases hx : field x with
    | none =>
      have hrest : ∃ r ∈ rest, ∃ f, field r = some f ∧ f ≠ "" := by
        rcases List.mem_cons.1 hr with rfl | hr
        · rw [hx] at hf; cases hf
        · exact ⟨r, hr, f, hf, hne⟩
      simp [fieldMatches, ih hrest]
    | some g =>
      by_cases hg : g = ""
      · have hrest : ∃ r ∈ rest, ∃ f, field r = some f ∧ f ≠ "" := by
          rcases List.mem_cons.1 hr with rfl | hr
          · rw [hx] at hf
            cases hf
            exact absurd hg hne
          · exact ⟨r, hr, f, hf, hne⟩
        simp [fieldMatches, hg, ih hrest]
      · simp [fieldMatches, hg, lowerQuery_of_structured hv]

theorem filterRows_no_field (field : Hotel → Option String) (v : QueryValue) :
    ∀ rows : List Hotel, (∀ r ∈ rows, field r = none ∨ field r = some "") →
    filterRows field v rows = .ok [] := by
  intro rows
  induction rows with
  | nil => intro _; rfl
  | cons x rest ih =>
    intro h
    rw [filterRows, ih fun r hr => h r (List.mem_cons_of_mem _ hr)]
    rcases h x (List.mem_cons_self _ _) with hx | hx <;> simp [fieldMatches, hx]

theorem filterIfSupplied_nil (field : Hotel → Option String) (p : Option QueryValue) :
    filterIfSupplied field p [] = .ok [] := by
  cases p with
  | none => rfl
  | some q =>
    simp only [filterIfSupplied]
    split <;> rfl

theorem filterIfSupplied_structured (field : Hotel → Option String) {v : QueryValue}
    (hv : ∀ s, v ≠ .text s) (rows : List Hotel) :
    filterIfSupplied field (some v) rows = filterRows field v rows := by
  simp only [filterIfSupplied, supplied_of_structured hv, if_true]

theorem searchHotels_of_filtered {hotelsData : List Hotel} {city area : Option QueryValue}
    (h : supplied city = true ∨ supplied area = true) :
    searchHotels hotelsData city area =
      match filtered hotelsData city area with
      | .ok rows => resJson (.obj [("data", .arr ((rows.take 20).map project))])
      | .error _ => resStatusJson 500 (errorBody "Failed to search hotels") := by
  unfold searchHotels
  rcases h with h | h <;> simp [h]

theorem searchHotels_of_supplied {hotelsData : List Hotel} {city area : Option String}
    (h : supplied (textQuery city) = true ∨ supplied (textQuery area) = true) :
    searchHotels hotelsData (textQuery city) (textQuery area) =
      resJson (.obj [("data", .arr (((hotelsData.filter fun r =>
        containsQuery r.city city && containsQuery r.area area).take 20).map project))]) := by
  unfold searchHotels
  rw [filtered_text]
  rcases h with h | h <;> simp [h]

theorem searchHotels_of_not_supplied {hotelsData : List Hotel} {city area : Option QueryValue}
    (hc : supplied city = false) (ha : supplied area = false) :
    searchHotels hotelsData city area =
      resStatusJson 400 (errorBody "City or area is required") := by
  simp [searchHotels, hc, ha]

theorem searchHotels_cases (hotelsData : List Hotel) (city area : Option QueryValue) :
    searchHotels hotelsData city area =
        resStatusJson 400 (errorBody "City or area is required") ∨
      (∃ rows, searchHotels hotelsData city area = resJson (.obj [("data", .arr rows)])) ∨
      searchHotels hotelsData city area =
        resStatusJson 500 (errorBody "Failed to search hotels") := by
  unfold searchHotels
  split
  · exact Or.inl rfl
  · split
    · exact Or.inr (Or.inl ⟨_, rfl⟩)
    · exact Or.inr (Or.inr rfl)

/-- C11 as stated fails: with a city and a repeated `area` key
(`?city=Mumbai&area=a&area=b`) the area is an array, the call
`area.toLowerCase()` throws at the first row kept by the city filter, and the
answer is status 500, not a `data` body. -/
theorem search_repeated_area_example :
    searchHotels sampleTable (some (.text "Mumbai")) (some (.list [.text "a", .text "b"])) =
        resStatusJson 500 (errorBody "Failed to search hotels") ∧
      (searchHotels sampleTable (some (.text "Mumbai"))
        (some (.list [.text "a", .text "b"]))).status = 500 :=
  ⟨rfl, rfl⟩

/-- C11, amended. The search answers 400 with `{error: "City or area is
required"}` exactly when each of the two parameters is absent or the empty
text.  When both are absent or text and one is non-empty text, it answers with
a `{data: [...]}` body, whatever the table holds.  A parameter that is an
array or an object counts as supplied: for such a city the answer is 500 with
`{error: "Failed to search hotels"}` exactly when some row of the table has a
non-empty city, and for such an area (the city absent or text) exactly when
some row kept by the city filter has a non-empty area; otherwise the body is
`{data: []}`.  There is no other response. -/
theorem searchHotels_bad_request_iff (hotelsData : List Hotel)
    (city area : Option QueryValue) :
    (searchHotels hotelsData city area =
        resStatusJson 400 (errorBody "City or area is required") ↔
      (city = none ∨ city = some (.text "")) ∧ (area = none ∨ area = some (.text ""))) ∧
    (∀ c a : Option String, city = textQuery c → area = textQuery a →
      (∃ s, c = some s ∧ s ≠ "") ∨ (∃ s, a = some s ∧ s ≠ "") →
      ∃ rows, searchHotels hotelsData city area = resJson (.obj [("data", .arr rows)])) ∧
    (∀ v, city = some v → (∀ s, v ≠ .text s) →
      ((∃ r ∈ hotelsData, ∃ f, r.city = some f ∧ f ≠ "") →
        searchHotels hotelsData city area =
          resStatusJson 500 (errorBody "Failed to search hotels")) ∧
      ((∀ r ∈ hotelsData, r.city = none ∨ r.city = some "") →
        searchHotels hotelsData city area = resJson (.obj [("data", .arr [])]))) ∧
    (∀ c v, city = textQuery c → area = some v → (∀ s, v ≠ .text s) →
      ((∃ r ∈ hotelsData.filter (fun r => containsQuery r.city c), ∃ f, r.area = some f ∧ f ≠ "") →
        searchHotels hotelsData city area =
          resStatusJson 500 (errorBody "Failed to search hotels")) ∧
      ((∀ r ∈ hotelsData.filter (fun r => containsQuery r.city c),
          r.area = none ∨ r.area = some "") →
        searchHotels hotelsData city area = resJson (.obj [("data", .arr [])]))) ∧
    (searchHotels hotelsData city area =
        resStatusJson 400 (errorBody "City or area is required") ∨
      (∃ rows, searchHotels hotelsData city area = resJson (.obj [("data", .arr rows)])) ∨
      searchHotels hotelsData city area =
        resStatusJson 500 (errorBody "Failed to search hotels")) := by
  refine ⟨⟨?_, ?_⟩, ?_, ?_, ?_, searchHotels_cases _ _ _⟩
  · intro h
    by_cases hs : supplied city = true ∨ supplied area = true
    · exfalso
      have hstatus := congrArg Response.status h
      unfold searchHotels at hstatus
      have hcond : (!supplied city && !supplied area) = false := by
        rcases hs with hs | hs <;> simp [hs]
      rw [hcond] at hstatus
      simp only [Bool.false_eq_true, if_false] at hstatus
      split at hstatus <;> simp [resJson, resStatusJson] at hstatus
    · simp only [not_or, Bool.not_eq_true] at hs
      exact ⟨(supplied_eq_false_iff _).1 hs.1, (supplied_eq_false_iff _).1 hs.2⟩
  · rintro ⟨hc, ha⟩
    exact searchHotels_of_not_supplied ((supplied_eq_false_iff _).2 hc)
      ((supplied_eq_false_iff _).2 ha)
  · rintro c a rfl rfl h
    refine ⟨_, searchHotels_of_supplied ?_⟩
    rcases h with h | h
    · exact Or.inl ((supplied_textQuery _).2 h)
    · exact Or.inr ((supplied_textQuery _).2 h)
  · rintro v rfl hv
    have hs := supplied_of_structured hv
    constructor
    · intro hrow
      have hf : filtered hotelsData (some v) area = .error .typeError := by
        unfold filtered
        rw [filterIfSupplied_structured _ hv, filterRows_throws _ hv _ hrow]
      rw [searchHotels_of_filtered (Or.inl hs), hf]
    · intro hrow
      have hf : filtered hotelsData (some v) area = .ok [] := by
        unfold filtered
        rw [filterIfSupplied_structured _ hv, filterRows_no_field _ _ _ hrow]
        exact filterIfSupplied_nil _ _
      rw [searchHotels_of_filtered (Or.inl hs), hf]
      rfl
  · rintro c v rfl rfl hv
    have hs := supplied_of_structured hv
    constructor
    · intro hrow
      have hf : filtered hotelsData (textQuery c) (some v) = .error .typeError := by
        unfold filtered
        rw [filterIfSupplied_text]
        show filterIfSupplied (fun h => h.area) (some v) _ = _
        rw [filterIfSupplied_structured _ hv]
        exact filterRows_throws _ hv _ hrow
      rw [searchHotels_of_filtered (Or.inr hs), hf]
    · intro hrow
      have hf : filtered hotelsData (textQuery c) (some v) = .ok [] := by
        unfold filtered
        rw [filterIfSupplied_text]
        show filterIfSupplied (fun h => h.area) (some v) _ = _
        rw [filterIfSupplied_structured _ hv]
        exact filterRows_no_field _ _ _ hrow
      rw [searchHotels_of_filtered (Or.inr hs), hf]
      rfl

theorem searchHotels_bad_request_iff_witness :
    searchHotels sampleTable (some (.text "")) none =
        resStatusJson 400 (errorBody "City or area is required") ∧
      (∃ rows, searchHotels sampleTable none (some (.text "Vashi")) =
        resJson (.obj [("data", .arr rows)])) ∧
      searchHotels sampleTable (some (.dict [("a", .text "1")])) none =
        resStatusJson 500 (errorBody "Failed to search hotels") ∧
      searchHotels [] (some (.list [])) none = resJson (.obj [("data", .arr [])]) :=
  ⟨(searchHotels_bad_request_iff sampleTable (some (.text "")) none).1.2
      ⟨Or.inr rfl, Or.inl rfl⟩,
    (searchHotels_bad_request_iff sampleTable none (some (.text "Vashi"))).2.1 none
      (some "Vashi") rfl rfl (Or.inr ⟨"Vashi", rfl, by decide⟩),
    ((searchHotels_bad_request_iff sampleTable (some (.dict [("a", .text "1")])) none).2.2.1
      _ rfl (fun s h => by cases h)).1
      ⟨sampleHotel "h1" "Sea View" "Mumbai" "Colaba" (some "4.5") (some "120"),
        List.mem_cons_self _ _, "Mumbai", rfl, by decide⟩,
    ((searchHotels_bad_request_iff [] (some (.list [])) none).2.2.1
      _ rfl (fun s h => by cases h)).2 (fun r hr => by cases hr)⟩

theorem containsQuery_congr (field : Option String) {p q : Option String}
    (h : p.map toLowerCase = q.map toLowerCase) : containsQuery field p = containsQuery field q := by
  cases p with
  | none =>
    cases q with
    | none => rfl
    | some b => simp at h
  | some a =>
    cases q with
    | none => simp at h
    | some b =>
      simp only [Option.map_some', Option.some.injEq] at h
      have hab : a = "" ↔ b = "" := by
        rw [← toLowerCase_eq_empty a, ← toLowerCase_eq_empty b, h]
      by_cases ha : a = ""
      · have hb := hab.1 ha
        simp [containsQuery, ha, hb]
      · have hb : b ≠ "" := fun hb => ha (hab.2 hb)
        simp [containsQuery, ha, hb, h]

theorem supplied_congr {p q : Option String} (h : p.map toLowerCase = q.map toLowerCase) :
    supplied (textQuery p) = supplied (textQuery q) := by
  cases p with
  | none =>
    cases q with
    | none => rfl
    | some b => simp at h
  | some a =>
    cases q with
    | none => simp at h
    | some b =>
      simp only [Option.map_some', Option.some.injEq] at h
      have hab : a = "" ↔ b = "" := by
        rw [← toLowerCase_eq_empty a, ← toLowerCase_eq_empty b, h]
      simp [supplied, textQuery, hab]

/-- C12 as stated fails: a repeated `city` key
(`?city=mumbai&city=pune`) is a supplied, non-empty parameter, and the answer
is status 500 instead of the matching rows.  And a change of letter case can
change the result: the city `Straße` is found with `straße`, but not with
`STRASSE`, which is `straße` in upper case and `strasse` in lower case. -/
theorem search_repeated_city_example :
    supplied (some (.list [.text "mumbai", .text "pune"])) = true ∧
      searchHotels sampleTable (some (.list [.text "mumbai", .text "pune"])) none =
        resStatusJson 500 (errorBody "Failed to search hotels") ∧
      searchHotels [sampleHotel "s1" "Gasthof" "Straße" "Mitte" none none]
          (some (.text "straße")) none =
        resJson (.obj [("data",
          .arr [project (sampleHotel "s1" "Gasthof" "Straße" "Mitte" none none)])]) ∧
      searchHotels [sampleHotel "s1" "Gasthof" "Straße" "Mitte" none none]
          (some (.text "STRASSE")) none =
        resJson (.obj [("data", .arr [])]) :=
  ⟨rfl, rfl, rfl, rfl⟩

/-- C12, amended. With a city or an area supplied, each of them absent or
text, the rows of the result are the first 20 rows of the table whose field,
for each supplied parameter, is present and in lower case contains the
parameter in lower case (`includes` is the substring test, `toLowerCase` the
case conversion of Unicode); so two such queries that agree in lower case have
the same result. -/
theorem search_rows_characterised (hotelsData : List Hotel) (city area : Option String)
    (h : supplied (textQuery city) = true ∨ supplied (textQuery area) = true) :
    searchHotels hotelsData (textQuery city) (textQuery area) =
        resJson (.obj [("data", .arr (((hotelsData.filter fun r =>
          containsQuery r.city city && containsQuery r.area area).take 20).map project))]) ∧
      (∀ s sub : String, includes s sub = true ↔ sub.data <:+: s.data) ∧
      ∀ city2 area2 : Option String, city2.map toLowerCase = city.map toLowerCase →
        area2.map toLowerCase = area.map toLowerCase →
        searchHotels hotelsData (textQuery city2) (textQuery area2) =
          searchHotels hotelsData (textQuery city) (textQuery area) := by
  refine ⟨searchHotels_of_supplied h, fun s sub => includesChars_iff _ _, ?_⟩
  intro city2 area2 hc ha
  have h2 : supplied (textQuery city2) = true ∨ supplied (textQuery area2) = true := by
    rw [supplied_congr hc, supplied_congr ha]
    exact h
  rw [searchHotels_of_supplied h, searchHotels_of_supplied h2]
  have : (fun r : Hotel => containsQuery r.city city2 && containsQuery r.area area2) =
      fun r : Hotel => containsQuery r.city city && containsQuery r.area area := by
    funext r
    rw [containsQuery_congr r.city hc, containsQuery_congr r.area ha]
  rw [this]

theorem search_rows_characterised_witness :
    searchHotels sampleTable (textQuery (some "mumbai")) (textQuery none) =
        resJson (.obj [("data", .arr (((sampleTable.filter fun r =>
          containsQuery r.city (some "mumbai") && containsQuery r.area none).take 20).map
            project))]) ∧
      searchHotels sampleTable (textQuery (some "Mumbai")) (textQuery none) =
        searchHotels sampleTable (textQuery (some "mumbai")) (textQuery none) ∧
      searchHotels sampleTable (textQuery (some "MUMBAI")) (textQuery none) =
        searchHotels sampleTable (textQuery (some "mumbai")) (textQuery none) ∧
      searchHotels [sampleHotel "m1" "Hofgarten" "MÜNCHEN" "Altstadt" none none]
          (textQuery (some "Münch")) (textQuery none) =
        searchHotels [sampleHotel "m1" "Hofgarten" "MÜNCHEN" "Altstadt" none none]
          (textQuery (some "münch")) (textQuery none) :=
  ⟨(search_rows_characterised sampleTable (some "mumbai") none (Or.inl rfl)).1,
    (search_rows_characterised sampleTable (some "mumbai") none (Or.inl rfl)).2.2
      (some "Mumbai") none rfl rfl,
    (search_rows_characterised sampleTable (some "mumbai") none (Or.inl rfl)).2.2
      (some "MUMBAI") none rfl rfl,
    (search_rows_characterised [sampleHotel "m1" "Hofgarten" "MÜNCHEN" "Altstadt" none none]
      (some "münch") none (Or.inl rfl)).2.2 (some "Münch") none rfl rfl⟩

/-- C13. The result holds `min 20 n` rows, where `n` is the number of matching
rows: the first 20 of the matching rows, in the order of the table, each
projected. -/
theorem search_truncated_in_order (hotelsData : List Hotel) (city area : Option String)
    (h : supplied (textQuery city) = true ∨ supplied (textQuery area) = true) :
    ∃ rows matching : List Hotel,
      searchHotels hotelsData (textQuery city) (textQuery area) =
        resJson (.obj [("data", .arr (rows.map project))]) ∧
      filtered hotelsData (textQuery city) (textQuery area) = .ok matching ∧
      rows = matching.take 20 ∧
      rows.length = min 20 matching.length ∧
      rows <+: matching ∧
      matching.Sublist hotelsData := by
  exact ⟨_, _, searchHotels_of_supplied h, filtered_text _ _ _, rfl, List.length_take _ _,
    List.take_prefix _ _, List.filter_sublist _⟩

theorem search_truncated_in_order_witness :
    ∃ rows matching : List Hotel,
      searchHotels sampleTable (textQuery (some "mumbai")) (textQuery none) =
        resJson (.obj [("data", .arr (rows.map project))]) ∧
      filtered sampleTable (textQuery (some "mumbai")) (textQuery none) = .ok matching ∧
      rows = matching.take 20 ∧
      rows.length = min 20 matching.length ∧
      rows <+: matching ∧
      matching.Sublist sampleTable :=
  search_truncated_in_order sampleTable (some "mumbai") none (Or.inl rfl)

/-- C14 as stated fails: the rating text `0` parses as the number zero,
and `parseFloat(...) || null` turns it into `null`. -/
theorem rating_of_zero_text_is_null :
    parseFloat "0" = .finite false 0 0 ∧
      rating (sampleHotel "h2" "Hill Stay" "Pune" "Kothrud" (some "0") (some "0")) = .null ∧
      (project (sampleHotel "h2" "Hill Stay" "Pune" "Kothrud" (some "0") (some "0"))).field
        "rating" = some .null :=
  ⟨rfl, rfl, rfl⟩

theorem field_objectLiteral_cons (name key : String) (v : Option JsVal)
    (rest : List (String × Option JsVal)) :
    (objectLiteral ((key, v) :: rest)).field name =
      if key = name then
        (match v with
         | some x => some x
         | none => (objectLiteral rest).field name)
      else (objectLiteral rest).field name := by
  cases v with
  | none => simp [objectLiteral, JsVal.field]
  | some x =>
    by_cases hk : key = name
    · simp [objectLiteral, JsVal.field, lookup, hk]
    · simp [objectLiteral, JsVal.field, lookup, hk]

theorem field_objectLiteral_nil (name : String) : (objectLiteral []).field name = none := rfl

theorem project_rating (hotel : Hotel) : (project hotel).field "rating" = some (rating hotel) := by
  rcases hotel with ⟨pid, pname, _, _, _, _, _, _, _, _, _, _, _, _⟩
  cases pid <;> cases pname <;>
    simp [project, field_objectLiteral_cons, field_objectLiteral_nil]

/-- C14, amended. The projected rating is the number `parseFloat` reads at the
start of `site_review_rating`, as a double in its shortest form, when that
number is finite and not zero; it is `null` when `parseFloat` reads no number
(the column is missing or the text does not start with one), and also when
the number read is zero or beyond the range of the doubles. -/
theorem rating_number_or_null (hotel : Hotel) :
    (project hotel).field "rating" = some (rating hotel) ∧
    (∀ negative mantissa exponent,
      parseFloat (textOrUndefined hotel.site_review_rating) =
        .finite negative mantissa exponent →
      mantissa ≠ 0 →
      rating hotel = .num (JsNumber.finite negative mantissa exponent).toText) ∧
    (rating hotel = .null ↔
      parseFloat (textOrUndefined hotel.site_review_rating) = .nan ∨
      (∃ negative, parseFloat (textOrUndefined hotel.site_review_rating) =
        .infinity negative) ∨
      ∃ negative exponent, parseFloat (textOrUndefined hotel.site_review_rating) =
        .finite negative 0 exponent) ∧
    rating (ratedHotel (some "4.5")) = .num "4.5" ∧
    rating (ratedHotel (some "4.50")) = .num "4.5" ∧
    rating (ratedHotel (some " 3.7 stars")) = .num "3.7" ∧
    rating (ratedHotel (some ".5")) = .num "0.5" ∧
    rating (ratedHotel (some "-2.5")) = .num "-2.5" ∧
    rating (ratedHotel (some "5")) = .num "5" ∧
    rating (ratedHotel (some "abc")) = .null ∧
    rating (ratedHotel none) = .null ∧
    rating (ratedHotel (some "0.0")) = .null ∧
    rating (ratedHotel (some "-0")) = .null ∧
    rating (ratedHotel (some "1e400")) = .null ∧
    rating (ratedHotel (some "1e-400")) = .null ∧
    rating (ratedHotel (some "Infinity")) = .null := by
  refine ⟨project_rating hotel, ?_, ?_, rfl, rfl, rfl, rfl, rfl, rfl, rfl, rfl, rfl, rfl, rfl,
    rfl, rfl⟩
  · intro negative mantissa exponent hp hm
    simp only [rating, hp, JsNumber.truthy, JsNumber.toJson, hm, ne_eq, not_false_eq_true,
      decide_True, if_true]
  · unfold rating
    cases hp : parseFloat (textOrUndefined hotel.site_review_rating) with
    | nan => simp [JsNumber.truthy]
    | infinity negative => simp [JsNumber.truthy, JsNumber.toJson]
    | finite negative mantissa exponent =>
      by_cases hm : mantissa = 0
      · subst hm
        simp [JsNumber.truthy]
      · simp [JsNumber.truthy, JsNumber.toJson, hm]

theorem split_head (sep : Char) (cs : List Char) :
    (split sep cs).head? = some (cs.takeWhile fun c => c ≠ sep) := by
  induction cs with
  | nil => rfl
  | cons c cs ih =>
    unfold split
    by_cases hc : c = sep
    · simp [hc]
    · simp only [hc, if_false]
      cases hs : split sep cs with
      | nil => rw [hs] at ih; simp at ih
      | cons seg rest =>
        rw [hs] at ih
        simp only [List.head?_cons, Option.some.injEq] at ih
        simp [List.takeWhile, hc, ih]

theorem project_members (hotel : Hotel) :
    (project hotel).field "photoUrl" =
        some (match hotel.image_urls with
          | none => .null
          | some urls =>
            if (urls.data.takeWhile fun c => c ≠ ',') = [] then .null
            else .str (String.mk (urls.data.takeWhile fun c => c ≠ ','))) ∧
      (project hotel).field "reviewCount" =
        some (if (parseInt (textOrUndefined hotel.site_review_count)).truthy then
          (parseInt (textOrUndefined hotel.site_review_count)).toJson else .num "0") ∧
      (project hotel).field "price" =
        some (match hotel.highlight_value with
          | none => .str "N/A"
          | some p => if p = "" then .str "N/A" else .str p) ∧
      (project hotel).field "id" = hotel.property_id.map JsVal.str ∧
      (project hotel).field "name" = hotel.property_name.map JsVal.str ∧
      (project hotel).field "address" = hotel.property_address.map JsVal.str ∧
      (project hotel).field "city" = hotel.city.map JsVal.str ∧
      (project hotel).field "state" = hotel.state.map JsVal.str ∧
      (project hotel).field "url" = hotel.pageurl.map JsVal.str := by
  have hseg : ∀ seg : List Char, logicalOr (some (.str (String.mk seg))) .null =
      if seg = [] then .null else .str (String.mk seg) := by
    intro seg
    cases seg with
    | nil => rfl
    | cons c cs =>
      have : String.mk (c :: cs) ≠ "" := fun h => by
        have := congrArg String.data h
        simp at this
      simp [logicalOr, JsVal.truthy, this]
  have hphoto : photoUrl hotel =
      (match hotel.image_urls with
        | none => .null
        | some urls =>
          if (urls.data.takeWhile fun c => c ≠ ',') = [] then .null
          else .str (String.mk (urls.data.takeWhile fun c => c ≠ ','))) := by
    unfold photoUrl
    cases hotel.image_urls with
    | none => rfl
    | some urls =>
      simp only [Option.bind_some, split_head, Option.map_some']
      exact hseg _
  have hcount : reviewCount hotel =
      (if (parseInt (textOrUndefined hotel.site_review_count)).truthy then
        (parseInt (textOrUndefined hotel.site_review_count)).toJson else .num "0") := rfl
  have hprice : price hotel =
      (match hotel.highlight_value with
        | none => .str "N/A"
        | some p => if p = "" then .str "N/A" else .str p) := by
    unfold price
    cases hotel.highlight_value with
    | none => rfl
    | some p =>
      by_cases hp : p = ""
      · simp [logicalOr, JsVal.truthy, hp]
      · simp [logicalOr, JsVal.truthy, hp]
  refine ⟨?_, ?_, ?_, ?_, ?_, ?_, ?_, ?_, ?_⟩
  · rw [← hphoto]
    rcases hotel with ⟨pid, pname, _, _, _, _, _, _, _, _, _, _, _, _⟩
    cases pid <;> cases pname <;>
      simp [project, field_objectLiteral_cons, field_objectLiteral_nil]
  · rw [← hcount]
    rcases hotel with ⟨pid, pname, _, _, _, _, _, _, _, _, _, _, _, _⟩
    cases pid <;> cases pname <;>
      simp [project, field_objectLiteral_cons, field_objectLiteral_nil]
  · rw [← hprice]
    rcases hotel with ⟨pid, pname, _, _, _, _, _, _, _, _, _, _, _, _⟩
    cases pid <;> cases pname <;>
      simp [project, field_objectLiteral_cons, field_objectLiteral_nil]
  all_goals
    rcases hotel with ⟨pid, pname, _, _, _, _, addr, cty, st, url, _, _, _, _⟩
    cases pid <;> cases pname <;> cases addr <;> cases cty <;> cases st <;> cases url <;>
      simp [project, field_objectLiteral_cons, field_objectLiteral_nil]

theorem project_reviewCount (hotel : Hotel) :
    (project hotel).field "reviewCount" = some (reviewCount hotel) := by
  rcases hotel with ⟨pid, pname, _, _, _, _, _, _, _, _, _, _, _, _⟩
  cases pid <;> cases pname <;>
    simp [project, field_objectLiteral_cons, field_objectLiteral_nil]

theorem reviewCount_of_finite (text : Option String) (negative : Bool) (mantissa : Nat)
    (exponent : Int) (out : String)
    (hp : parseInt (textOrUndefined text) = .finite negative mantissa exponent)
    (hm : mantissa ≠ 0) (ht : (JsNumber.finite negative mantissa exponent).toText = out) :
    reviewCount (countedHotel text) = .num out := by
  simp [reviewCount, countedHotel, sampleHotel, hp, JsNumber.truthy, JsNumber.toJson, hm, ht]

theorem reviewCount_of_infinite (text : Option String) (negative : Bool)
    (hp : parseInt (textOrUndefined text) = .infinity negative) :
    reviewCount (countedHotel text) = .null := by
  simp [reviewCount, countedHotel, sampleHotel, hp, JsNumber.truthy, JsNumber.toJson]

/-- C15 as stated fails: the count text `9007199254740993` is an
integer, but the number sent is the double nearest to it, 9007199254740992; and
a count of 400 digits is beyond the doubles and is sent as `null`. -/
theorem reviewCount_rounded_example :
    reviewCount (countedHotel (some "9007199254740993")) = .num "9007199254740992" ∧
      (project (countedHotel (some "9007199254740993"))).field "reviewCount" =
        some (.num "9007199254740992") ∧
      reviewCount (countedHotel (some (String.mk (List.replicate 400 '9')))) = .null := by
  have rounded : reviewCount (countedHotel (some "9007199254740993")) =
      .num "9007199254740992" :=
    reviewCount_of_finite _ false 1 53 _ (by decide!) (by decide) (by decide!)
  exact ⟨rounded, by rw [project_reviewCount, rounded],
    reviewCount_of_infinite _ false (by decide!)⟩

/-- C15, amended. The projection of a row: `photoUrl` is the text of
`image_urls` before its first comma, `null` when the column is missing or that
text is empty; `reviewCount` is the integer `parseInt` reads at the start of
`site_review_count` (white space and a sign skipped, base 16 after `0x`), sent
as a double: the integer itself up to 2^53, the nearest double above that,
`null` beyond the range of the doubles, and 0 when no integer is read or it is
zero; `price` is `highlight_value`, `"N/A"` when missing or empty; `id`,
`name`, `address`, `city`, `state`, `url` are the columns `property_id`,
`property_name`, `property_address`, `city`, `state`, `pageurl` as they
are. -/
theorem project_fields (hotel : Hotel) :
    ((project hotel).field "photoUrl" =
        some (match hotel.image_urls with
          | none => .null
          | some urls =>
            if (urls.data.takeWhile fun c => c ≠ ',') = [] then .null
            else .str (String.mk (urls.data.takeWhile fun c => c ≠ ','))) ∧
      (project hotel).field "reviewCount" =
        some (if (parseInt (textOrUndefined hotel.site_review_count)).truthy then
          (parseInt (textOrUndefined hotel.site_review_count)).toJson else .num "0") ∧
      (project hotel).field "price" =
        some (match hotel.highlight_value with
          | none => .str "N/A"
          | some p => if p = "" then .str "N/A" else .str p) ∧
      (project hotel).field "id" = hotel.property_id.map JsVal.str ∧
      (project hotel).field "name" = hotel.property_name.map JsVal.str ∧
      (project hotel).field "address" = hotel.property_address.map JsVal.str ∧
      (project hotel).field "city" = hotel.city.map JsVal.str ∧
      (project hotel).field "state" = hotel.state.map JsVal.str ∧
      (project hotel).field "url" = hotel.pageurl.map JsVal.str) ∧
    reviewCount (countedHotel (some "120")) = .num "120" ∧
    reviewCount (countedHotel (some " 42")) = .num "42" ∧
    reviewCount (countedHotel (some "1,234")) = .num "1" ∧
    reviewCount (countedHotel (some "12 reviews")) = .num "12" ∧
    reviewCount (countedHotel (some "-5")) = .num "-5" ∧
    reviewCount (countedHotel (some "0x1A")) = .num "26" ∧
    reviewCount (countedHotel (some "3.9")) = .num "3" ∧
    reviewCount (countedHotel (some "9007199254740992")) = .num "9007199254740992" ∧
    reviewCount (countedHotel (some "99999999999999999999")) = .num "100000000000000000000" ∧
    reviewCount (countedHotel (some "abc")) = .num "0" ∧
    reviewCount (countedHotel (some "")) = .num "0" ∧
    reviewCount (countedHotel (some "0")) = .num "0" ∧
    reviewCount (countedHotel none) = .num "0" ∧
    (project (countedHotel (some "120"))).field "reviewCount" = some (.num "120") ∧
    (project (sampleHotel "h1" "Sea View" "Mumbai" "Colaba" (some "4.5") (some "120"))).field
      "photoUrl" = some .null :=
  ⟨project_members hotel,
    reviewCount_of_finite _ false 15 3 _ (by decide!) (by decide) (by decide!),
    reviewCount_of_finite _ false 21 1 _ (by decide!) (by decide) (by decide!),
    reviewCount_of_finite _ false 1 0 _ (by decide!) (by decide) (by decide!),
    reviewCount_of_finite _ false 3 2 _ (by decide!) (by decide) (by decide!),
    reviewCount_of_finite _ true 5 0 _ (by decide!) (by decide) (by decide!),
    reviewCount_of_finite _ false 13 1 _ (by decide!) (by decide) (by decide!),
    reviewCount_of_finite _ false 3 0 _ (by decide!) (by decide) (by decide!),
    reviewCount_of_finite _ false 1 53 _ (by decide!) (by decide) (by decide!),
    reviewCount_of_finite _ false 95367431640625 20 _ (by decide!) (by decide) (by decide!),
    rfl, rfl, rfl, rfl,
    by rw [project_reviewCount]
       exact congrArg some
         (reviewCount_of_finite _ false 15 3 _ (by decide!) (by decide) (by decide!)),
    rfl⟩

theorem find_none_iff (hotelsData : List Hotel) (id : String) :
    (hotelsData.find? fun h => h.property_id = some id) = none ↔
      ∀ r ∈ hotelsData, r.property_id ≠ some id := by
  simp [List.find?_eq_none]

theorem find_first (pre post : List Hotel) (hotel : Hotel) (id : String)
    (hpre : ∀ r ∈ pre, r.property_id ≠ some id) (hid : hotel.property_id = some id) :
    ((pre ++ hotel :: post).find? fun h => h.property_id = some id) = some hotel := by
  induction pre with
  | nil => simp [List.find?, hid]
  | cons p ps ih =>
    have hp : p.property_id ≠ some id := hpre p (List.mem_cons_self _ _)
    simp only [List.cons_append, List.find?, hp, decide_False]
    exact ih fun r hr => hpre r (List.mem_cons_of_mem _ hr)

theorem detail_id (hotel : Hotel) : (detail hotel).field "id" = hotel.property_id.map JsVal.str := by
  rcases hotel with ⟨pid, _, _, _, _, _, _, _, _, _, _, _, _, _⟩
  cases pid <;> simp [detail, field_objectLiteral_cons, field_objectLiteral_nil]

/-- C16. The details route answers 404 with `{error: "Hotel not found"}`
exactly when no row has `property_id` equal to the requested id (the same
text, letter case included); otherwise it sends the detail object of the first
such row of the table, whose `id` is the requested id. -/
theorem hotelDetails_found_iff (hotelsData : List Hotel) (id : String) :
    (hotelDetails hotelsData id = resStatusJson 404 (errorBody "Hotel not found") ↔
      ∀ r ∈ hotelsData, r.property_id ≠ some id) ∧
    ∀ (pre post : List Hotel) (hotel : Hotel), hotelsData = pre ++ hotel :: post →
      (∀ r ∈ pre, r.property_id ≠ some id) → hotel.property_id = some id →
      hotelDetails hotelsData id = resJson (detail hotel) ∧
        (detail hotel).field "id" = some (.str id) := by
  constructor
  · constructor
    · intro h
      cases hf : hotelsData.find? fun h => h.property_id = some id with
      | none => exact (find_none_iff _ _).1 hf
      | some hotel =>
        simp only [hotelDetails, hf] at h
        have := congrArg Response.status h
        simp [resJson, resStatusJson] at this
    · intro h
      simp only [hotelDetails, (find_none_iff _ _).2 h]
  · rintro pre post hotel rfl hpre hid
    refine ⟨?_, ?_⟩
    · simp only [hotelDetails, find_first pre post hotel id hpre hid]
    · rw [detail_id, hid]
      rfl

theorem hotelDetails_found_iff_witness :
    hotelDetails sampleTable "H2" = resStatusJson 404 (errorBody "Hotel not found") ∧
      hotelDetails sampleTable "h2" =
        resJson (detail (sampleHotel "h2" "Hill Stay" "Pune" "Kothrud" (some "0") (some "0"))) ∧
      (detail (sampleHotel "h2" "Hill Stay" "Pune" "Kothrud" (some "0") (some "0"))).field "id" =
        some (.str "h2") :=
  ⟨(hotelDetails_found_iff sampleTable "H2").1.2 (by decide),
    (hotelDetails_found_iff sampleTable "h2").2
      [sampleHotel "h1" "Sea View" "Mumbai" "Colaba" (some "4.5") (some "120")]
      [sampleHotel "h3" "City Inn" "Navi MUMBAI" "Vashi" none none]
      (sampleHotel "h2" "Hill Stay" "Pune" "Kothrud" (some "0") (some "0")) rfl (by decide) rfl⟩

/-- C18. While the table is empty, a search with a supplied city or area
answers 200 with `{data: []}`, and the details route answers 404 for every
id. -/
theorem empty_table_responses (city area : Option QueryValue)
    (h : supplied city = true ∨ supplied area = true) :
    searchHotels [] city area = resJson (.obj [("data", .arr [])]) ∧
      (searchHotels [] city area).status = 200 ∧
      ∀ id : String, hotelDetails [] id = resStatusJson 404 (errorBody "Hotel not found") := by
  have hf : filtered [] city area = .ok [] := by
    unfold filtered
    rw [filterIfSupplied_nil]
    exact filterIfSupplied_nil _ _
  have hs : searchHotels [] city area = resJson (.obj [("data", .arr [])]) := by
    unfold searchHotels
    rw [hf]
    rcases h with h | h <;> simp [h]
  exact ⟨hs, by rw [hs]; rfl, fun id => rfl⟩

theorem empty_table_responses_witness :
    searchHotels [] (some (.text "Goa")) none = resJson (.obj [("data", .arr [])]) ∧
      (searchHotels [] (some (.text "Goa")) none).status = 200 ∧
      ∀ id : String, hotelDetails [] id = resStatusJson 404 (errorBody "Hotel not found") :=
  empty_table_responses (some (.text "Goa")) none (Or.inl rfl)

/-! ## The candidate of the salvage step -/

theorem regexMatch_none_of_last {cs : List Char} (h : cs.getLast? ≠ some '}') :
    regexMatch cs = none := by
  induction cs with
  | nil => rfl
  | cons c cs ih =>
    cases cs with
    | nil => simp [regexMatch, matchHere]
    | cons d ds =>
      rw [List.getLast?_cons_cons] at h
      simp only [regexMatch, matchHere, h, and_false, if_false]
      exact ih h

/-- C17 as stated fails: in the text
`Sure! {"assistant_message":"hi","plan":{"days":3}}` the strict parse fails,
the last `{` opens `{"days":3}}`, and what the salvage step parses is the
text from the first `{`; the response carries the plan. -/
theorem salvage_candidate_not_last_brace :
    JSON.parse nestedPlanText = none ∧
      lastBraceToEnd nestedPlanText.data = some "\x7b\"days\":3\x7d\x7d".data ∧
      regexMatch nestedPlanText.data =
        some "\x7b\"assistant_message\":\"hi\",\"plan\":\x7b\"days\":3\x7d\x7d".data ∧
      regexMatch nestedPlanText.data ≠ lastBraceToEnd nestedPlanText.data ∧
      chatPlanNormalise nestedPlanText =
        .ok (resJson (chatPlanBody (.str "hi") (.obj [("days", .num "3")]))) := by
  refine ⟨rfl, rfl, rfl, ?_, rfl⟩
  have h1 : regexMatch nestedPlanText.data =
      some "\x7b\"assistant_message\":\"hi\",\"plan\":\x7b\"days\":3\x7d\x7d".data := rfl
  have h2 : lastBraceToEnd nestedPlanText.data = some "\x7b\"days\":3\x7d\x7d".data := rfl
  rw [h1, h2]
  decide

/-- C17, amended. The substring the salvage step parses starts at the first
`{` of the text and runs to the end; there is one only when `}` is the last
character of the text (and comes after that `{`). -/
theorem salvage_candidate_first_brace (t : String) (pre body : List Char)
    (ht : t.data = pre ++ '{' :: body) (hpre : '{' ∉ pre) :
    regexMatch t.data = if body.getLast? = some '}' then some ('{' :: body) else none := by
  rw [ht, regexMatch_skip _ _ hpre]
  by_cases hb : body.getLast? = some '}'
  · rw [if_pos hb, regexMatch_brace _ hb]
  · rw [if_neg hb]
    apply regexMatch_none_of_last
    cases body with
    | nil => simp
    | cons b bs =>
      rw [List.getLast?_cons_cons]
      exact hb

theorem salvage_candidate_first_brace_witness :
    regexMatch nestedPlanText.data =
      some ('{' :: "\"assistant_message\":\"hi\",\"plan\":\x7b\"days\":3\x7d\x7d".data) :=
  salvage_candidate_first_brace nestedPlanText "Sure! ".data
    "\"assistant_message\":\"hi\",\"plan\":\x7b\"days\":3\x7d\x7d".data rfl (by decide)

/-! ## The chat of the PlanTrip page -/

theorem dropWhile_head_not (p : Char → Bool) (l : List Char) (a : Char) (rest : List Char)
    (h : l.dropWhile p = a :: rest) : p a = false := by
  induction l with
  | nil => simp at h
  | cons x xs ih =>
    by_cases hx : p x = true
    · rw [List.dropWhile_cons_of_pos hx] at h
      exact ih h
    · rw [List.dropWhile_cons_of_neg hx] at h
      cases h
      simpa using hx

theorem trim_eq_empty_iff (text : String) :
    trim text = "" ↔ ∀ c ∈ text.data, isStrWhiteSpace c = true := by
  constructor
  · intro h
    have hd : ((text.data.dropWhile isStrWhiteSpace).reverse.dropWhile isStrWhiteSpace).reverse
        = [] := congrArg String.data h
    rw [List.reverse_eq_nil_iff, List.dropWhile_eq_nil_iff] at hd
    have hall : ∀ c ∈ text.data.dropWhile isStrWhiteSpace, isStrWhiteSpace c = true :=
      fun c hc => hd c (List.mem_reverse.2 hc)
    have hnil : text.data.dropWhile isStrWhiteSpace = [] := by
      cases hdrop : text.data.dropWhile isStrWhiteSpace with
      | nil => rfl
      | cons a rest =>
        have hfalse := dropWhile_head_not _ _ _ _ hdrop
        have htrue := hall a (hdrop ▸ List.mem_cons_self _ _)
        rw [hfalse] at htrue
        cases htrue
    exact List.dropWhile_eq_nil_iff.1 hnil
  · intro h
    have hnil : text.data.dropWhile isStrWhiteSpace = [] := List.dropWhile_eq_nil_iff.2 h
    unfold trim
    rw [hnil]
    rfl

theorem sendMessage_messages (st : ChatState) (text : String) :
    (sendMessage st text).messages =
      if trim text = "" then st.messages
      else st.messages ++ [{ role := "user", content := .str (trim text) }] := by
  unfold sendMessage
  split <;> rfl

theorem handleServerResponse_messages (st : ChatState) (data : Option JsVal) :
    (handleServerResponse st data).messages =
      if (classify data).1.truthy = true then
        st.messages ++ [{ role := "assistant", content := (classify data).1 }]
      else st.messages := by
  unfold handleServerResponse
  by_cases h1 : (classify data).1.truthy = true <;>
    by_cases h2 : (classify data).2.truthy = true <;> simp [h1, h2]

theorem handleServerResponse_itinerary (st : ChatState) (data : Option JsVal) :
    (handleServerResponse st data).itinerary =
      if (classify data).2.truthy = true then (classify data).2 else st.itinerary := by
  unfold handleServerResponse
  by_cases h1 : (classify data).1.truthy = true <;>
    by_cases h2 : (classify data).2.truthy = true <;> simp [h1, h2]

theorem reachable_roles (st : ChatState) (h : Reachable st) :
    ∀ m ∈ st.messages, m.role = "user" ∨ m.role = "assistant" := by
  induction h with
  | initial =>
    intro m hm
    simp only [initialState, List.mem_singleton] at hm
    subst hm
    exact Or.inr rfl
  | send st text _ ih =>
    intro m hm
    rw [sendMessage_messages] at hm
    split at hm
    · exact ih m hm
    · rcases List.mem_append.1 hm with hm | hm
      · exact ih m hm
      · simp only [List.mem_singleton] at hm
        subst hm
        exact Or.inl rfl
  | handle st data _ ih =>
    intro m hm
    rw [handleServerResponse_messages] at hm
    split at hm
    · rcases List.mem_append.1 hm with hm | hm
      · exact ih m hm
      · simp only [List.mem_singleton] at hm
        subst hm
        exact Or.inr rfl
    · exact ih m hm

/-- C19. The chat starts with the one greeting of the assistant.  `sendMessage`
with empty or white-space-only text changes nothing, and otherwise appends one
user message whose content is the trimmed text; `handleServerResponse` appends
at most one message.  Each step keeps the old list as a prefix of the new one,
and every message of a reachable state has the role `user` or `assistant`. -/
theorem chat_append_only :
    initialState.messages = [{ role := "assistant", content := .str greeting }] ∧
    (∀ (st : ChatState) (text : String),
      ((∀ c ∈ text.data, isStrWhiteSpace c = true) → sendMessage st text = st) ∧
      ((sendMessage st text).messages = st.messages ∨
        (sendMessage st text).messages =
          st.messages ++ [{ role := "user", content := .str (trim text) }]) ∧
      st.messages <+: (sendMessage st text).messages ∧
      (sendMessage st text).messages.length ≤ st.messages.length + 1) ∧
    (∀ (st : ChatState) (data : Option JsVal),
      st.messages <+: (handleServerResponse st data).messages ∧
      (handleServerResponse st data).messages.length ≤ st.messages.length + 1) ∧
    ∀ st : ChatState, Reachable st → ∀ m ∈ st.messages, m.role = "user" ∨ m.role = "assistant" := by
  refine ⟨rfl, ?_, ?_, reachable_roles⟩
  · intro st text
    refine ⟨?_, ?_, ?_, ?_⟩
    · intro h
      simp [sendMessage, (trim_eq_empty_iff text).2 h]
    · rw [sendMessage_messages]
      split
      · exact Or.inl rfl
      · exact Or.inr rfl
    · rw [sendMessage_messages]
      split
      · exact List.prefix_refl _
      · exact List.prefix_append _ _
    · rw [sendMessage_messages]
      split
      · omega
      · simp
  · intro st data
    refine ⟨?_, ?_⟩
    · rw [handleServerResponse_messages]
      split
      · exact List.prefix_append _ _
      · exact List.prefix_refl _
    · rw [handleServerResponse_messages]
      split
      · simp
      · omega

theorem jsLength_cons (c : Char) (cs : List Char) :
    jsLength (String.mk (c :: cs)) =
      (if c.toNat < 0x10000 then 1 else 2) + jsLength (String.mk cs) := rfl

theorem jsLength_nil : jsLength (String.mk []) = 0 := rfl

theorem jsLength_sliceUnits : ∀ (n : Nat) (cs : List Char),
    jsLength (String.mk (sliceUnits n cs)) = min n (jsLength (String.mk cs)) := by
  intro n cs
  induction cs generalizing n with
  | nil =>
    rw [sliceUnits, jsLength_nil]
    omega
  | cons c cs ih =>
    have hw : jsLength (String.mk [Char.ofNat 0xFFFD]) = 1 := by decide
    rw [jsLength_cons, sliceUnits]
    by_cases hc : c.toNat < 0x10000
    · by_cases hn : 1 ≤ n
      · simp only [hc, hn, if_true, jsLength_cons, ih]
        omega
      · simp only [hc, hn, if_true, if_false, jsLength_nil]
        omega
    · by_cases hn : 2 ≤ n
      · simp only [hc, hn, if_true, if_false, jsLength_cons, ih]
        omega
      · by_cases h1 : n = 1
        · subst h1
          simp only [hc, if_false]
          rw [if_neg (by omega), if_pos trivial, hw]
          omega
        · simp only [hc, hn, h1, if_false, jsLength_nil]
          omega

theorem sliceUnits_of_le : ∀ (n : Nat) (text : String), jsLength text ≤ n →
    String.mk (sliceUnits n text.data) = text := by
  intro n text h
  have key : ∀ (cs : List Char) (n : Nat), jsLength (String.mk cs) ≤ n → sliceUnits n cs = cs := by
    intro cs
    induction cs with
    | nil => intro n _; rfl
    | cons c cs ih =>
      intro n hn
      rw [jsLength_cons] at hn
      rw [sliceUnits]
      by_cases hc : c.toNat < 0x10000
      · simp only [hc, if_true] at hn ⊢
        rw [if_pos (by omega), ih (n - 1) (by omega)]
      · simp only [hc, if_false] at hn ⊢
        rw [if_pos (by omega), ih (n - 2) (by omega)]
  rw [key text.data n h]

theorem sliceUnits_prefix : ∀ (n : Nat) (cs : List Char),
    sliceUnits n cs <+: cs ∨
      ∃ pre c, sliceUnits n cs = pre ++ [Char.ofNat 0xFFFD] ∧ pre ++ [c] <+: cs ∧
        0x10000 ≤ c.toNat ∧ jsLength (String.mk pre) + 1 = n := by
  intro n cs
  induction cs generalizing n with
  | nil => exact Or.inl (by rw [sliceUnits])
  | cons c cs ih =>
    rw [sliceUnits]
    by_cases hc : c.toNat < 0x10000
    · by_cases hn : 1 ≤ n
      · simp only [hc, hn, if_true]
        rcases ih (n - 1) with h | ⟨pre, d, h1, h2, h3, h4⟩
        · exact Or.inl ((List.prefix_cons_inj c).2 h)
        · refine Or.inr ⟨c :: pre, d, by rw [h1, List.cons_append], ?_, h3, ?_⟩
          · rw [List.cons_append]
            exact (List.prefix_cons_inj c).2 h2
          · rw [jsLength_cons]
            simp only [hc, if_true]
            omega
      · simp only [hc, hn, if_true, if_false]
        exact Or.inl List.nil_prefix
    · by_cases hn : 2 ≤ n
      · simp only [hc, hn, if_true, if_false]
        rcases ih (n - 2) with h | ⟨pre, d, h1, h2, h3, h4⟩
        · exact Or.inl ((List.prefix_cons_inj c).2 h)
        · refine Or.inr ⟨c :: pre, d, by rw [h1, List.cons_append], ?_, h3, ?_⟩
          · rw [List.cons_append]
            exact (List.prefix_cons_inj c).2 h2
          · rw [jsLength_cons]
            simp only [hc, if_false]
            omega
      · by_cases h1 : n = 1
        · subst h1
          simp only [hc, if_false]
          rw [if_neg (by omega), if_pos trivial]
          refine Or.inr ⟨[], c, rfl, ?_, by omega, rfl⟩
          rw [List.nil_append]
          exact (List.prefix_cons_inj c).2 List.nil_prefix
        · simp only [hc, hn, h1, if_false]
          exact Or.inl List.nil_prefix

/-- C20 as stated fails: the empty string is a string payload, yet it is
falsy, so it is handled as a missing payload; the message is the apology, and
it is appended. -/
theorem empty_string_payload_example :
    classify (some (.str "")) = (.str "Sorry — no response from server.", .null) ∧
      classify (some (.str "")) ≠ (.str "", .null) ∧
      (handleServerResponse initialState (some (.str ""))).messages =
        initialState.messages ++
          [{ role := "assistant", content := .str "Sorry — no response from server." }] := by
  refine ⟨rfl, ?_, rfl⟩
  intro h
  have h1 : classify (some (.str "")) = (.str "Sorry — no response from server.", .null) := rfl
  rw [h1] at h
  have h2 := congrArg Prod.fst h
  simp only [JsVal.str.injEq] at h2
  revert h2
  decide

/-- C20, amended. A falsy payload (missing, `null`, `false`, zero or the empty
string) yields "Sorry — no response from server."; a non-empty string is the
message, with no plan; any other payload with a truthy `assistant_message` or
a `plan` key yields those two values (`null` when absent); one without them but
with truthy `destination` and `itinerary` is the plan, with the message
"Here's the plan I generated for you."; every other payload yields its JSON
text cut to its first 1000 UTF-16 code units, the whole text when it has no
more: the message is a prefix of the text, of `min 1000 length` units, except
that when the cut falls inside a character above U+FFFF, after 999 units, the
half that is left is written U+FFFD.  The itinerary changes only to a truthy
plan, and a message is appended only when it is truthy. -/
theorem handleServerResponse_classifies (data : Option JsVal) :
    (truthy data = false → classify data = (.str "Sorry — no response from server.", .null)) ∧
    (∀ s : String, data = some (.str s) → s ≠ "" → classify data = (.str s, .null)) ∧
    (∀ d : JsVal, data = some d → d.truthy = true → d.typeof ≠ "string" →
      (truthy (d.field "assistant_message") = true ∨ (d.field "plan").isSome = true →
        classify data =
          ((d.field "assistant_message").getD .null, (d.field "plan").getD .null)) ∧
      (truthy (d.field "assistant_message") = false → d.field "plan" = none →
        (truthy (d.field "destination") = true ∧ truthy (d.field "itinerary") = true →
          classify data = (.str "Here\x27s the plan I generated for you.", d)) ∧
        (¬ (truthy (d.field "destination") = true ∧ truthy (d.field "itinerary") = true) →
          classify data =
            (.str (String.mk (sliceUnits 1000 (JSON.stringify d).data)), .null) ∧
          jsLength (String.mk (sliceUnits 1000 (JSON.stringify d).data)) =
            min 1000 (jsLength (JSON.stringify d)) ∧
          (jsLength (JSON.stringify d) ≤ 1000 →
            String.mk (sliceUnits 1000 (JSON.stringify d).data) = JSON.stringify d) ∧
          (sliceUnits 1000 (JSON.stringify d).data <+: (JSON.stringify d).data ∨
            ∃ pre c, sliceUnits 1000 (JSON.stringify d).data = pre ++ [Char.ofNat 0xFFFD] ∧
              pre ++ [c] <+: (JSON.stringify d).data ∧ 0x10000 ≤ c.toNat ∧
              jsLength (String.mk pre) + 1 = 1000)))) ∧
    (∀ st : ChatState,
      (handleServerResponse st data).itinerary =
          (if (classify data).2.truthy = true then (classify data).2 else st.itinerary) ∧
        (handleServerResponse st data).messages =
          (if (classify data).1.truthy = true then
            st.messages ++ [{ role := "assistant", content := (classify data).1 }]
          else st.messages)) := by
  refine ⟨?_, ?_, ?_, fun st =>
    ⟨handleServerResponse_itinerary st data, handleServerResponse_messages st data⟩⟩
  · intro h
    simp [classify, h]
  · rintro s rfl hs
    simp [classify, truthy, JsVal.truthy, JsVal.typeof, hs]
  · rintro d rfl hd hty
    have ht : truthy (some d) = true := hd
    refine ⟨?_, ?_⟩
    · intro h
      have hcond : (truthy (d.field "assistant_message") || (d.field "plan").isSome) = true := by
        rcases h with h | h <;> simp [h]
      simp only [classify, ht, hty, hcond, Bool.not_true, if_true, if_false, nullish_null_eq_getD]
      simp
    · intro ham hplan
      have hcond : (truthy (d.field "assistant_message") || (d.field "plan").isSome) = false := by
        simp [ham, hplan]
      refine ⟨?_, ?_⟩
      · rintro ⟨h1, h2⟩
        simp [classify, ht, hty, hcond, h1, h2]
      · intro h
        have hdi : (truthy (d.field "destination") && truthy (d.field "itinerary")) = false := by
          cases h1 : truthy (d.field "destination") <;>
            cases h2 : truthy (d.field "itinerary") <;> simp_all
        refine ⟨?_, jsLength_sliceUnits _ _, fun hle => ?_, sliceUnits_prefix _ _⟩
        · simp [classify, ht, hty, hcond, hdi, JSON.stringify]
        · rw [sliceUnits_of_le _ _ hle]

theorem handleServerResponse_classifies_witness :
    classify (some (.bool false)) = (.str "Sorry — no response from server.", .null) ∧
      classify (some (.str "hello")) = (.str "hello", .null) ∧
      classify (some (.obj [("plan", .null)])) = (.null, .null) ∧
      classify (some (.obj [("destination", .str "Goa"), ("itinerary", .arr [])])) =
        (.str "Here\x27s the plan I generated for you.",
          .obj [("destination", .str "Goa"), ("itinerary", .arr [])]) ∧
      classify (some (.arr [.num "1"])) = (.str "[1]", .null) ∧
      sliceUnits 4 "a😀😀".data = "a😀\uFFFD".data ∧ sliceUnits 5 "a😀😀".data = "a😀😀".data :=
  ⟨(handleServerResponse_classifies (some (.bool false))).1 rfl,
    (handleServerResponse_classifies (some (.str "hello"))).2.1 "hello" rfl (by decide),
    ((handleServerResponse_classifies (some (.obj [("plan", .null)]))).2.2.1
      (.obj [("plan", .null)]) rfl rfl (by decide)).1 (Or.inr rfl),
    (((handleServerResponse_classifies
      (some (.obj [("destination", .str "Goa"), ("itinerary", .arr [])]))).2.2.1
      (.obj [("destination", .str "Goa"), ("itinerary", .arr [])]) rfl rfl (by decide)).2
        rfl rfl).1 ⟨rfl, rfl⟩,
    ((((handleServerResponse_classifies (some (.arr [.num "1"]))).2.2.1
      (.arr [.num "1"]) rfl rfl (by decide)).2 rfl rfl).2 (by decide)).1, rfl, rfl⟩

/-! ## The user routes -/

theorem findIndex_append (p : User → Bool) (pre post : List User) (u : User)
    (hpre : ∀ r ∈ pre, p r = false) (hu : p u = true) :
    findIndex p (pre ++ u :: post) = some pre.length := by
  induction pre with
  | nil => simp [findIndex, hu]
  | cons x xs ih =>
    have hx : p x = false := hpre x (List.mem_cons_self _ _)
    have hrest := ih fun r hr => hpre r (List.mem_cons_of_mem _ hr)
    show findIndex p (x :: (xs ++ u :: post)) = some (xs.length + 1)
    unfold findIndex
    rw [if_neg (by simp [hx]), hrest]
    rfl

theorem findIndex_eq_some {p : User → Bool} {users : List User} {i : Nat}
    (h : findIndex p users = some i) :
    ∃ pre u post, users = pre ++ u :: post ∧ pre.length = i ∧ (∀ r ∈ pre, p r = false) ∧
      p u = true := by
  induction users generalizing i with
  | nil => simp [findIndex] at h
  | cons x xs ih =>
    unfold findIndex at h
    by_cases hx : p x = true
    · simp only [hx, if_true, Option.some.injEq] at h
      exact ⟨[], x, xs, rfl, h, by simp, hx⟩
    · simp only [hx, Bool.false_eq_true, if_false] at h
      cases hf : findIndex p xs with
      | none => rw [hf] at h; simp at h
      | some j =>
        rw [hf] at h
        simp only [Option.map_some', Option.some.injEq] at h
        obtain ⟨pre, u, post, hxs, hlen, hpre, hu⟩ := ih hf
        refine ⟨x :: pre, u, post, by rw [hxs]; rfl, by simp [hlen, h], ?_, hu⟩
        intro r hr
        rcases List.mem_cons.1 hr with rfl | hr
        · simpa using hx
        · exact hpre r hr

theorem findIndex_eq_none {p : User → Bool} {users : List User} :
    findIndex p users = none ↔ ∀ r ∈ users, p r = false := by
  induction users with
  | nil => simp [findIndex]
  | cons x xs ih =>
    unfold findIndex
    by_cases hx : p x = true
    · simp [hx]
    · have hx2 : p x = false := by simpa using hx
      simp [hx2, ih]

theorem updateAt_append (f : User → User) (pre post : List User) (u : User) :
    updateAt pre.length f (pre ++ u :: post) = pre ++ f u :: post := by
  induction pre with
  | nil => rfl
  | cons x xs ih => simp [updateAt, ih]

theorem updateAt_length (f : User → User) : ∀ (users : List User) (i : Nat),
    (updateAt i f users).length = users.length := by
  intro users
  induction users with
  | nil => intro i; simp [updateAt]
  | cons x xs ih =>
    intro i
    cases i with
    | zero => simp [updateAt]
    | succ j => simp [updateAt, ih]

theorem assignAt_length (i : Nat) (name : String) (value : Option JsVal) (users : List User) :
    (assignAt i name value users).length = users.length := by
  cases value with
  | none => rfl
  | some v => exact updateAt_length _ _ _

theorem spreadAt_append (pre post : List User) (u : User) :
    spreadAt (pre ++ u :: post) pre.length = u := by
  have : (pre ++ u :: post).get? pre.length = some u := by
    induction pre with
    | nil => rfl
    | cons x xs ih => simpa using ih
  simp only [spreadAt, this]

theorem lookup_deleteKey_self (name : String) (members : List (String × JsVal)) :
    lookup name (deleteKey name members) = none := by
  induction members with
  | nil => rfl
  | cons kv rest ih =>
    obtain ⟨k, v⟩ := kv
    by_cases hk : k = name
    · simpa [deleteKey, hk] using ih
    · have : deleteKey name ((k, v) :: rest) = (k, v) :: deleteKey name rest := by
        simp [deleteKey, hk]
      rw [this, lookup, if_neg hk, ih]

theorem lookup_deleteKey_ne {name key : String} (h : key ≠ name)
    (members : List (String × JsVal)) :
    lookup key (deleteKey name members) = lookup key members := by
  induction members with
  | nil => rfl
  | cons kv rest ih =>
    obtain ⟨k, v⟩ := kv
    by_cases hk : k = name
    · have hkk : k ≠ key := fun e => h (e ▸ hk)
      have : deleteKey name ((k, v) :: rest) = deleteKey name rest := by
        simp [deleteKey, hk]
      rw [this, ih, lookup, if_neg hkk]
    · have : deleteKey name ((k, v) :: rest) = (k, v) :: deleteKey name rest := by
        simp [deleteKey, hk]
      rw [this, lookup, lookup, ih]

theorem lookup_setProp_self (name : String) (v : JsVal) (members : List (String × JsVal)) :
    lookup name (setProp name v members) = some v := by
  induction members with
  | nil => simp [setProp, lookup]
  | cons kv rest ih =>
    obtain ⟨k, w⟩ := kv
    by_cases hk : k = name
    · simp [setProp, lookup, hk]
    · simp [setProp, lookup, hk, ih]

theorem lookup_setProp_ne {name key : String} (h : key ≠ name) (v : JsVal)
    (members : List (String × JsVal)) :
    lookup key (setProp name v members) = lookup key members := by
  induction members with
  | nil =>
    have : name ≠ key := fun e => h e.symm
    simp [setProp, lookup, this]
  | cons kv rest ih =>
    obtain ⟨k, w⟩ := kv
    by_cases hk : k = name
    · subst hk
      have hkk : k ≠ key := fun e => h e.symm
      simp [setProp, lookup, hkk]
    · simp [setProp, lookup, hk, ih]

theorem deleteKey_setProp_self (name : String) (v : JsVal) (members : List (String × JsVal)) :
    deleteKey name (setProp name v members) = deleteKey name members := by
  induction members with
  | nil => simp [setProp, deleteKey]
  | cons kv rest ih =>
    obtain ⟨k, w⟩ := kv
    by_cases hk : k = name
    · simp [setProp, deleteKey, hk]
    · have h1 : setProp name v ((k, w) :: rest) = (k, w) :: setProp name v rest := by
        simp [setProp, hk]
      have h2 : ∀ l, deleteKey name ((k, w) :: l) = (k, w) :: deleteKey name l := by
        intro l
        simp [deleteKey, hk]
      rw [h1, h2, h2, ih]

theorem matchesUser_setProp {name : String} (h1 : "id" ≠ name) (h2 : "uid" ≠ name)
    (userId : Option JsVal) (v : JsVal) (u : User) :
    matchesUser userId (setProp name v u) = matchesUser userId u := by
  unfold matchesUser
  rw [lookup_setProp_ne h1, lookup_setProp_ne h2]

theorem withoutPassword_no_password (u : User) : (withoutPassword u).field "password" = none :=
  lookup_deleteKey_self _ _

theorem strictEq_str (a : Option JsVal) (s : String) :
    strictEq a (some (.str s)) = true ↔ a = some (.str s) := by
  cases a with
  | none => simp [strictEq]
  | some v => cases v <;> simp [strictEq, strictEquals]

theorem updatePassword_of_conditions (id current fresh : JsVal) (pre post : List User)
    (u : User) (hid : id.truthy = true) (hcur : current.truthy = true)
    (hfresh : fresh.truthy = true)
    (hpre : ∀ r ∈ pre, matchesUser (some id) r = false) (hu : matchesUser (some id) u = true)
    (hpw : strictEq (lookup "password" u) (some current) = true)
    (hlen : lengthLessThan 6 fresh = .ok false) :
    updatePassword (pre ++ u :: post) (some current) (some fresh) (some id) =
      (resJson (messageBody "Password updated successfully"),
        pre ++ setProp "password" fresh u :: post) := by
  simp only [updatePassword, truthy, hid, hcur, hfresh, Bool.not_true, Bool.or_false,
    Bool.false_eq_true, if_false, findIndex_append _ pre post u hpre hu, spreadAt_append, hpw,
    hlen, assignAt, updateAt_append]

theorem conditions_of_updatePassword_ok {users : List User}
    {currentPassword newPassword userId : Option JsVal}
    (h : (updatePassword users currentPassword newPassword userId).1.status = 200) :
    ∃ id current fresh pre u post,
      userId = some id ∧ id.truthy = true ∧ currentPassword = some current ∧
      current.truthy = true ∧ newPassword = some fresh ∧ fresh.truthy = true ∧
      users = pre ++ u :: post ∧
      (∀ r ∈ pre, matchesUser (some id) r = false) ∧ matchesUser (some id) u = true ∧
      strictEq (lookup "password" u) (some current) = true ∧
      lengthLessThan 6 fresh = .ok false := by
  unfold updatePassword at h
  split at h
  · simp [resStatusJson] at h
  · rename_i hguard
    simp only [Bool.or_eq_true, Bool.not_eq_true', not_or, Bool.not_eq_false] at hguard
    obtain ⟨⟨hid, hcur⟩, hfresh⟩ := hguard
    split at h
    · simp [resStatusJson] at h
    · rename_i userIndex hfind
      obtain ⟨pre, u, post, husers, hlen, hpre, hu⟩ := findIndex_eq_some hfind
      subst husers
      subst hlen
      rw [spreadAt_append] at h
      split at h
      · simp [resStatusJson] at h
      · rename_i hpw
        simp only [Bool.not_eq_true', Bool.not_eq_false] at hpw
        split at h
        · simp [resStatusJson] at h
        · rename_i fresh
          split at h
          · simp [resStatusJson] at h
          · simp [resStatusJson] at h
          · rename_i hless
            cases userId with
            | none => simp [truthy] at hid
            | some id =>
              cases currentPassword with
              | none => simp [truthy] at hcur
              | some current =>
                exact ⟨id, current, fresh, pre, u, post, rfl, hid, rfl, hcur, rfl, hfresh, rfl,
                  hpre, hu, hpw, hless⟩

theorem updatePassword_error_unchanged (users : List User)
    (currentPassword newPassword userId : Option JsVal)
    (h : (updatePassword users currentPassword newPassword userId).1.status ≠ 200) :
    ((updatePassword users currentPassword newPassword userId).1.status = 400 ∨
      (updatePassword users currentPassword newPassword userId).1.status = 404 ∨
      (updatePassword users currentPassword newPassword userId).1.status = 500) ∧
    (updatePassword users currentPassword newPassword userId).2 = users := by
  unfold updatePassword at h ⊢
  split
  · exact ⟨Or.inl rfl, rfl⟩
  · split
    · exact ⟨Or.inr (Or.inl rfl), rfl⟩
    · split
      · exact ⟨Or.inl rfl, rfl⟩
      · split
        · exact ⟨Or.inr (Or.inr rfl), rfl⟩
        · split
          · exact ⟨Or.inr (Or.inr rfl), rfl⟩
          · exact ⟨Or.inl rfl, rfl⟩
          · exfalso
            apply h
            simp only [*]
            rfl

theorem updatePassword_length (users : List User)
    (currentPassword newPassword userId : Option JsVal) :
    (updatePassword users currentPassword newPassword userId).2.length = users.length := by
  unfold updatePassword
  split
  · rfl
  · split
    · rfl
    · split
      · rfl
      · split
        · rfl
        · split
          · rfl
          · rfl
          · simp only [assignAt_length]

/-- C26 as stated fails: a new password that is the number 1 has no
`length`, the comparison `undefined < 6` is false, and the handler stores the
number and answers 200. -/
theorem numeric_password_accepted_example :
    updatePassword [firstUser] (some (.str "hashedPassword123")) (some (.num "1"))
        (some (.str "user1")) =
      (resJson (messageBody "Password updated successfully"),
        [setProp "password" (.num "1") firstUser]) ∧
    (updatePassword [firstUser] (some (.str "hashedPassword123")) (some (.num "1"))
        (some (.str "user1"))).1.status = 200 ∧
    lookup "password" (setProp "password" (.num "1") firstUser) = some (.num "1") :=
  ⟨rfl, rfl, rfl⟩

/-- C26, amended. The password update succeeds (status 200) exactly when the
three fields are truthy, the list has a user whose `id` or `uid` is `===` the
given one, the current password is `===` the stored password of the first such
user, and `newPassword.length < 6` is false.  For text this is the claim as
stated: non-empty text, the same text, at least 6 UTF-16 code units; but
a number or a boolean has no `length` and passes, and an array passes with 6
elements.  On success that user's `password` becomes the new value and nothing
else changes; every other response has status 400, 404 or 500 and leaves the
list as it was. -/
theorem updatePassword_succeeds_iff (users : List User)
    (currentPassword newPassword userId : Option JsVal) :
    ((updatePassword users currentPassword newPassword userId).1.status = 200 ↔
      ∃ id current fresh pre u post,
        userId = some id ∧ id.truthy = true ∧ currentPassword = some current ∧
        current.truthy = true ∧ newPassword = some fresh ∧ fresh.truthy = true ∧
        users = pre ++ u :: post ∧
        (∀ r ∈ pre, matchesUser (some id) r = false) ∧ matchesUser (some id) u = true ∧
        strictEq (lookup "password" u) (some current) = true ∧
        lengthLessThan 6 fresh = .ok false) ∧
    (∀ id current fresh pre u post,
        userId = some id → id.truthy = true → currentPassword = some current →
        current.truthy = true → newPassword = some fresh → fresh.truthy = true →
        users = pre ++ u :: post →
        (∀ r ∈ pre, matchesUser (some id) r = false) → matchesUser (some id) u = true →
        strictEq (lookup "password" u) (some current) = true →
        lengthLessThan 6 fresh = .ok false →
        updatePassword users currentPassword newPassword userId =
          (resJson (messageBody "Password updated successfully"),
            pre ++ setProp "password" fresh u :: post)) ∧
    ((updatePassword users currentPassword newPassword userId).1.status ≠ 200 →
      ((updatePassword users currentPassword newPassword userId).1.status = 400 ∨
        (updatePassword users currentPassword newPassword userId).1.status = 404 ∨
        (updatePassword users currentPassword newPassword userId).1.status = 500) ∧
      (updatePassword users currentPassword newPassword userId).2 = users) ∧
    (∀ s : String, (JsVal.str s).truthy = true ↔ s ≠ "") ∧
    (∀ (a : Option JsVal) (s : String), strictEq a (some (.str s)) = true ↔ a = some (.str s)) ∧
    (∀ s : String, lengthLessThan 6 (.str s) = .ok false ↔ 6 ≤ jsLength s) ∧
    (∀ literal : String, lengthLessThan 6 (.num literal) = .ok false) ∧
    (∀ b : Bool, lengthLessThan 6 (.bool b) = .ok false) ∧
    (∀ items : List JsVal, lengthLessThan 6 (.arr items) = .ok false ↔ 6 ≤ items.length) := by
  have success : ∀ id current fresh pre u post,
      userId = some id → id.truthy = true → currentPassword = some current →
      current.truthy = true → newPassword = some fresh → fresh.truthy = true →
      users = pre ++ u :: post →
      (∀ r ∈ pre, matchesUser (some id) r = false) → matchesUser (some id) u = true →
      strictEq (lookup "password" u) (some current) = true →
      lengthLessThan 6 fresh = .ok false →
      updatePassword users currentPassword newPassword userId =
        (resJson (messageBody "Password updated successfully"),
          pre ++ setProp "password" fresh u :: post) := by
    rintro id current fresh pre u post rfl hid rfl hcur rfl hfresh rfl hpre hu hpw hlen
    exact updatePassword_of_conditions id current fresh pre post u hid hcur hfresh hpre hu
      hpw hlen
  refine ⟨⟨conditions_of_updatePassword_ok, ?_⟩, success,
    updatePassword_error_unchanged users currentPassword newPassword userId, ?_, strictEq_str,
    ?_, fun _ => rfl, fun _ => rfl, ?_⟩
  · rintro ⟨id, current, fresh, pre, u, post, h1, h2, h3, h4, h5, h6, h7, h8, h9, h10, h11⟩
    rw [success id current fresh pre u post h1 h2 h3 h4 h5 h6 h7 h8 h9 h10 h11]
    rfl
  · intro s
    simp [JsVal.truthy]
  · intro s
    simp [lengthLessThan]
  · intro items
    simp [lengthLessThan]

theorem updatePassword_succeeds_iff_witness :
    updatePassword [firstUser, secondUser] (some (.str "secret222")) (some (.str "abcdef"))
        (some (.str "firebase-uid-2")) =
      (resJson (messageBody "Password updated successfully"),
        [firstUser] ++ setProp "password" (.str "abcdef") secondUser :: []) :=
  (updatePassword_succeeds_iff [firstUser, secondUser] (some (.str "secret222"))
    (some (.str "abcdef")) (some (.str "firebase-uid-2"))).2.1 (.str "firebase-uid-2")
    (.str "secret222") (.str "abcdef") [firstUser] secondUser []
    rfl rfl rfl rfl rfl rfl rfl (by decide) rfl rfl rfl

theorem matchesUser_deleteKey (userId : Option JsVal) (u : User) :
    matchesUser userId (deleteKey "password" u) = matchesUser userId u := by
  unfold matchesUser
  rw [lookup_deleteKey_ne (by decide), lookup_deleteKey_ne (by decide)]

theorem deleteKey_idem (name : String) (u : User) :
    deleteKey name (deleteKey name u) = deleteKey name u := by
  simp [deleteKey, List.filter_filter]

theorem getProfile_erase : ∀ (users1 users2 : List User) (userId : String),
    users1.map (deleteKey "password") = users2.map (deleteKey "password") →
    getProfile users1 userId = getProfile users2 userId := by
  intro users1
  induction users1 with
  | nil =>
    intro users2 userId h
    cases users2 with
    | nil => rfl
    | cons y ys => simp at h
  | cons x xs ih =>
    intro users2 userId h
    cases users2 with
    | nil => simp at h
    | cons y ys =>
      simp only [List.map_cons, List.cons.injEq] at h
      have hm : matchesUser (some (.str userId)) x = matchesUser (some (.str userId)) y := by
        rw [← matchesUser_deleteKey _ x, ← matchesUser_deleteKey _ y, h.1]
      have hw : withoutPassword x = withoutPassword y := by
        unfold withoutPassword
        rw [h.1]
      have hrest := ih ys userId h.2
      unfold getProfile at hrest ⊢
      by_cases hx : matchesUser (some (.str userId)) x = true
      · have hy : matchesUser (some (.str userId)) y = true := hm ▸ hx
        simp only [List.find?, hx, hy, hw]
      · have hx2 : matchesUser (some (.str userId)) x = false := by simpa using hx
        have hy : matchesUser (some (.str userId)) y = false := hm ▸ hx2
        simp only [List.find?, hx2, hy]
        exact hrest

theorem updateProfile_found (users : List User) (name email userId : Option JsVal) (i : Nat)
    (hid : truthy userId = true) (hf : findIndex (matchesUser userId) users = some i)
    (named : List User)
    (hnamed : named = if truthy name = true then assignAt i "displayName" name users else users) :
    updateProfile users name email userId =
      if truthy email = true then
        if (named.any fun u =>
            strictEq (lookup "email" u) email &&
              (!strictEq (lookup "id" u) userId && !strictEq (lookup "uid" u) userId)) = true then
          (resStatusJson 400 (errorBody "Email already exists"), named)
        else
          (resJson (.obj [("message", .str "Profile updated successfully"),
            ("user", .obj (deleteKey "password" (spreadAt (assignAt i "email" email named) i)))]),
            assignAt i "email" email named)
      else
        (resJson (.obj [("message", .str "Profile updated successfully"),
          ("user", .obj (deleteKey "password" (spreadAt named i)))]), named) := by
  subst hnamed
  simp only [updateProfile, hid, hf, Bool.not_true, Bool.false_eq_true, if_false]

/-- C22. No profile response carries the stored password: the `user` object
of a successful profile update, the profile, and the `user` object of a
successful login have no `password` member; the debug listing has
`"***hidden***"` as the `password` of every user; and the profile response is
the same for two user lists that differ only in passwords. -/
theorem responses_hide_password :
    (∀ (users : List User) (name email userId : Option JsVal),
      (updateProfile users name email userId).1.status = 200 →
      ∃ user, (updateProfile users name email userId).1.body.field "user" = some user ∧
        user.field "password" = none) ∧
    (∀ (users : List User) (userId : String),
      (getProfile users userId).body.field "password" = none) ∧
    (∀ (users : List User) (email password : Option JsVal),
      (login users email password).status = 200 →
      ∃ user, (login users email password).body.field "user" = some user ∧
        user.field "password" = none) ∧
    (∀ users : List User, ∃ rows, debugUsers users = resJson (.arr rows) ∧
      rows.length = users.length ∧
      ∀ row ∈ rows, row.field "password" = some (.str "***hidden***")) ∧
    (∀ (users1 users2 : List User) (userId : String),
      users1.map (deleteKey "password") = users2.map (deleteKey "password") →
      getProfile users1 userId = getProfile users2 userId) := by
  refine ⟨?_, ?_, ?_, ?_, getProfile_erase⟩
  · intro users name email userId h
    by_cases hid : truthy userId = true
    · cases hf : findIndex (matchesUser userId) users with
      | none => simp [updateProfile, hid, hf, resStatusJson] at h
      | some i =>
        rw [updateProfile_found users name email userId i hid hf _ rfl] at h ⊢
        generalize (if truthy name = true then assignAt i "displayName" name users
          else users) = named at h ⊢
        by_cases he : truthy email = true
        · rw [if_pos he] at h ⊢
          by_cases hex : (named.any fun u =>
              strictEq (lookup "email" u) email &&
                (!strictEq (lookup "id" u) userId && !strictEq (lookup "uid" u) userId)) = true
          · rw [if_pos hex] at h
            simp [resStatusJson] at h
          · rw [if_neg hex]
            exact ⟨_, rfl, lookup_deleteKey_self _ _⟩
        · rw [if_neg he]
          exact ⟨_, rfl, lookup_deleteKey_self _ _⟩
    · simp [updateProfile, hid, resStatusJson] at h
  · intro users userId
    unfold getProfile
    split
    · rfl
    · exact withoutPassword_no_password _
  · intro users email password h
    unfold login at h ⊢
    split
    · rename_i hf
      simp [hf, resStatusJson] at h
    · rename_i user hf
      simp only [hf] at h
      split
      · exact ⟨_, rfl, withoutPassword_no_password _⟩
      · rename_i ht
        simp [ht, resStatusJson] at h
  · intro users
    refine ⟨_, rfl, by simp, ?_⟩
    intro row hrow
    obtain ⟨u, -, rfl⟩ := List.mem_map.1 hrow
    exact lookup_setProp_self _ _ _

theorem updateProfile_length (users : List User) (name email userId : Option JsVal) :
    (updateProfile users name email userId).2.length = users.length := by
  by_cases hid : truthy userId = true
  · cases hf : findIndex (matchesUser userId) users with
    | none => simp [updateProfile, hid, hf]
    | some i =>
      have hnamed : (if truthy name = true then assignAt i "displayName" name users
          else users).length = users.length := by
        split
        · exact assignAt_length _ _ _ _
        · rfl
      rw [updateProfile_found users name email userId i hid hf _ rfl]
      generalize (if truthy name = true then assignAt i "displayName" name users
        else users) = named at hnamed ⊢
      split
      · split
        · exact hnamed
        · simp only [assignAt_length, hnamed]
      · exact hnamed
  · simp [updateProfile, hid]

theorem reachable_one_user {users : List User} (h : UsersReachable users) :
    ∃ u, users = [u] := by
  have hlen : users.length = 1 := by
    induction h with
    | initial => rfl
    | profile users name email userId _ ih => rw [updateProfile_length, ih]
    | password users c n i _ ih => rw [updatePassword_length, ih]
  match users, hlen with
  | [u], _ => exact ⟨u, rfl⟩

theorem updateProfile_one_user_ok (u : User) (name email userId : Option JsVal)
    (hid : truthy userId = true) (hm : matchesUser userId u = true) :
    (updateProfile [u] name email userId).1.status = 200 := by
  have hfind : findIndex (matchesUser userId) [u] = some 0 := by
    simp [findIndex, hm]
  have hnamed : ∃ w, (if truthy name = true then assignAt 0 "displayName" name [u]
      else [u]) = [w] ∧ matchesUser userId w = true := by
    split
    · cases name with
      | none => exact ⟨u, rfl, hm⟩
      | some v =>
        refine ⟨setProp "displayName" v u, rfl, ?_⟩
        rw [matchesUser_setProp (by decide) (by decide)]
        exact hm
    · exact ⟨u, rfl, hm⟩
  obtain ⟨w, hw, hmw⟩ := hnamed
  rw [updateProfile_found [u] name email userId 0 hid hfind [w] hw.symm]
  have hany : ([w].any fun r =>
      strictEq (lookup "email" r) email &&
        (!strictEq (lookup "id" r) userId && !strictEq (lookup "uid" r) userId)) = false := by
    unfold matchesUser at hmw
    rcases Bool.or_eq_true_iff.1 hmw with h1 | h1 <;> simp [h1]
  rw [hany]
  split <;> rfl

/-- C27. The server's user list always holds exactly one user (every list the
routes can leave, starting from the list of the source, has one element), and
for every list of one user `update-profile` is atomic on failure: a response
other than 200 has status 400 or 404 and leaves the list exactly as it was. -/
theorem updateProfile_atomic_on_failure (users : List User)
    (name email userId : Option JsVal) :
    (UsersReachable users → ∃ u, users = [u]) ∧
    ((∃ u, users = [u]) →
      (updateProfile users name email userId).1.status ≠ 200 →
      ((updateProfile users name email userId).1.status = 400 ∨
        (updateProfile users name email userId).1.status = 404) ∧
      (updateProfile users name email userId).2 = users) := by
  refine ⟨reachable_one_user, ?_⟩
  rintro ⟨u, rfl⟩ hne
  by_cases hid : truthy userId = true
  · by_cases hm : matchesUser userId u = true
    · exact absurd (updateProfile_one_user_ok u name email userId hid hm) hne
    · have hfind : findIndex (matchesUser userId) [u] = none := by
        simp [findIndex, hm]
      simp [updateProfile, hid, hfind, resStatusJson]
  · simp [updateProfile, hid, resStatusJson]

theorem updateProfile_atomic_on_failure_witness :
    (∃ u, (updateProfile [firstUser] (some (.str "New Name")) none (some (.str "user1"))).2 =
      [u]) ∧
    (((updateProfile (updateProfile [firstUser] (some (.str "New Name")) none
        (some (.str "user1"))).2 (some (.str "Other")) (some (.str "a@b.c"))
          (some (.str "nobody"))).1.status = 400 ∨
      (updateProfile (updateProfile [firstUser] (some (.str "New Name")) none
        (some (.str "user1"))).2 (some (.str "Other")) (some (.str "a@b.c"))
          (some (.str "nobody"))).1.status = 404) ∧
      (updateProfile (updateProfile [firstUser] (some (.str "New Name")) none
        (some (.str "user1"))).2 (some (.str "Other")) (some (.str "a@b.c"))
          (some (.str "nobody"))).2 =
        (updateProfile [firstUser] (some (.str "New Name")) none (some (.str "user1"))).2) ∧
    (updateProfile [firstUser] none (some (.str "a@b.c")) none).1.status = 400 ∧
    (updateProfile [firstUser] none (some (.str "a@b.c")) none).2 = [firstUser] :=
  ⟨(updateProfile_atomic_on_failure _ none none none).1
      (UsersReachable.profile [firstUser] (some (.str "New Name")) none (some (.str "user1"))
        UsersReachable.initial),
    (updateProfile_atomic_on_failure _ (some (.str "Other")) (some (.str "a@b.c"))
        (some (.str "nobody"))).2
      ((updateProfile_atomic_on_failure _ none none none).1
        (UsersReachable.profile [firstUser] (some (.str "New Name")) none (some (.str "user1"))
          UsersReachable.initial))
      (by decide),
    rfl,
    ((updateProfile_atomic_on_failure [firstUser] none (some (.str "a@b.c")) none).2
      ⟨firstUser, rfl⟩ (by decide)).2⟩

theorem find?_first_user (q : User → Bool) (pre post : List User) (u : User)
    (hpre : ∀ r ∈ pre, q r = false) (hu : q u = true) :
    (pre ++ u :: post).find? q = some u := by
  induction pre with
  | nil => simp [List.find?, hu]
  | cons x xs ih =>
    have hx : q x = false := hpre x (List.mem_cons_self _ _)
    simp only [List.cons_append, List.find?, hx]
    exact ih fun r hr => hpre r (List.mem_cons_of_mem _ hr)

theorem emails_differ {pre post : List User} {u : User}
    (h : ((pre ++ u :: post).map fun r => lookup "email" r).Nodup) :
    (∀ r ∈ pre, lookup "email" r ≠ lookup "email" u) ∧
      ∀ r ∈ post, lookup "email" r ≠ lookup "email" u := by
  rw [List.map_append, List.map_cons, List.nodup_middle, List.nodup_cons] at h
  have hnot := h.1
  constructor
  · intro r hr he
    exact hnot (List.mem_append_left _ (List.mem_map.2 ⟨r, hr, he⟩))
  · intro r hr he
    exact hnot (List.mem_append_right _ (List.mem_map.2 ⟨r, hr, he⟩))

theorem strictEq_str_false {a : Option JsVal} {s : String} (h : a ≠ some (.str s)) :
    strictEq a (some (.str s)) = false := by
  cases hs : strictEq a (some (.str s)) with
  | false => rfl
  | true => exact absurd ((strictEq_str a s).1 hs) h

/-- C28. In a list with pairwise distinct emails, after a successful password
update with text fields the user whose password changed, if its email is `e`,
logs in with `e` and the new password: the response carries that user (without
password) and the token `mock-token-` followed by its id; with `e` and the old
password the login is rejected with 401 when the two passwords differ. -/
theorem login_after_password_update (users : List User)
    (currentPassword newPassword userId : Option String) (e : String)
    (hdistinct : (users.map fun r => lookup "email" r).Nodup)
    (hok : (updatePassword users (currentPassword.map JsVal.str) (newPassword.map JsVal.str)
      (userId.map JsVal.str)).1.status = 200) :
    ∃ pre u post id fresh,
      users = pre ++ u :: post ∧ userId = some id ∧ newPassword = some fresh ∧
      (∀ r ∈ pre, matchesUser (some (.str id)) r = false) ∧
      matchesUser (some (.str id)) u = true ∧
      (updatePassword users (currentPassword.map JsVal.str) (newPassword.map JsVal.str)
        (userId.map JsVal.str)).2 = pre ++ setProp "password" (.str fresh) u :: post ∧
      (lookup "email" u = some (.str e) →
        (∀ idText, templateText (lookup "id" u) = .ok idText →
          login (updatePassword users (currentPassword.map JsVal.str)
              (newPassword.map JsVal.str) (userId.map JsVal.str)).2 (some (.str e))
              (newPassword.map JsVal.str) =
            resJson (.obj [("message", .str "Login successful"), ("user", withoutPassword u),
              ("token", .str ("mock-token-" ++ idText))])) ∧
        (∀ idText, lookup "id" u = some (.str idText) →
          templateText (lookup "id" u) = .ok idText) ∧
        (currentPassword ≠ newPassword →
          login (updatePassword users (currentPassword.map JsVal.str)
              (newPassword.map JsVal.str) (userId.map JsVal.str)).2 (some (.str e))
              (currentPassword.map JsVal.str) =
            resStatusJson 401 (errorBody "Invalid credentials"))) := by
  obtain ⟨id, current, fresh, pre, u, post, hid, hidt, hcur, hcurt, hfresh, hfresht, rfl, hpre,
    hu, hpw, hlen⟩ := conditions_of_updatePassword_ok hok
  cases userId with
  | none => cases hid
  | some idS =>
    cases currentPassword with
    | none => cases hcur
    | some curS =>
      cases newPassword with
      | none => cases hfresh
      | some freshS =>
        simp only [Option.map_some', Option.some.injEq] at hid hcur hfresh
        subst hid hcur hfresh
        have hlist := updatePassword_of_conditions (.str idS) (.str curS) (.str freshS) pre post
          u hidt hcurt hfresht hpre hu hpw hlen
        simp only [Option.map_some']
        refine ⟨pre, u, post, idS, freshS, rfl, rfl, rfl, hpre, hu, by rw [hlist], ?_⟩
        intro he
        obtain ⟨hdpre, hdpost⟩ := emails_differ hdistinct
        rw [hlist]
        have hemail : lookup "email" (setProp "password" (.str freshS) u) = some (.str e) := by
          rw [lookup_setProp_ne (by decide), he]
        have hpass : lookup "password" (setProp "password" (.str freshS) u) =
            some (.str freshS) := lookup_setProp_self _ _ _
        refine ⟨?_, ?_, ?_⟩
        · intro idText hidText
          have hfind : (pre ++ setProp "password" (.str freshS) u :: post).find?
              (fun r => strictEq (lookup "email" r) (some (.str e)) &&
                strictEq (lookup "password" r) (some (.str freshS))) =
              some (setProp "password" (.str freshS) u) := by
            apply find?_first_user
            · intro r hr
              have : lookup "email" r ≠ some (.str e) := he ▸ hdpre r hr
              simp [strictEq_str_false this]
            · simp [(strictEq_str _ _).2 hemail, (strictEq_str _ _).2 hpass]
          have hidu : lookup "id" (setProp "password" (.str freshS) u) = lookup "id" u :=
            lookup_setProp_ne (by decide) _ _
          simp only [login, hfind, hidu, hidText, withoutPassword, deleteKey_setProp_self]
        · intro idText hidText
          rw [hidText]
          rfl
        · intro hne
          have hcf : curS ≠ freshS := fun h => hne (by rw [h])
          have hnone : (pre ++ setProp "password" (.str freshS) u :: post).find?
              (fun r => strictEq (lookup "email" r) (some (.str e)) &&
                strictEq (lookup "password" r) (some (.str curS))) = none := by
            rw [List.find?_eq_none]
            intro r hr
            rcases List.mem_append.1 hr with hr | hr
            · have : lookup "email" r ≠ some (.str e) := he ▸ hdpre r hr
              simp [strictEq_str_false this]
            · rcases List.mem_cons.1 hr with rfl | hr
              · have : lookup "password" (setProp "password" (.str freshS) u) ≠
                    some (.str curS) := by
                  rw [hpass]
                  intro h
                  cases h
                  exact hcf rfl
                simp [strictEq_str_false this]
              · have : lookup "email" r ≠ some (.str e) := he ▸ hdpost r hr
                simp [strictEq_str_false this]
          simp only [login, hnone]

theorem login_after_password_update_witness :
    login (updatePassword [firstUser, secondUser] (some (.str "secret222"))
        (some (.str "abcdef")) (some (.str "user2"))).2 (some (.str "second@example.com"))
        (some (.str "abcdef")) =
      resJson (.obj [("message", .str "Login successful"), ("user", withoutPassword secondUser),
        ("token", .str "mock-token-user2")]) ∧
    login (updatePassword [firstUser, secondUser] (some (.str "secret222"))
        (some (.str "abcdef")) (some (.str "user2"))).2 (some (.str "second@example.com"))
        (some (.str "secret222")) = resStatusJson 401 (errorBody "Invalid credentials") := by
  obtain ⟨pre, u, post, id, fresh, hu, hid, hfresh, hpre, hm, -, hlogin⟩ :=
    login_after_password_update [firstUser, secondUser] (some "secret222") (some "abcdef")
      (some "user2") "second@example.com" (by simp [firstUser, secondUser, lookup]) rfl
  have hsplit : pre = [firstUser] ∧ u = secondUser := by
    cases hid
    match pre, hu, hpre with
    | [], hu, _ =>
      simp only [List.nil_append, List.cons.injEq] at hu
      rw [← hu.1] at hm
      exact absurd hm (by decide)
    | [x], hu, _ =>
      simp only [List.cons_append, List.nil_append, List.cons.injEq] at hu
      exact ⟨by rw [← hu.1], hu.2.1.symm⟩
    | x :: y :: rest, hu, hpre =>
      simp only [List.cons_append, List.cons.injEq] at hu
      have := hpre y (by simp)
      rw [← hu.2.1] at this
      exact absurd this (by decide)
  obtain ⟨-, rfl⟩ := hsplit
  obtain ⟨h1, -, h3⟩ := hlogin rfl
  exact ⟨h1 "user2" rfl, h3 (by decide)⟩

/-! ## Saving a package -/

/-- C21 fails on the code: `savePackage` looks for the package in the
suggestion list itself, finds it, and writes that list unchanged: the entry
carries no `chosenAt` and no `savedId`, and the other suggestions are written
as saved too. -/
theorem savePackage_writes_suggestions :
    (∀ (filteredPackages : List Package) (p : Package) (now fresh : String),
      p ∈ filteredPackages → savePackage filteredPackages p now fresh = filteredPackages) ∧
    (savePackage [samplePackage "Goa Beach" "Goa", samplePackage "Kerala Tour" "Kerala"]
        (samplePackage "Goa Beach" "Goa") "2025-01-01T00:00:00.000Z" "1736_ab12cd3").map
        (fun q => (q.PackageName, q.chosenAt, q.savedId)) =
      [("Goa Beach", none, none), ("Kerala Tour", none, none)] := by
  refine ⟨?_, rfl⟩
  intro filteredPackages p now fresh hp
  cases hf : filteredPackages.find? fun fp =>
      fp.PackageName = p.PackageName && fp.Destination = p.Destination with
  | some found => simp only [savePackage, hf]
  | none =>
    have := List.find?_eq_none.1 hf p hp
    simp at this

/-! ## More on chat-plan and the hotel routes -/

theorem parse_last_not_brace {t : String} {v : JsVal} (h : JSON.parse t = some v)
    (hv : ∀ m, v ≠ .obj m) : t.data.getLast? ≠ some '}' := by
  intro hend
  obtain ⟨rest, hrun, hrest⟩ := JSON.parse_eq_some h
  obtain ⟨last, hl, hk⟩ := JSON.run_closes _ _ _ _ _ hrun
  rcases hk with ⟨-, m, hm⟩ | ⟨hlast, -⟩
  · exact hv m hm
  · have hsuf : (last :: rest) <:+ t.data := hl.trans (JSON.skipWs_suffix _)
    obtain ⟨front, hfront⟩ := hsuf
    rw [← hfront, List.getLast?_append_of_ne_nil _ (List.cons_ne_nil _ _)] at hend
    cases rest with
    | nil =>
      simp only [List.getLast?_singleton, Option.some.injEq] at hend
      exact hlast hend
    | cons r rs =>
      rw [List.getLast?_cons_cons] at hend
      have hmem : '}' ∈ r :: rs := List.mem_of_getLast?_eq_some hend
      have := JSON.all_ws_of_skipWs_nil hrest _ hmem
      revert this
      decide

/-- C24. A text that is JSON for a number, a boolean or an array gives
`{assistant_message: null, plan: null}`.  A text that is JSON for `null` makes
the member access throw inside the first `try`; there is no match for the
regular expression, and the response is the raw text as the message: for the
text `null`, `{assistant_message: "null", plan: null}`. -/
theorem chatPlan_other_json (t : String) (v : JsVal) (hp : JSON.parse t = some v) :
    ((∃ n, v = .num n) ∨ (∃ b, v = .bool b) ∨ (∃ xs, v = .arr xs) →
      chatPlanNormalise t = .ok (resJson (chatPlanBody .null .null))) ∧
    (v = .null → chatPlanNormalise t = .ok (resJson (chatPlanBody (.str t) .null))) ∧
    chatPlanNormalise "null" = .ok (resJson (chatPlanBody (.str "null") .null)) := by
  have hne : t ≠ "" := ne_empty_of_parse hp
  refine ⟨?_, ?_, rfl⟩
  · intro hv
    apply normalise_of_strict_ok hne
    apply strictAttempt_of_other hp
    rcases hv with ⟨n, rfl⟩ | ⟨b, rfl⟩ | ⟨xs, rfl⟩
    · exact Or.inr (Or.inl ⟨n, rfl⟩)
    · exact Or.inl ⟨b, rfl⟩
    · exact Or.inr (Or.inr ⟨xs, rfl⟩)
  · rintro rfl
    rw [normalise_of_strict_error hne (strictAttempt_of_null hp)]
    have hlast := parse_last_not_brace hp (fun m hm => by cases hm)
    rw [salvage_of_no_match (regexMatch_none_of_last hlast)]
    rfl

theorem chatPlan_other_json_witness :
    chatPlanNormalise "[1, 2]" = .ok (resJson (chatPlanBody .null .null)) ∧
      chatPlanNormalise " null\n" = .ok (resJson (chatPlanBody (.str " null\n") .null)) :=
  ⟨(chatPlan_other_json "[1, 2]" (.arr [.num "1", .num "2"]) rfl).1
      (Or.inr (Or.inr ⟨_, rfl⟩)),
    (chatPlan_other_json " null\n" .null rfl).2.1 rfl⟩

theorem project_id (hotel : Hotel) :
    (project hotel).field "id" = hotel.property_id.map JsVal.str := by
  rcases hotel with ⟨pid, _, _, _, _, _, _, _, _, _, _, _, _, _⟩
  cases pid <;> simp [project, field_objectLiteral_cons, field_objectLiteral_nil]

/-- C25. In a table whose rows all have a `property_id`, every row of a
search result has an `id`, and the details route, asked for that id, sends a
detail object (not the 404) whose `id` is the same. -/
theorem search_ids_resolve (hotelsData : List Hotel) (city area : Option String)
    (hids : ∀ r ∈ hotelsData, ∃ id, r.property_id = some id)
    (h : supplied (textQuery city) = true ∨ supplied (textQuery area) = true) :
    ∃ rows : List Hotel,
      searchHotels hotelsData (textQuery city) (textQuery area) =
        resJson (.obj [("data", .arr (rows.map project))]) ∧
      ∀ hotel ∈ rows, ∃ id, (project hotel).field "id" = some (.str id) ∧
        ∃ found, hotelDetails hotelsData id = resJson (detail found) ∧
          (detail found).field "id" = some (.str id) := by
  refine ⟨_, searchHotels_of_supplied h, ?_⟩
  intro hotel hmem
  have hin : hotel ∈ hotelsData := (List.mem_filter.1 (List.mem_of_mem_take hmem)).1
  obtain ⟨id, hid⟩ := hids hotel hin
  refine ⟨id, by rw [project_id, hid]; rfl, ?_⟩
  cases hf : hotelsData.find? fun r => r.property_id = some id with
  | none =>
    have := (find_none_iff _ _).1 hf hotel hin
    exact absurd hid this
  | some found =>
    have hfound : found.property_id = some id := by
      have := List.find?_some hf
      simpa using this
    refine ⟨found, by simp only [hotelDetails, hf], ?_⟩
    rw [detail_id, hfound]
    rfl

theorem search_ids_resolve_witness :
    ∃ rows : List Hotel,
      searchHotels sampleTable (textQuery (some "mumbai")) (textQuery none) =
        resJson (.obj [("data", .arr (rows.map project))]) ∧
      ∀ hotel ∈ rows, ∃ id, (project hotel).field "id" = some (.str id) ∧
        ∃ found, hotelDetails sampleTable id = resJson (detail found) ∧
          (detail found).field "id" = some (.str id) :=
  search_ids_resolve sampleTable (some "mumbai") none
    (by
      intro r hr
      simp only [sampleTable, List.mem_cons, List.mem_singleton, List.not_mem_nil,
        or_false] at hr
      rcases hr with rfl | rfl | rfl
      · exact ⟨"h1", rfl⟩
      · exact ⟨"h2", rfl⟩
      · exact ⟨"h3", rfl⟩)
    (Or.inl rfl)

/-! ## Parsing what `JSON.stringify` wrote -/

namespace JSON

theorem hex4_hexDigit : ∀ k, k < 32 →
    hex4 '0' '0' (hexDigit (k / 16)) (hexDigit (k % 16)) = some k := by
  decide

theorem parseString_escapeChar (c : Char) (tail acc : List Char) :
    parseString none (escapeChar c ++ tail) acc = parseString none tail (c :: acc) := by
  unfold escapeChar
  split
  · rename_i h; subst h
    conv_lhs => unfold parseString
    simp [simpleEscape, flush]
  split
  · rename_i h; subst h
    conv_lhs => unfold parseString
    simp [simpleEscape, flush]
  split
  · rename_i h; subst h
    conv_lhs => unfold parseString
    simp [simpleEscape, flush]
  split
  · rename_i h; subst h
    conv_lhs => unfold parseString
    simp [simpleEscape, flush]
  split
  · rename_i h; subst h
    conv_lhs => unfold parseString
    simp [simpleEscape, flush]
  split
  · rename_i h; subst h
    conv_lhs => unfold parseString
    simp [simpleEscape, flush]
  split
  · rename_i h; subst h
    conv_lhs => unfold parseString
    simp [simpleEscape, flush]
  split
  · rename_i h1 h2 h3 h4 h5 h6 h7 hlt
    have hhex := hex4_hexDigit c.toNat hlt
    have hnp : nextPending c.toNat = none := by
      unfold nextPending
      rw [if_neg (by omega)]
    have hpu : pushUnit none c.toNat acc = c :: acc := by
      unfold pushUnit
      rw [if_neg (by omega), if_neg (by omega)]
      simp [flush, Char.ofNat_toNat]
    conv_lhs => unfold parseString
    simp [hhex, hnp, hpu]
  · rename_i h1 h2 h3 h4 h5 h6 h7 hlt
    conv_lhs => unfold parseString
    simp [h1, h2, hlt, flush]

theorem parseString_escapeChars : ∀ (s acc rest : List Char),
    parseString none (escapeChars s ++ '"' :: rest) acc =
      some (String.mk (acc.reverse ++ s), rest) := by
  intro s
  induction s with
  | nil =>
    intro acc rest
    unfold parseString
    simp [escapeChars, flush]
  | cons c s ih =>
    intro acc rest
    rw [escapeChars, List.append_assoc, parseString_escapeChar, ih]
    simp

theorem parseString_quote (s : String) (rest : List Char) :
    parseString none (escapeChars s.data ++ '"' :: rest) [] = some (s, rest) := by
  rw [parseString_escapeChars]
  rfl


theorem digit_ne {c : Char} (h : isDigit c = true) (d : Char)
    (hd : d.toNat < 48 ∨ 57 < d.toNat) : c ≠ d := by
  rintro rfl
  simp only [isDigit, Bool.and_eq_true, decide_eq_true_eq] at h
  have h1 : '0'.toNat = 48 := rfl
  have h2 : '9'.toNat = 57 := rfl
  omega

theorem start_not_ws {c : Char} (h : c = '-' ∨ isDigit c = true) : isWs c = false := by
  rcases h with rfl | h
  · decide
  · have h1 := digit_ne h ' ' (by decide)
    have h2 := digit_ne h '\t' (by decide)
    have h3 := digit_ne h '\n' (by decide)
    have h4 := digit_ne h '\r' (by decide)
    simp [isWs, h1, h2, h3, h4]

theorem start_ne {c : Char} (h : c = '-' ∨ isDigit c = true) (d : Char)
    (hd : d.toNat < 45 ∨ 57 < d.toNat) : c ≠ d := by
  rcases h with rfl | h
  · rintro rfl
    revert hd
    decide
  · exact digit_ne h d (by omega)

theorem validNumber_head {lit : List Char} (h : validNumber lit = true) :
    ∃ c cs, lit = c :: cs ∧ (c = '-' ∨ isDigit c = true) := by
  cases lit with
  | nil => simp [validNumber] at h
  | cons c cs =>
    refine ⟨c, cs, rfl, ?_⟩
    by_cases hc : c = '-'
    · exact Or.inl hc
    · right
      simp only [validNumber, hc, if_false] at h
      split at h
      · rename_i h0
        subst h0
        decide
      · simp only [Bool.and_eq_true] at h
        exact h.1

theorem takeWhile_append_all (p : Char → Bool) : ∀ (l rest : List Char),
    l.all p = true → (∀ c ∈ rest.head?, p c = false) →
    (l ++ rest).takeWhile p = l ∧ (l ++ rest).dropWhile p = rest := by
  intro l
  induction l with
  | nil =>
    intro rest _ hrest
    cases rest with
    | nil => simp
    | cons d ds =>
      have : p d = false := hrest d (by simp)
      simp [List.takeWhile, List.dropWhile, this]
  | cons c cs ih =>
    intro rest hall hrest
    simp only [List.all_cons, Bool.and_eq_true] at hall
    obtain ⟨h1, h2⟩ := ih rest hall.2 hrest
    simp [List.takeWhile, List.dropWhile, hall.1, h1, h2]

theorem run_num (n : Nat) (lit rest : List Char) (hv : validNumber lit = true)
    (hall : lit.all isNumChar = true) (hrest : ∀ c ∈ rest.head?, isNumChar c = false) :
    run (n + 1) .value (lit ++ rest) = some (.num (String.mk lit), rest) := by
  obtain ⟨h1, h2⟩ := takeWhile_append_all isNumChar lit rest hall hrest
  obtain ⟨c, cs, rfl, hstart⟩ := validNumber_head hv
  have hc1 : c ≠ '{' := start_ne hstart _ (by decide)
  have hc2 : c ≠ '[' := start_ne hstart _ (by decide)
  have hc3 : c ≠ '"' := start_ne hstart _ (by decide)
  rw [List.cons_append] at h1 h2 ⊢
  simp only [run, hc1, hc2, hc3, if_false, hstart, if_true, h1, h2, hv]

theorem run_value_arr_empty (n : Nat) (rest : List Char) :
    run (n + 1) .value ('[' :: ']' :: rest) = some (.arr [], rest) := by
  simp [run, skipWs, isWs]

theorem run_value_obj_empty (n : Nat) (rest : List Char) :
    run (n + 1) .value ('{' :: '}' :: rest) = some (.obj [], rest) := by
  simp [run, skipWs, isWs]

theorem run_value_arr (n : Nat) (d : Char) (ds : List Char) (hws : isWs d = false)
    (hd : d ≠ ']') : run (n + 1) .value ('[' :: d :: ds) = run n (.elems []) (d :: ds) := by
  simp [run, skipWs, hws, hd]

theorem run_value_obj (n : Nat) (d : Char) (ds : List Char) (hws : isWs d = false)
    (hd : d ≠ '}') : run (n + 1) .value ('{' :: d :: ds) = run n (.members []) (d :: ds) := by
  simp [run, skipWs, hws, hd]

theorem run_value_str (n : Nat) (s : String) (rest : List Char) :
    run (n + 1) .value ('"' :: (escapeChars s.data ++ '"' :: rest)) = some (.str s, rest) := by
  simp [run, parseString_quote]

theorem run_elems_step (n : Nat) (acc : List JsVal) (cs : List Char) (v : JsVal) (d : Char)
    (ds : List Char) (h : run n .value cs = some (v, d :: ds)) (hws : isWs d = false) :
    run (n + 1) (.elems acc) cs =
      if d = ',' then run n (.elems (acc ++ [v])) (skipWs ds)
      else if d = ']' then some (.arr (acc ++ [v]), ds) else none := by
  cases cs with
  | nil => simp [run_nil] at h
  | cons c cs => simp only [run, h, skipWs_of_not_ws _ hws]

theorem run_members_step (n : Nat) (acc : List (String × JsVal)) (key : String) (c0 : Char)
    (cs0 : List Char) (v : JsVal) (d : Char) (ds : List Char)
    (h : run n .value (c0 :: cs0) = some (v, d :: ds)) (hc0 : isWs c0 = false)
    (hws : isWs d = false) :
    run (n + 1) (.members acc) ('"' :: (escapeChars key.data ++ '"' :: ':' :: c0 :: cs0)) =
      if d = ',' then run n (.members (setProp key v acc)) (skipWs ds)
      else if d = '}' then some (.obj (setProp key v acc), ds) else none := by
  have hcolon : isWs ':' = false := by decide
  simp only [run, parseString_quote, skipWs_of_not_ws _ hcolon, skipWs_of_not_ws _ hc0, h,
    skipWs_of_not_ws _ hws, if_true]

theorem setProp_fresh (key : String) (v : JsVal) : ∀ (acc : List (String × JsVal)),
    (∀ kw ∈ acc, kw.1 ≠ key) → setProp key v acc = acc ++ [(key, v)] := by
  intro acc
  induction acc with
  | nil => intro _; rfl
  | cons kw rest ih =>
    intro h
    obtain ⟨k, w⟩ := kw
    have hk : k ≠ key := h (k, w) (List.mem_cons_self _ _)
    simp only [setProp, hk, if_false, List.cons_append]
    rw [ih fun x hx => h x (List.mem_cons_of_mem _ hx)]

theorem stringifyVal_head (v : JsVal) (hw : wellFormed v = true) :
    ∃ c cs, stringifyVal v = c :: cs ∧ isWs c = false ∧ c ≠ ']' := by
  cases v with
  | null => exact ⟨'n', _, by rw [stringifyVal], by decide, by decide⟩
  | bool b =>
    cases b
    · exact ⟨'f', _, by rw [stringifyVal], by decide, by decide⟩
    · exact ⟨'t', _, by rw [stringifyVal], by decide, by decide⟩
  | num literal =>
    simp only [wellFormed, Bool.and_eq_true] at hw
    obtain ⟨c, cs, hlit, hstart⟩ := validNumber_head hw.1
    exact ⟨c, cs, by rw [stringifyVal, hlit], start_not_ws hstart, start_ne hstart _ (by decide)⟩
  | str s => exact ⟨'"', _, by rw [stringifyVal, quote, List.cons_append], by decide, by decide⟩
  | arr items => exact ⟨'[', _, by rw [stringifyVal, List.cons_append], by decide, by decide⟩
  | obj members => exact ⟨'{', _, by rw [stringifyVal, List.cons_append], by decide, by decide⟩

theorem stringifyItems_head (v : JsVal) (items : List JsVal) (hw : wellFormed v = true) :
    ∃ c cs, stringifyItems (v :: items) = c :: cs ∧ isWs c = false ∧ c ≠ ']' := by
  obtain ⟨c, cs, h, hws, hne⟩ := stringifyVal_head v hw
  cases items with
  | nil => exact ⟨c, cs, by rw [stringifyItems, h], hws, hne⟩
  | cons w more => exact ⟨c, _, by rw [stringifyItems, h, List.cons_append], hws, hne⟩

theorem stringifyMembers_head (kv : String × JsVal) (ms : List (String × JsVal)) :
    ∃ cs, stringifyMembers (kv :: ms) = '"' :: cs := by
  obtain ⟨key, v⟩ := kv
  cases ms with
  | nil => exact ⟨_, by rw [stringifyMembers, quote, List.cons_append, List.cons_append]⟩
  | cons w more =>
    exact ⟨_, by rw [stringifyMembers, quote, List.cons_append, List.cons_append,
      List.cons_append]⟩


theorem stringifyItems_one (v : JsVal) : stringifyItems [v] = stringifyVal v := by
  rw [stringifyItems]

theorem stringifyItems_cons (v w : JsVal) (more : List JsVal) :
    stringifyItems (v :: w :: more) = stringifyVal v ++ ',' :: stringifyItems (w :: more) := by
  rw [stringifyItems]

theorem stringifyMembers_one (key : String) (v : JsVal) :
    stringifyMembers [(key, v)] = quote key ++ ':' :: stringifyVal v := by
  rw [stringifyMembers]

theorem stringifyMembers_cons (key : String) (v : JsVal) (kw : String × JsVal)
    (more : List (String × JsVal)) :
    stringifyMembers ((key, v) :: kw :: more) =
      quote key ++ ':' :: stringifyVal v ++ ',' :: stringifyMembers (kw :: more) := by
  rw [stringifyMembers]

theorem quote_append (key : String) (tail : List Char) :
    quote key ++ tail = '"' :: (escapeChars key.data ++ '"' :: tail) := by
  simp [quote]

theorem skipWs_append_of_head {l : List Char} {c : Char} {cs : List Char} (h : l = c :: cs)
    (hws : isWs c = false) (tail : List Char) : skipWs (l ++ tail) = l ++ tail := by
  subst h
  exact skipWs_of_not_ws _ hws

theorem not_numChar_head (d : Char) (tail : List Char) (hd : isNumChar d = false) :
    ∀ c ∈ (d :: tail).head?, isNumChar c = false := by
  intro c hc
  simp only [List.head?_cons, Option.mem_def, Option.some.injEq] at hc
  exact hc ▸ hd

mutual

theorem run_stringifyVal : (v : JsVal) → wellFormed v = true → ∀ (rest : List Char) (n : Nat),
    (∀ c ∈ rest.head?, isNumChar c = false) → need .value (stringifyVal v ++ rest) ≤ n →
    run n .value (stringifyVal v ++ rest) = some (v, rest)
  | .null, _, rest, n, _, hn => by
    rw [stringifyVal] at hn ⊢
    obtain ⟨n, rfl⟩ : ∃ k, n = k + 1 := ⟨n - 1, by simp [need] at hn; omega⟩
    simp [run, isDigit]
  | .bool true, _, rest, n, _, hn => by
    rw [stringifyVal] at hn ⊢
    obtain ⟨n, rfl⟩ : ∃ k, n = k + 1 := ⟨n - 1, by simp [need] at hn; omega⟩
    simp [run, isDigit]
  | .bool false, _, rest, n, _, hn => by
    rw [stringifyVal] at hn ⊢
    obtain ⟨n, rfl⟩ : ∃ k, n = k + 1 := ⟨n - 1, by simp [need] at hn; omega⟩
    simp [run, isDigit]
  | .num literal, hw, rest, n, hrest, hn => by
    simp only [wellFormed, Bool.and_eq_true] at hw
    rw [stringifyVal] at hn ⊢
    obtain ⟨c, cs, hlit, -⟩ := validNumber_head hw.1
    obtain ⟨n, rfl⟩ : ∃ k, n = k + 1 :=
      ⟨n - 1, by rw [hlit] at hn; simp [need] at hn; omega⟩
    exact run_num n literal.data rest hw.1 hw.2 hrest
  | .str s, _, rest, n, _, hn => by
    rw [stringifyVal, quote_append] at hn ⊢
    obtain ⟨n, rfl⟩ : ∃ k, n = k + 1 := ⟨n - 1, by simp [need] at hn; omega⟩
    exact run_value_str n s rest
  | .arr items, hw, rest, n, _, hn => by
    rw [wellFormed] at hw
    rw [stringifyVal] at hn ⊢
    simp only [List.cons_append, List.append_assoc, List.singleton_append,
      List.nil_append] at hn ⊢
    obtain ⟨n, rfl⟩ : ∃ k, n = k + 1 := ⟨n - 1, by simp [need] at hn; omega⟩
    by_cases hitems : items = []
    · subst hitems
      rw [stringifyItems, List.nil_append]
      exact run_value_arr_empty n rest
    · obtain ⟨x, xs, hx⟩ := List.exists_cons_of_ne_nil hitems
      have hwx : wellFormed x = true := by
        rw [hx, wellFormedItems, Bool.and_eq_true] at hw
        exact hw.1
      obtain ⟨c, cs, hh, hws, hne⟩ := stringifyItems_head x xs hwx
      rw [← hx] at hh
      have hrec := run_stringifyItems items hitems hw [] rest n
        (by simp only [need, List.length_cons] at hn ⊢; omega)
      rw [List.nil_append] at hrec
      rw [← hrec, hh, List.cons_append]
      exact run_value_arr n c _ hws hne
  | .obj members, hw, rest, n, _, hn => by
    rw [wellFormed] at hw
    rw [stringifyVal] at hn ⊢
    simp only [List.cons_append, List.append_assoc, List.singleton_append,
      List.nil_append] at hn ⊢
    obtain ⟨n, rfl⟩ : ∃ k, n = k + 1 := ⟨n - 1, by simp [need] at hn; omega⟩
    by_cases hms : members = []
    · subst hms
      rw [stringifyMembers, List.nil_append]
      exact run_value_obj_empty n rest
    · obtain ⟨x, xs, hx⟩ := List.exists_cons_of_ne_nil hms
      obtain ⟨cs, hh⟩ := stringifyMembers_head x xs
      rw [← hx] at hh
      have hrec := run_stringifyMembers members hms hw [] rest n (by simp)
        (by simp only [need, List.length_cons] at hn ⊢; omega)
      rw [List.nil_append] at hrec
      rw [← hrec, hh, List.cons_append]
      exact run_value_obj n '"' _ (by decide) (by decide)

theorem run_stringifyItems : (items : List JsVal) → items ≠ [] →
    wellFormedItems items = true → ∀ (acc : List JsVal) (rest : List Char) (n : Nat),
    need (.elems acc) (stringifyItems items ++ ']' :: rest) ≤ n →
    run n (.elems acc) (stringifyItems items ++ ']' :: rest) = some (.arr (acc ++ items), rest)
  | [], h, _, _, _, _, _ => absurd rfl h
  | [v], _, hw, acc, rest, n, hn => by
    simp only [wellFormedItems, Bool.and_eq_true, and_true] at hw
    rw [stringifyItems_one] at hn ⊢
    obtain ⟨n, rfl⟩ : ∃ k, n = k + 1 := ⟨n - 1, by simp [need] at hn; omega⟩
    have hv := run_stringifyVal v hw (']' :: rest) n (not_numChar_head _ _ (by decide))
      (by simp only [need] at hn ⊢; omega)
    rw [run_elems_step n acc _ v ']' rest hv (by decide), if_neg (by decide), if_pos rfl]
  | v :: w :: more, _, hw, acc, rest, n, hn => by
    rw [wellFormedItems, Bool.and_eq_true] at hw
    rw [stringifyItems_cons] at hn ⊢
    simp only [List.cons_append, List.append_assoc] at hn ⊢
    obtain ⟨n, rfl⟩ : ∃ k, n = k + 1 := ⟨n - 1, by simp [need] at hn; omega⟩
    have hv := run_stringifyVal v hw.1 (',' :: (stringifyItems (w :: more) ++ ']' :: rest)) n
      (not_numChar_head _ _ (by decide)) (by simp only [need] at hn ⊢; omega)
    have hw2 := hw.2
    have hwhead : wellFormed w = true := by
      rw [wellFormedItems, Bool.and_eq_true] at hw2
      exact hw2.1
    obtain ⟨c, cs, hh, hws, -⟩ := stringifyItems_head w more hwhead
    rw [run_elems_step n acc _ v ',' _ hv (by decide), if_pos rfl,
      skipWs_append_of_head hh hws,
      run_stringifyItems (w :: more) (List.cons_ne_nil _ _) hw.2 (acc ++ [v]) rest n
        (by simp only [need, List.length_append, List.length_cons] at hn ⊢; omega),
      List.append_assoc, List.singleton_append]

theorem run_stringifyMembers : (members : List (String × JsVal)) → members ≠ [] →
    wellFormedMembers members = true →
    ∀ (acc : List (String × JsVal)) (rest : List Char) (n : Nat),
    (∀ kv ∈ members, ∀ kw ∈ acc, kw.1 ≠ kv.1) →
    need (.members acc) (stringifyMembers members ++ '}' :: rest) ≤ n →
    run n (.members acc) (stringifyMembers members ++ '}' :: rest) =
      some (.obj (acc ++ members), rest)
  | [], h, _, _, _, _, _, _ => absurd rfl h
  | [(key, v)], _, hw, acc, rest, n, hacc, hn => by
    simp only [wellFormedMembers, Bool.and_eq_true, and_true, List.all_nil] at hw
    rw [stringifyMembers_one] at hn ⊢
    simp only [List.cons_append, List.append_assoc] at hn ⊢
    obtain ⟨n, rfl⟩ : ∃ k, n = k + 1 := ⟨n - 1, by simp [need] at hn; omega⟩
    have hv := run_stringifyVal v hw ('}' :: rest) n (not_numChar_head _ _ (by decide))
      (by simp only [need, List.length_append, List.length_cons] at hn ⊢; omega)
    obtain ⟨c0, cs0, hh, hc0, -⟩ := stringifyVal_head v hw
    rw [hh, List.cons_append] at hv ⊢
    rw [quote_append, run_members_step n acc key c0 _ v '}' rest hv hc0 (by decide),
      if_neg (by decide), if_pos rfl,
      setProp_fresh key v acc (fun kw hkw => hacc (key, v) (List.mem_singleton.2 rfl) kw hkw)]
  | (key, v) :: kw :: more, _, hw, acc, rest, n, hacc, hn => by
    rw [wellFormedMembers, Bool.and_eq_true, Bool.and_eq_true] at hw
    obtain ⟨⟨hwv, hkeys⟩, hwrest⟩ := hw
    rw [stringifyMembers_cons] at hn ⊢
    simp only [List.cons_append, List.append_assoc] at hn ⊢
    obtain ⟨n, rfl⟩ : ∃ k, n = k + 1 := ⟨n - 1, by simp [need] at hn; omega⟩
    have hv := run_stringifyVal v hwv (',' :: (stringifyMembers (kw :: more) ++ '}' :: rest)) n
      (not_numChar_head _ _ (by decide))
      (by simp only [need, List.length_append, List.length_cons] at hn ⊢; omega)
    have hrec := run_stringifyMembers (kw :: more) (List.cons_ne_nil _ _) hwrest
      (acc ++ [(key, v)]) rest n
      (by
        intro x hx y hy
        rcases List.mem_append.1 hy with hy | hy
        · exact hacc x (List.mem_cons_of_mem _ hx) y hy
        · rw [List.mem_singleton.1 hy]
          have := of_decide_eq_true (List.all_eq_true.1 hkeys x hx)
          exact fun h => this h.symm)
      (by simp only [need, List.length_append, List.length_cons] at hn ⊢; omega)
    obtain ⟨cs, hhm⟩ := stringifyMembers_head kw more
    obtain ⟨c0, cs0, hh, hc0, -⟩ := stringifyVal_head v hwv
    rw [hh, List.cons_append] at hv ⊢
    rw [quote_append, run_members_step n acc key c0 _ v ',' _ hv hc0 (by decide), if_pos rfl,
      setProp_fresh key v acc
        (fun y hy => hacc (key, v) (List.mem_cons_self _ _) y hy),
      skipWs_append_of_head hhm (by decide), hrec, List.append_assoc, List.singleton_append]

end


theorem wellFormedItems_append (acc : List JsVal) (v : JsVal)
    (hacc : wellFormedItems acc = true) (hv : wellFormed v = true) :
    wellFormedItems (acc ++ [v]) = true := by
  induction acc with
  | nil => simp [wellFormedItems, hv]
  | cons x xs ih =>
    rw [wellFormedItems, Bool.and_eq_true] at hacc
    rw [List.cons_append, wellFormedItems, Bool.and_eq_true]
    exact ⟨hacc.1, ih hacc.2⟩

theorem mem_setProp (key : String) (v : JsVal) : ∀ (acc : List (String × JsVal))
    (x : String × JsVal), x ∈ setProp key v acc → x.1 = key ∨ x ∈ acc := by
  intro acc
  induction acc with
  | nil =>
    intro x hx
    simp only [setProp, List.mem_singleton] at hx
    exact Or.inl (by rw [hx])
  | cons kw rest ih =>
    intro x hx
    obtain ⟨k, w⟩ := kw
    unfold setProp at hx
    split at hx
    · rename_i hk
      rcases List.mem_cons.1 hx with rfl | hx
      · exact Or.inl hk
      · exact Or.inr (List.mem_cons_of_mem _ hx)
    · rcases List.mem_cons.1 hx with rfl | hx
      · exact Or.inr (List.mem_cons_self _ _)
      · rcases ih x hx with h | h
        · exact Or.inl h
        · exact Or.inr (List.mem_cons_of_mem _ h)

theorem wellFormedMembers_setProp (key : String) (v : JsVal) (hv : wellFormed v = true) :
    ∀ (acc : List (String × JsVal)), wellFormedMembers acc = true →
      wellFormedMembers (setProp key v acc) = true := by
  intro acc
  induction acc with
  | nil =>
    intro _
    simp [setProp, wellFormedMembers, hv]
  | cons kw rest ih =>
    intro hacc
    obtain ⟨k, w⟩ := kw
    rw [wellFormedMembers, Bool.and_eq_true, Bool.and_eq_true] at hacc
    obtain ⟨⟨hw, hkeys⟩, hrest⟩ := hacc
    unfold setProp
    split
    · rw [wellFormedMembers, Bool.and_eq_true, Bool.and_eq_true]
      exact ⟨⟨hv, hkeys⟩, hrest⟩
    · rename_i hk
      rw [wellFormedMembers, Bool.and_eq_true, Bool.and_eq_true]
      refine ⟨⟨hw, ?_⟩, ih hrest⟩
      rw [List.all_eq_true]
      intro x hx
      rcases mem_setProp key v rest x hx with h | h
      · exact decide_eq_true (by rw [h]; exact fun h2 => hk h2.symm)
      · exact List.all_eq_true.1 hkeys x h

theorem all_takeWhile_self (p : Char → Bool) (l : List Char) :
    (l.takeWhile p).all p = true := by
  induction l with
  | nil => rfl
  | cons c cs ih =>
    by_cases hc : p c = true
    · simp [List.takeWhile, hc, ih]
    · simp [List.takeWhile, hc]

theorem run_wellFormed (n : Nat) : ∀ (task : Task) (cs : List Char) (v : JsVal)
    (rest : List Char), run n task cs = some (v, rest) →
    (∀ acc, task = .elems acc → wellFormedItems acc = true) →
    (∀ acc, task = .members acc → wellFormedMembers acc = true) → wellFormed v = true := by
  induction n with
  | zero => intro task cs v rest h; simp [run] at h
  | succ n ih =>
    intro task cs v rest h hitems hmembers
    cases cs with
    | nil => simp [run] at h
    | cons c cs =>
      cases task with
      | value =>
        simp only [run] at h
        split at h
        · split at h
          · cases h
          · split at h
            · cases h
              rfl
            · exact ih _ _ _ _ h (fun _ hacc => by cases hacc)
                (fun _ hacc => by cases hacc; rfl)
        split at h
        · split at h
          · cases h
          · split at h
            · cases h
              rfl
            · exact ih _ _ _ _ h (fun _ hacc => by cases hacc; rfl)
                (fun _ hacc => by cases hacc)
        split at h
        · split at h
          · cases h
          · cases h
            rfl
        split at h
        · split at h
          · rename_i hvalid
            cases h
            rw [wellFormed, Bool.and_eq_true]
            exact ⟨hvalid, all_takeWhile_self _ _⟩
          · cases h
        split at h
        · split at h
          · cases h
            rfl
          · cases h
        split at h
        · split at h
          · cases h
            rfl
          · cases h
        split at h
        · split at h
          · cases h
            rfl
          · cases h
        · cases h
      | elems acc =>
        have hacc := hitems acc rfl
        simp only [run] at h
        split at h
        · cases h
        · rename_i v1 r1 hv
          have hv1 := ih _ _ _ _ hv (fun _ h => by cases h) (fun _ h => by cases h)
          have hnext := wellFormedItems_append acc v1 hacc hv1
          split at h
          · cases h
          · split at h
            · exact ih _ _ _ _ h (fun _ h => by cases h; exact hnext) (fun _ h => by cases h)
            · split at h
              · cases h
                rw [wellFormed]
                exact hnext
              · cases h
      | members acc =>
        have hacc := hmembers acc rfl
        simp only [run] at h
        split at h
        · split at h
          · cases h
          · rename_i key r0 hkey
            split at h
            · cases h
            · split at h
              · split at h
                · cases h
                · rename_i v1 r1 hv
                  have hv1 := ih _ _ _ _ hv (fun _ h => by cases h) (fun _ h => by cases h)
                  have hnext := wellFormedMembers_setProp key v1 hv1 acc hacc
                  split at h
                  · cases h
                  · split at h
                    · exact ih _ _ _ _ h (fun _ h => by cases h)
                        (fun _ h => by cases h; exact hnext)
                    · split at h
                      · cases h
                        rw [wellFormed]
                        exact hnext
                      · cases h
              · cases h
        · cases h


theorem parse_wellFormed {t : String} {v : JsVal} (h : parse t = some v) :
    wellFormed v = true := by
  obtain ⟨rest, hrun, -⟩ := parse_eq_some h
  exact run_wellFormed _ _ _ _ _ hrun (fun _ h => by cases h) (fun _ h => by cases h)

/-- Parsing the serialisation of a value that `JSON.parse` can produce gives
the value back. -/
theorem parse_stringify (v : JsVal) (hw : wellFormed v = true) :
    parse (stringify v) = some v := by
  obtain ⟨c, cs, hh, hws, -⟩ := stringifyVal_head v hw
  have hsk : skipWs (stringifyVal v) = stringifyVal v := by
    rw [hh]
    exact skipWs_of_not_ws _ hws
  have hrun := run_stringifyVal v hw [] (2 * (stringifyVal v).length + 2) (by simp)
    (by simp [need])
  rw [List.append_nil] at hrun
  unfold parse stringify
  simp only [hsk, hrun, skipWs, if_true]

theorem lookup_wellFormed (key : String) : ∀ (members : List (String × JsVal)),
    wellFormedMembers members = true → wellFormed ((lookup key members).getD .null) = true := by
  intro members
  induction members with
  | nil => intro _; rfl
  | cons kw rest ih =>
    intro hw
    obtain ⟨k, w⟩ := kw
    rw [wellFormedMembers, Bool.and_eq_true, Bool.and_eq_true] at hw
    unfold lookup
    split
    · exact hw.1.1
    · exact ih hw.2

end JSON

theorem salvage_wellFormed (t : String) :
    tryCatch (salvageAttempt t) (fun _ => .ok none) = .ok none ∨
    ∃ am plan, tryCatch (salvageAttempt t) (fun _ => .ok none) =
      .ok (some (resJson (chatPlanBody am plan))) ∧
      JSON.wellFormed am = true ∧ JSON.wellFormed plan = true := by
  cases h : regexMatch t.data with
  | none => exact Or.inl (salvage_of_no_match h)
  | some c =>
    cases hp : JSON.parse (String.mk c) with
    | none => exact Or.inl (salvage_of_parse_none h hp)
    | some v =>
      cases v with
      | null => exact Or.inl (salvage_of_parse_null h hp)
      | obj members =>
        have hw := JSON.parse_wellFormed hp
        rw [JSON.wellFormed] at hw
        exact Or.inr ⟨_, _, salvage_of_parse_obj h hp, JSON.lookup_wellFormed _ _ hw,
          JSON.lookup_wellFormed _ _ hw⟩
      | bool b => exact Or.inr ⟨_, _, salvage_of_parse_other h hp (Or.inl ⟨b, rfl⟩), rfl, rfl⟩
      | num n =>
        exact Or.inr ⟨_, _, salvage_of_parse_other h hp (Or.inr (Or.inl ⟨n, rfl⟩)), rfl, rfl⟩
      | str s =>
        exact Or.inr ⟨_, _, salvage_of_parse_other h hp (Or.inr (Or.inr (Or.inl ⟨s, rfl⟩))),
          rfl, rfl⟩
      | arr xs =>
        exact Or.inr ⟨_, _, salvage_of_parse_other h hp (Or.inr (Or.inr (Or.inr ⟨xs, rfl⟩))),
          rfl, rfl⟩

theorem normalise_after_error_wellFormed {t : String} {e : JsError} (ht : t ≠ "")
    (h : strictAttempt t = .error e) :
    ∃ am plan, chatPlanNormalise t = .ok (resJson (chatPlanBody am plan)) ∧
      JSON.wellFormed am = true ∧ JSON.wellFormed plan = true := by
  rw [normalise_of_strict_error ht h]
  rcases salvage_wellFormed t with hs | ⟨am, plan, hs, ham, hplan⟩
  · rw [hs]
    exact ⟨.str t, .null, rfl, rfl, rfl⟩
  · rw [hs]
    exact ⟨am, plan, rfl, ham, hplan⟩

/-- Every response text has a result, and its two members are values that
`JSON.parse` can produce. -/
theorem normalise_wellFormed (t : String) :
    ∃ am plan, chatPlanNormalise t = .ok (resJson (chatPlanBody am plan)) ∧
      JSON.wellFormed am = true ∧ JSON.wellFormed plan = true := by
  by_cases ht : t = ""
  · subst ht
    exact ⟨.str noResponseMessage, .null, rfl, rfl, rfl⟩
  · cases hp : JSON.parse t with
    | none => exact normalise_after_error_wellFormed ht (strictAttempt_of_none hp)
    | some v =>
      cases v with
      | null => exact normalise_after_error_wellFormed ht (strictAttempt_of_null hp)
      | str s => exact ⟨_, _, normalise_of_strict_ok ht (strictAttempt_of_str hp), rfl, rfl⟩
      | obj members =>
        have hw := JSON.parse_wellFormed hp
        rw [JSON.wellFormed] at hw
        exact ⟨_, _, normalise_of_strict_ok ht (strictAttempt_of_obj hp),
          JSON.lookup_wellFormed _ _ hw, JSON.lookup_wellFormed _ _ hw⟩
      | bool b =>
        exact ⟨_, _, normalise_of_strict_ok ht (strictAttempt_of_other hp (Or.inl ⟨b, rfl⟩)),
          rfl, rfl⟩
      | num n =>
        exact ⟨_, _, normalise_of_strict_ok ht
          (strictAttempt_of_other hp (Or.inr (Or.inl ⟨n, rfl⟩))), rfl, rfl⟩
      | arr xs =>
        exact ⟨_, _, normalise_of_strict_ok ht
          (strictAttempt_of_other hp (Or.inr (Or.inr ⟨xs, rfl⟩))), rfl, rfl⟩

/-- C23. Every upstream response text `t` has a result `r`, and normalising
the JSON serialisation of the body of `r` yields `r` again. -/
theorem chatPlanNormalise_idempotent (t : String) :
    ∃ r, chatPlanNormalise t = .ok r ∧ chatPlanNormalise (JSON.stringify r.body) = .ok r := by
  obtain ⟨am, plan, hr, ham, hplan⟩ := normalise_wellFormed t
  refine ⟨_, hr, ?_⟩
  have hw : JSON.wellFormed (chatPlanBody am plan) = true := by
    simp [chatPlanBody, JSON.wellFormed, JSON.wellFormedMembers, ham, hplan]
  have hp := JSON.parse_stringify _ hw
  show chatPlanNormalise (JSON.stringify (chatPlanBody am plan)) = _
  rw [normalise_of_strict_ok (ne_empty_of_parse hp) (strictAttempt_of_obj hp)]
  have h1 : (lookup "assistant_message" [("assistant_message", am), ("plan", plan)]).getD
      .null = am := rfl
  have h2 : (lookup "plan" [("assistant_message", am), ("plan", plan)]).getD .null = plan :=
    rfl
  rw [h1, h2]

end TripPlanner
